import Mathlib

/-!
# ARM64 machine-code encoder (`lib/Backend/arm64/EncoderMD.cpp`)

A shallow embedding of the encoder driver of the ARM64 backend and proofs of
properties of its dispatch, of its memory-operand resolution, of its
relocation bookkeeping, of the store of the encoded word, of its peephole
folders and of its branch-offset conversion.

Conventions of the embedding

* C++ integers are `Int`/`Nat`; a conversion to a fixed-width type is written
  out (`toInt32`, `% 2 ^ 64`, ...).
* A routine that can hit `Assert(...)` (or dereference a null operand) returns
  an `Except Fatal`; an error is the abnormal termination of the debug build.
* The instruction-word encoders of `ARM64Encoder.h` / `ARM64NeonEncoder.h`, the
  register table and the constants of `md.h` are not part of this file of the
  backend.  They are parameters (`MdDecls`): an encoder invocation is the value
  `EmitCall` (which encoder, which arguments, in order) and the parameter
  `emit` says what the invocation returns and leaves in the code emitter.
* `Encode` is the build without `INSERT_NOPS`; the build switch `DBG_DUMP` and
  the configuration flag read under it are inputs (`EncodeEnv`).
* Operand objects are compared by address where the code compares pointers
  (`m_src1Addr`, `RegOpndPtr.addr`).
-/

namespace EncoderMD

/-- The two ways a routine of the debug build terminates abnormally: a failed
`Assert`, or the use of a null operand pointer. -/
inductive Fatal where
  | assertion
  | nullDeref
  deriving DecidableEq, Repr

/-- An `Assert(cond)` of the debug build. -/
def Assert (cond : Bool) : Except Fatal Unit :=
  if cond then .ok () else .error .assertion

/-- Use of an operand pointer (`instr->GetDst()->...`); `none` is the null
pointer. -/
def deref {α : Type} (p : Option α) : Except Fatal α :=
  match p with
  | some a => .ok a
  | none => .error .nullDeref

/-! ## Types, registers, operands -/

/-- Modelled from the spec: the `IRType` enumeration of `IRType.h` (not part
of the sources): the integers of 1, 2, 4 and 8 bytes, signed and unsigned, the
two floating-point types, and `TyOther` for every remaining type of the
enumeration, with its byte width. -/
inductive IRType where
  | TyInt8 | TyUint8 | TyInt16 | TyUint16
  | TyInt32 | TyUint32 | TyInt64 | TyUint64
  | TyFloat32 | TyFloat64
  | TyOther (bytes : Nat)
  deriving DecidableEq, Repr

/-- Modelled from the spec: the table `TySize[]` of `IRType.h` (not part of the
sources), the byte width of a type. -/
def TySize : IRType → Int
  | .TyInt8 | .TyUint8 => 1
  | .TyInt16 | .TyUint16 => 2
  | .TyInt32 | .TyUint32 | .TyFloat32 => 4
  | .TyInt64 | .TyUint64 | .TyFloat64 => 8
  | .TyOther bytes => bytes

/-- Modelled from the spec: the predicate `IRType_IsFloat` of `IRType.h` (not
part of the sources), the float class of a type. -/
def IRType_IsFloat : IRType → Bool
  | .TyFloat32 | .TyFloat64 => true
  | _ => false

/-- Modelled from the spec: the alias `TyMachReg` of `IRType.h` (not part of
the sources), the integer type of machine-register width on the 64-bit
target. -/
def TyMachReg : IRType := .TyInt64

/-- Abstract register identifier (`RegNum`). -/
abbrev RegNum := Nat

/-- Stack symbol (`StackSym`): the fields read by the encoder. -/
structure StackSym where
  m_offset : Int := 0
  m_isArgSlotSym : Bool := false
  m_isOrphanedArg : Bool := false
  m_isParamSym : Bool := false
  m_isInlinedArgSlot : Bool := false
  m_allocated : Bool := true
  deriving DecidableEq, Repr

def StackSym.IsArgSlotSym (s : StackSym) : Bool := s.m_isArgSlotSym
def StackSym.IsParamSlotSym (s : StackSym) : Bool := s.m_isParamSym
def StackSym.IsAllocated (s : StackSym) : Bool := s.m_allocated

/-- Register operand (`IR::RegOpnd`). -/
structure RegOpnd where
  m_reg : RegNum
  m_type : IRType
  deriving DecidableEq, Repr

/-- Immediate operand: any operand for which `IsImmediateOpnd()` holds, with
the signed 64-bit value `GetImmediateValue` returns. -/
structure IntConstOpnd where
  m_value : Int
  m_type : IRType
  deriving DecidableEq, Repr

/-- Symbolic stack operand (`IR::SymOpnd`). -/
structure SymOpnd where
  m_sym : StackSym
  m_offset : Int
  m_type : IRType
  deriving DecidableEq, Repr

/-- Indirect memory operand (`IR::IndirOpnd`); a null index is `none`. -/
structure IndirOpnd where
  m_baseOpnd : RegOpnd
  m_indexOpnd : Option RegOpnd
  m_scale : Nat
  m_offset : Int
  m_type : IRType
  deriving DecidableEq, Repr

def IndirOpnd.GetBaseOpnd (i : IndirOpnd) : RegOpnd := i.m_baseOpnd
def IndirOpnd.GetIndexOpnd (i : IndirOpnd) : Option RegOpnd := i.m_indexOpnd
def IndirOpnd.GetOffset (i : IndirOpnd) : Int := i.m_offset
def IndirOpnd.GetScale (i : IndirOpnd) : Nat := i.m_scale

/-- Operand (`IR::Opnd`): the four kinds the encoder tests for, and `other`
for every remaining operand kind. -/
inductive Opnd where
  | reg (r : RegOpnd)
  | imm (c : IntConstOpnd)
  | sym (s : SymOpnd)
  | indir (i : IndirOpnd)
  | other (type : IRType)
  deriving DecidableEq, Repr

namespace Opnd

def IsRegOpnd : Opnd → Bool
  | .reg _ => true
  | _ => false

def IsImmediateOpnd : Opnd → Bool
  | .imm _ => true
  | _ => false

def IsSymOpnd : Opnd → Bool
  | .sym _ => true
  | _ => false

def IsIndirOpnd : Opnd → Bool
  | .indir _ => true
  | _ => false

def GetType : Opnd → IRType
  | .reg r => r.m_type
  | .imm c => c.m_type
  | .sym s => s.m_type
  | .indir i => i.m_type
  | .other t => t

def GetSize (o : Opnd) : Int := TySize o.GetType

def IsFloat (o : Opnd) : Bool := IRType_IsFloat o.GetType

/-- The downcast `AsRegOpnd()`; it asserts the kind. -/
def AsRegOpnd : Opnd → Except Fatal RegOpnd
  | .reg r => .ok r
  | _ => .error .assertion

/-- The downcast `AsSymOpnd()`; it asserts the kind. -/
def AsSymOpnd : Opnd → Except Fatal SymOpnd
  | .sym s => .ok s
  | _ => .error .assertion

/-- The downcast `AsIndirOpnd()`; it asserts the kind. -/
def AsIndirOpnd : Opnd → Except Fatal IndirOpnd
  | .indir i => .ok i
  | _ => .error .assertion

/-- The value `GetImmediateValue` returns (an `int64`); it is only defined on
immediate operands and asserts on the others. -/
def GetImmediateValue : Opnd → Except Fatal Int
  | .imm c => .ok c.m_value
  | _ => .error .assertion

end Opnd

/-- Conversion to `int32` (two's complement). -/
def toInt32 (x : Int) : Int := (x + 2 ^ 31) % 2 ^ 32 - 2 ^ 31

/-- Conversion to `uint32` (`ULONG`, `uint`). -/
def toUInt32 (x : Int) : Int := x % 2 ^ 32

/-- Conversion to `ULONG64`. -/
def toUInt64 (x : Int) : Int := x % 2 ^ 64

/-! ## Instructions -/

/-- Opcode of an instruction (`Js::OpCode`): every opcode named in the
dispatch switch of `GenerateEncoding`, and `Other` for every opcode (machine
dependent or not) that has no case there. -/
inductive OpCode where
  | ADD | ADDS | AND | ANDS | ASR | B | BFI | BFXIL | BIC | BL | BR | BLR
  | BEQ | BNE | BLT | BLE | BGT | BGE | BCS | BCC | BHI | BLS | BMI | BPL
  | BVS | BVC | CBZ | CBNZ | CLZ | CMP | CMN | CSELLT | CSNEGPL | CMP_SXTW
  | DEBUGBREAK | EOR | EOR_ASR31 | LDIMM | LDR | LDRS | LDP | LDP_POST | LEA
  | LSL | LSR | MOV | MOV_TRUNC | MOVK | MOVN | MOVZ | MRS_FPCR | MRS_FPSR
  | MSR_FPCR | MSR_FPSR | MUL | MVN | SMULL | SMADDL | MSUB | NOP | ORR | PLD
  | RET | REM | SBFX | SDIV | STR | STP | STP_PRE | SUB | SUBS | SUB_LSL4
  | TBZ | TBNZ | TST | UBFX | FABS | FADD | FCMP | FCVT | FCVTM | FCVTN
  | FCVTP | FCVTZ | FDIV | FLDR | FLDP | FMIN | FMAX | FMOV | FMOV_GEN | FMUL
  | FNEG | FRINTM | FRINTP | FSUB | FSQRT | FSTR | FSTP
  | Other (code : Nat)
  deriving Repr

/-- Identity of a label instruction (the `IR::LabelInstr *` a branch or a
relocation refers to). -/
abbrev LabelRef := Nat

/-- Dynamic class of an instruction object: a plain `IR::Instr`, an
`IR::BranchInstr` with its target, an `IR::LabelInstr`, or the `IR::EntryInstr`
at the head of the function. -/
inductive InstrKind where
  | plain
  | branch (target : LabelRef)
  | label (self : LabelRef)
  | entry
  deriving DecidableEq, Repr

/-- Instruction (`IR::Instr`). -/
structure Instr where
  m_opcode : OpCode
  m_dst : Option Opnd := none
  m_src1 : Option Opnd := none
  m_src2 : Option Opnd := none
  isLowered : Bool := true
  kind : InstrKind := .plain
  isInlineeEntryInstr : Bool := false
  /-- The address of the operand object in the first source slot: the pointer
  that `GetSrc1()` returns when the slot is not empty. -/
  m_src1Addr : Nat := 0
  deriving Repr

namespace Instr

def GetDst (i : Instr) : Option Opnd := i.m_dst
def GetSrc1 (i : Instr) : Option Opnd := i.m_src1
def GetSrc2 (i : Instr) : Option Opnd := i.m_src2
def IsLowered (i : Instr) : Bool := i.isLowered

def IsLabelInstr (i : Instr) : Bool :=
  match i.kind with
  | .label _ => true
  | _ => false

def IsEntryInstr (i : Instr) : Bool :=
  match i.kind with
  | .entry => true
  | _ => false

/-- The target of `AsBranchInstr()->GetTarget()`; the downcast asserts that the
instruction is a branch instruction. -/
def GetTarget (i : Instr) : Except Fatal LabelRef :=
  match i.kind with
  | .branch t => .ok t
  | _ => .error .assertion

end Instr

/-! ## The encoders and tables declared outside this file -/

/-- Names of the instruction-word encoders of `ARM64Encoder.h` and
`ARM64NeonEncoder.h` that the dispatch passes to its helpers or calls. -/
inductive EncFn where
  | EmitAddRegister | EmitAddRegister64 | EmitAddImmediate | EmitAddImmediate64
  | EmitAddsRegister | EmitAddsRegister64 | EmitAddsImmediate | EmitAddsImmediate64
  | EmitAndRegister | EmitAndRegister64 | EmitAndImmediate | EmitAndImmediate64
  | EmitAndsRegister | EmitAndsRegister64 | EmitAndsImmediate | EmitAndsImmediate64
  | EmitAsrRegister | EmitAsrRegister64 | EmitAsrImmediate | EmitAsrImmediate64
  | EmitBranch | EmitBfi | EmitBfi64 | EmitBfxil | EmitBfxil64
  | EmitBicRegister | EmitBicRegister64 | EmitBl | EmitBr | EmitBlr
  | EmitCbz | EmitCbz64 | EmitCbnz | EmitCbnz64 | EmitClz | EmitClz64
  | EmitCsel | EmitCsel64 | EmitCsneg | EmitCsneg64 | EmitDebugBreak
  | EmitEorRegister | EmitEorRegister64 | EmitEorImmediate | EmitEorImmediate64
  | EmitLdrbRegister | EmitLdrhRegister | EmitLdrRegister | EmitLdrRegister64
  | EmitLdrbOffset | EmitLdrhOffset | EmitLdrOffset | EmitLdrOffset64
  | EmitLdrsbRegister | EmitLdrshRegister | EmitLdrswRegister64
  | EmitLdrsbOffset | EmitLdrshOffset | EmitLdrswOffset64
  | EmitLdpOffset | EmitLdpOffset64 | EmitLdpOffsetPostIndex | EmitLdpOffsetPostIndex64
  | EmitLslRegister | EmitLslRegister64 | EmitLslImmediate | EmitLslImmediate64
  | EmitLsrRegister | EmitLsrRegister64 | EmitLsrImmediate | EmitLsrImmediate64
  | EmitMovRegister | EmitMovRegister64
  | EmitMovk | EmitMovk64 | EmitMovn | EmitMovn64 | EmitMovz | EmitMovz64
  | EmitMrs | EmitMsr | EmitMul | EmitMul64 | EmitMvnRegister | EmitMvnRegister64
  | EmitSmull | EmitSmaddl | EmitMsub | EmitNop
  | EmitOrrRegister | EmitOrrRegister64 | EmitOrrImmediate | EmitOrrImmediate64
  | EmitPrfmRegister | EmitPrfmOffset | EmitRet
  | EmitSbfx | EmitSbfx64 | EmitSdiv | EmitSdiv64
  | EmitStrbRegister | EmitStrhRegister | EmitStrRegister | EmitStrRegister64
  | EmitStrbOffset | EmitStrhOffset | EmitStrOffset | EmitStrOffset64
  | EmitStpOffset | EmitStpOffset64 | EmitStpOffsetPreIndex | EmitStpOffsetPreIndex64
  | EmitSubRegister | EmitSubRegister64 | EmitSubImmediate | EmitSubImmediate64
  | EmitSubsRegister | EmitSubsRegister64 | EmitSubsImmediate | EmitSubsImmediate64
  | EmitTbz | EmitTbnz | EmitUbfx | EmitUbfx64
  | EmitNeonFabs | EmitNeonFadd | EmitNeonFcmp | EmitNeonFcvt
  | EmitNeonScvtf | EmitNeonUcvtf | EmitNeonScvtf64 | EmitNeonUcvtf64
  | EmitNeonFcvtmsGen | EmitNeonFcvtmuGen | EmitNeonFcvtmsGen64 | EmitNeonFcvtmuGen64
  | EmitNeonFcvtnsGen | EmitNeonFcvtnuGen | EmitNeonFcvtnsGen64 | EmitNeonFcvtnuGen64
  | EmitNeonFcvtpsGen | EmitNeonFcvtpuGen | EmitNeonFcvtpsGen64 | EmitNeonFcvtpuGen64
  | EmitNeonFcvtzsGen | EmitNeonFcvtzuGen | EmitNeonFcvtzsGen64 | EmitNeonFcvtzuGen64
  | EmitNeonFdiv | EmitNeonLdrOffset | EmitNeonLdpOffset | EmitNeonFmin | EmitNeonFmax
  | EmitNeonFmov | EmitNeonIns | EmitNeonUmov | EmitNeonUmov64 | EmitNeonFmul
  | EmitNeonFneg | EmitNeonFrintm | EmitNeonFrintp | EmitNeonFsub | EmitNeonFsqrt
  | EmitNeonStrOffset | EmitNeonStpOffset
  deriving DecidableEq, Repr

/-- Shift and extend kinds named in this file (`SHIFT_EXTEND_TYPE`). -/
inductive SHIFT_EXTEND_TYPE where
  | SHIFT_LSL | SHIFT_ASR | EXTEND_UXTX | EXTEND_SXTW
  deriving DecidableEq, Repr

/-- Scalar floating-point sizes named in this file (`NEON_SIZE`). -/
inductive NEON_SIZE where
  | SIZE_1S | SIZE_1D
  deriving DecidableEq, Repr

/-- Branch conditions named in this file (`COND_*`). -/
inductive Cond where
  | COND_AL | COND_EQ | COND_NE | COND_LT | COND_LE | COND_GT | COND_GE
  | COND_CS | COND_CC | COND_HI | COND_LS | COND_MI | COND_PL | COND_VS | COND_VC
  deriving DecidableEq, Repr

/-- System registers named in this file. -/
inductive SysReg where
  | ARM64_FPCR | ARM64_FPSR
  deriving DecidableEq, Repr

/-- One actual argument of an encoder invocation (the code emitter, always the
first argument, is left out). -/
inductive EmitArg where
  /-- a hardware register number (`ARM64_REGISTER`, `BYTE`) -/
  | reg (r : Nat)
  /-- an integer argument (`ULONG`, `ULONG64`, `int`, `int32`) -/
  | imm (v : Int)
  /-- the argument `Arm64RegisterParam(r, kind, amount)` -/
  | regParam (r : Nat) (kind : SHIFT_EXTEND_TYPE) (amount : Int)
  /-- the argument `Arm64SimpleRegisterParam(r)` -/
  | simpleRegParam (r : Nat)
  /-- the local `ArmBranchLinker` whose target is the emitter itself -/
  | linker
  | neonSize (s : NEON_SIZE)
  | cond (c : Cond)
  | sysReg (r : SysReg)
  deriving DecidableEq, Repr

/-- An invocation of an encoder: which one, with which arguments, in order. -/
structure EmitCall where
  fn : EncFn
  args : List EmitArg
  deriving DecidableEq, Repr

/-- What an encoder invocation leaves behind: its `int` return value (the
number of bytes emitted) and the word `Emitter.Opcode()` reads afterwards. -/
structure Emitted where
  bytes : Int
  opcode : Nat
  deriving DecidableEq, Repr

/-- Declarations this file uses from headers that are not part of the sources:
the register table `RegEncode[]`, register names, constants of `md.h` and of
`JavascriptFunctionArgIndex.h`, the inline predicate
`CanEncodeLoadStoreOffset` of `EncoderMD.h`, and the encoders. -/
structure MdDecls where
  RegEncode : RegNum → Nat
  RegSP : RegNum
  FRAME_REG : RegNum
  ARMREG_ZR : Nat
  LAST_FLOAT_REG_ENCODE : Nat
  MachRegInt : Int
  JavascriptFunctionArgIndex_Frame : Int
  CanEncodeLoadStoreOffset : Int → Bool
  emit : EmitCall → Emitted

/-- The function under compilation (`Func`): the frame layout the encoder
reads. -/
structure Func where
  m_localsPointer : RegNum
  m_argSlotsForFunctionsCalled : Nat := 0
  m_hasInlinee : Bool := false
  m_inlineeArgumentStackSize : Int := 0
  m_localStackHeight : Int := 0
  m_ArgumentsOffset : Int := 0
  deriving DecidableEq, Repr

def Func.GetLocalsPointer (f : Func) : RegNum := f.m_localsPointer
def Func.HasInlinee (f : Func) : Bool := f.m_hasInlinee
def Func.GetInlineeArgumentStackSize (f : Func) : Int := f.m_inlineeArgumentStackSize

/-! ## Relocation records and the encoder object -/

/-- Kind of a relocation record (`RelocType`). -/
inductive RelocType where
  | RelocTypeBranch26 | RelocTypeBranch19 | RelocTypeBranch14 | RelocTypeLabel
  deriving DecidableEq, Repr

/-- Relocation record (`EncodeReloc`); `m_next` is the tail of the list that
holds the record. -/
structure EncodeReloc where
  m_relocType : RelocType
  m_consumerOffset : Nat
  m_relocInstr : LabelRef
  deriving DecidableEq, Repr

/-- Function `EncodeReloc::New`: the new record becomes the head of the list. -/
def EncodeReloc.New (pHead : List EncodeReloc) (relocType : RelocType) (offset : Nat)
    (relocInstr : LabelRef) : List EncodeReloc :=
  { m_relocType := relocType, m_consumerOffset := offset, m_relocInstr := relocInstr } :: pHead

/-- The mutable members of the `EncoderMD` object: the address being encoded
and the relocation list. -/
structure EncoderState where
  m_pc : Nat
  m_relocList : List EncodeReloc
  deriving DecidableEq, Repr

/-- Function `EncoderMD::Init`: the relocation list becomes empty (`m_encoder`,
which it also sets, is not part of the model); `m_pc` is left as it is. -/
def Init (st : EncoderState) : EncoderState := { st with m_relocList := [] }

/-- Functions `EncoderMD::GetRegEncode`. -/
def GetRegEncode (md : MdDecls) (regOpnd : RegOpnd) : Nat := md.RegEncode regOpnd.m_reg

/-- Function `EncoderMD::GetFloatRegEncode`. -/
def GetFloatRegEncode (md : MdDecls) (regOpnd : RegOpnd) : Except Fatal Nat := do
  let regEncode := GetRegEncode md regOpnd
  Assert (decide (regEncode ≤ md.LAST_FLOAT_REG_ENCODE))
  return regEncode

/-! ## Memory-operand resolution -/

/-- Function `EncoderMD::BaseAndOffsetFromSym`: base register and `int32`
offset of a symbolic stack operand.  The result pair is `(*pBaseReg, *pOffset)`.
The checks of the `#ifdef DBG` block are part of the model. -/
def BaseAndOffsetFromSym (md : MdDecls) (symOpnd : SymOpnd) (func : Func) :
    Except Fatal (RegNum × Int) := do
  let stackSym := symOpnd.m_sym
  let baseReg := func.GetLocalsPointer
  let offset := toInt32 (stackSym.m_offset + symOpnd.m_offset)
  let offset :=
    if baseReg = md.RegSP then
      -- SP points to the base of the argument area.
      toInt32 (offset + func.m_argSlotsForFunctionsCalled * md.MachRegInt)
    else offset
  let offset :=
    if func.HasInlinee then
      -- (the source repeats the test here as `Assert(func->HasInlinee())`)
      if (!stackSym.IsArgSlotSym || stackSym.m_isOrphanedArg) && !stackSym.IsParamSlotSym then
        toInt32 (offset + func.GetInlineeArgumentStackSize)
      else offset
    else offset
  if stackSym.IsParamSlotSym then
    let offset := toInt32 (offset + (func.m_localStackHeight + func.m_ArgumentsOffset))
    if !md.CanEncodeLoadStoreOffset offset then
      -- Use the frame pointer.
      let baseReg := md.FRAME_REG
      let offset := toInt32 (stackSym.m_offset + symOpnd.m_offset
        - md.JavascriptFunctionArgIndex_Frame * md.MachRegInt)
      Assert (md.CanEncodeLoadStoreOffset offset)
      return (baseReg, offset)
    else
      return (baseReg, offset)
  else
    Assert (decide (offset ≥ 0))
    Assert (decide (baseReg ≠ md.RegSP) ||
      decide (toUInt32 offset ≥ toUInt32 (func.m_argSlotsForFunctionsCalled * md.MachRegInt)))
    if func.HasInlinee then
      Assert (decide (baseReg = md.RegSP))
      if stackSym.IsArgSlotSym && !stackSym.m_isOrphanedArg then
        Assert stackSym.m_isInlinedArgSlot
      else
        Assert stackSym.IsAllocated
    return (baseReg, offset)

/-- The return value and the reference parameters of `DecodeMemoryOpnd` on
return; a reference parameter the call did not assign is `none`. -/
structure DecodedMemoryOpnd where
  result : Bool
  baseRegResult : Nat
  indexRegResult : Option Nat
  indexScale : Option Nat
  offset : Int
  deriving DecidableEq, Repr

/-- Function `EncoderMD::DecodeMemoryOpnd`. -/
def DecodeMemoryOpnd (md : MdDecls) (func : Func) (opnd : Opnd) :
    Except Fatal DecodedMemoryOpnd :=
  if opnd.IsSymOpnd then do
    let symOpnd ← opnd.AsSymOpnd
    let (baseReg, offset) ← BaseAndOffsetFromSym md symOpnd func
    return { result := false, baseRegResult := md.RegEncode baseReg,
             indexRegResult := none, indexScale := none, offset := offset }
  else do
    let indirOpnd ← opnd.AsIndirOpnd
    let baseOpnd := indirOpnd.GetBaseOpnd
    let indexOpnd := indirOpnd.GetIndexOpnd
    let offset := indirOpnd.GetOffset
    Assert (decide (offset = 0) || indexOpnd.isNone)
    let baseRegResult := GetRegEncode md baseOpnd
    match indexOpnd with
    | some indexOpnd =>
      return { result := true, baseRegResult := baseRegResult,
               indexRegResult := some (GetRegEncode md indexOpnd),
               indexScale := some indirOpnd.GetScale, offset := offset }
    | none =>
      return { result := false, baseRegResult := baseRegResult,
               indexRegResult := none, indexScale := none, offset := offset }

/-! ## The emit helpers -/

/-- Template `EncoderMD::EmitOp1Register64`. -/
def EmitOp1Register64 (md : MdDecls) (instr : Instr) (reg64 : EncFn) : Except Fatal Emitted := do
  let src1 ← deref instr.GetSrc1
  Assert src1.IsRegOpnd
  let size := src1.GetSize
  Assert (decide (size = 8))
  return md.emit ⟨reg64, [.reg (GetRegEncode md (← src1.AsRegOpnd))]⟩

/-- Template `EncoderMD::EmitOp2Register`. -/
def EmitOp2Register (md : MdDecls) (instr : Instr) (reg32 reg64 : EncFn) : Except Fatal Emitted := do
  let dst ← deref instr.GetDst
  let src1 ← deref instr.GetSrc1
  Assert dst.IsRegOpnd
  Assert src1.IsRegOpnd
  let size := dst.GetSize
  Assert (decide (size = 4) || decide (size = 8))
  Assert (decide (size = src1.GetSize))
  if size = 8 then
    return md.emit ⟨reg64, [.reg (GetRegEncode md (← dst.AsRegOpnd)),
                            .reg (GetRegEncode md (← src1.AsRegOpnd))]⟩
  else
    return md.emit ⟨reg32, [.reg (GetRegEncode md (← dst.AsRegOpnd)),
                            .reg (GetRegEncode md (← src1.AsRegOpnd))]⟩

/-- Template `EncoderMD::EmitOp3Register`. -/
def EmitOp3Register (md : MdDecls) (instr : Instr) (reg32 reg64 : EncFn) : Except Fatal Emitted := do
  let dst ← deref instr.GetDst
  let src1 ← deref instr.GetSrc1
  let src2 ← deref instr.GetSrc2
  Assert dst.IsRegOpnd
  Assert src1.IsRegOpnd
  Assert src2.IsRegOpnd
  let size := dst.GetSize
  Assert (decide (size = 4) || decide (size = 8))
  Assert (decide (size = src1.GetSize))
  Assert (decide (size = src2.GetSize))
  if size = 8 then
    return md.emit ⟨reg64, [.reg (GetRegEncode md (← dst.AsRegOpnd)),
                            .reg (GetRegEncode md (← src1.AsRegOpnd)),
                            .reg (GetRegEncode md (← src2.AsRegOpnd))]⟩
  else
    return md.emit ⟨reg32, [.reg (GetRegEncode md (← dst.AsRegOpnd)),
                            .reg (GetRegEncode md (← src1.AsRegOpnd)),
                            .reg (GetRegEncode md (← src2.AsRegOpnd))]⟩

/-- Template `EncoderMD::EmitOp3RegisterShifted`; `shiftAmount & 63` and
`shiftAmount & 31` of a non-negative `int` are the remainders by 64 and 32. -/
def EmitOp3RegisterShifted (md : MdDecls) (instr : Instr) (shiftType : SHIFT_EXTEND_TYPE)
    (shiftAmount : Int) (reg32 reg64 : EncFn) : Except Fatal Emitted := do
  let dst ← deref instr.GetDst
  let src1 ← deref instr.GetSrc1
  let src2 ← deref instr.GetSrc2
  Assert dst.IsRegOpnd
  Assert src1.IsRegOpnd
  Assert src2.IsRegOpnd
  let size := dst.GetSize
  Assert (decide (size = 4) || decide (size = 8))
  Assert (decide (size = src1.GetSize))
  Assert (decide (size = src2.GetSize))
  if size = 8 then
    return md.emit ⟨reg64, [.reg (GetRegEncode md (← dst.AsRegOpnd)),
                            .reg (GetRegEncode md (← src1.AsRegOpnd)),
                            .regParam (GetRegEncode md (← src2.AsRegOpnd)) shiftType
                              (shiftAmount % 64)]⟩
  else
    return md.emit ⟨reg32, [.reg (GetRegEncode md (← dst.AsRegOpnd)),
                            .reg (GetRegEncode md (← src1.AsRegOpnd)),
                            .regParam (GetRegEncode md (← src2.AsRegOpnd)) shiftType
                              (shiftAmount % 32)]⟩

/-- Template `EncoderMD::EmitOp3Immediate`. -/
def EmitOp3Immediate (md : MdDecls) (instr : Instr) (imm32 imm64 : EncFn) : Except Fatal Emitted := do
  let dst ← deref instr.GetDst
  let src1 ← deref instr.GetSrc1
  let src2 ← deref instr.GetSrc2
  Assert dst.IsRegOpnd
  Assert src1.IsRegOpnd
  Assert src2.IsImmediateOpnd
  let size := dst.GetSize
  Assert (decide (size = 4) || decide (size = 8))
  Assert (decide (size = src1.GetSize))
  let immediate ← src2.GetImmediateValue
  if size = 8 then
    return md.emit ⟨imm64, [.reg (GetRegEncode md (← dst.AsRegOpnd)),
                            .reg (GetRegEncode md (← src1.AsRegOpnd)),
                            .imm (toUInt64 immediate)]⟩
  else
    return md.emit ⟨imm32, [.reg (GetRegEncode md (← dst.AsRegOpnd)),
                            .reg (GetRegEncode md (← src1.AsRegOpnd)),
                            .imm (toUInt32 immediate)]⟩

/-- Template `EncoderMD::EmitOp3RegisterOrImmediate`. -/
def EmitOp3RegisterOrImmediate (md : MdDecls) (instr : Instr)
    (reg32 reg64 imm32 imm64 : EncFn) : Except Fatal Emitted := do
  let src2 ← deref instr.GetSrc2
  if src2.IsImmediateOpnd then
    EmitOp3Immediate md instr imm32 imm64
  else if src2.IsRegOpnd then
    EmitOp3Register md instr reg32 reg64
  else
    Assert false
    return ⟨0, 0⟩

/-- Function `EncoderMD::EmitPrefetch`. -/
def EmitPrefetch (md : MdDecls) (func : Func) (memOpnd : Opnd) : Except Fatal Emitted := do
  Assert (memOpnd.IsIndirOpnd || memOpnd.IsSymOpnd)
  let d ← DecodeMemoryOpnd md func memOpnd
  if d.result then
    return md.emit ⟨.EmitPrfmRegister, [.reg d.baseRegResult,
      .regParam (← deref d.indexRegResult) .SHIFT_LSL (← deref d.indexScale)]⟩
  else
    return md.emit ⟨.EmitPrfmOffset, [.reg d.baseRegResult, .imm d.offset]⟩

/-- Template `EncoderMD::EmitLoadStore`. -/
def EmitLoadStore (md : MdDecls) (func : Func) (memOpnd srcDstOpnd : Option Opnd)
    (reg8 reg16 reg32 reg64 off8 off16 off32 off64 : EncFn) : Except Fatal Emitted := do
  let srcDstOpnd ← deref srcDstOpnd
  let memOpnd ← deref memOpnd
  Assert srcDstOpnd.IsRegOpnd
  Assert (memOpnd.IsIndirOpnd || memOpnd.IsSymOpnd)
  let size := memOpnd.GetSize
  Assert (decide (size = 1) || decide (size = 2) || decide (size = 4) || decide (size = 8))
  let d ← DecodeMemoryOpnd md func memOpnd
  let rt := GetRegEncode md (← srcDstOpnd.AsRegOpnd)
  if d.result then
    let index := EmitArg.regParam (← deref d.indexRegResult) .SHIFT_LSL (← deref d.indexScale)
    if size = 8 then
      return md.emit ⟨reg64, [.reg rt, .reg d.baseRegResult, index]⟩
    else if size = 4 then
      return md.emit ⟨reg32, [.reg rt, .reg d.baseRegResult, index]⟩
    else if size = 2 then
      return md.emit ⟨reg16, [.reg rt, .reg d.baseRegResult, index]⟩
    else
      return md.emit ⟨reg8, [.reg rt, .reg d.baseRegResult, index]⟩
  else
    if size = 8 then
      return md.emit ⟨off64, [.reg rt, .reg d.baseRegResult, .imm d.offset]⟩
    else if size = 4 then
      return md.emit ⟨off32, [.reg rt, .reg d.baseRegResult, .imm d.offset]⟩
    else if size = 2 then
      return md.emit ⟨off16, [.reg rt, .reg d.baseRegResult, .imm d.offset]⟩
    else
      return md.emit ⟨off8, [.reg rt, .reg d.baseRegResult, .imm d.offset]⟩

/-- Template `EncoderMD::EmitLoadStorePair`. -/
def EmitLoadStorePair (md : MdDecls) (func : Func) (memOpnd srcDst1Opnd srcDst2Opnd : Option Opnd)
    (off32 off64 : EncFn) : Except Fatal Emitted := do
  let memOpnd ← deref memOpnd
  Assert (memOpnd.IsIndirOpnd || memOpnd.IsSymOpnd)
  let size := memOpnd.GetSize
  Assert (decide (size = 4) || decide (size = 8))
  let d ← DecodeMemoryOpnd md func memOpnd
  if d.result then
    -- Should never get here
    Assert false
    return ⟨0, 0⟩
  else
    let rt1 := GetRegEncode md (← (← deref srcDst1Opnd).AsRegOpnd)
    let rt2 := GetRegEncode md (← (← deref srcDst2Opnd).AsRegOpnd)
    if size = 8 then
      return md.emit ⟨off64, [.reg rt1, .reg rt2, .reg d.baseRegResult, .imm d.offset]⟩
    else
      return md.emit ⟨off32, [.reg rt1, .reg rt2, .reg d.baseRegResult, .imm d.offset]⟩

/-- Template `EncoderMD::EmitUnconditionalBranch`. -/
def EmitUnconditionalBranch (md : MdDecls) (st : EncoderState) (instr : Instr)
    (emitter : EncFn) : Except Fatal (Emitted × EncoderState) := do
  let target ← instr.GetTarget
  let st := { st with
    m_relocList := EncodeReloc.New st.m_relocList .RelocTypeBranch26 st.m_pc target }
  return (md.emit ⟨emitter, [.linker]⟩, st)

/-- Function `EncoderMD::EmitConditionalBranch`. -/
def EmitConditionalBranch (md : MdDecls) (st : EncoderState) (instr : Instr)
    (condition : Cond) : Except Fatal (Emitted × EncoderState) := do
  let target ← instr.GetTarget
  let st := { st with
    m_relocList := EncodeReloc.New st.m_relocList .RelocTypeBranch19 st.m_pc target }
  return (md.emit ⟨.EmitBranch, [.linker, .cond condition]⟩, st)

/-- Template `EncoderMD::EmitCompareAndBranch`. -/
def EmitCompareAndBranch (md : MdDecls) (st : EncoderState) (instr : Instr)
    (emitter emitter64 : EncFn) : Except Fatal (Emitted × EncoderState) := do
  let src1 ← deref instr.GetSrc1
  Assert src1.IsRegOpnd
  let size := src1.GetSize
  Assert (decide (size = 4) || decide (size = 8))
  let target ← instr.GetTarget
  let st := { st with
    m_relocList := EncodeReloc.New st.m_relocList .RelocTypeBranch19 st.m_pc target }
  if size = 8 then
    return (md.emit ⟨emitter64, [.reg (GetRegEncode md (← src1.AsRegOpnd)), .linker]⟩, st)
  else
    return (md.emit ⟨emitter, [.reg (GetRegEncode md (← src1.AsRegOpnd)), .linker]⟩, st)

/-- Template `EncoderMD::EmitTestAndBranch`. -/
def EmitTestAndBranch (md : MdDecls) (st : EncoderState) (instr : Instr)
    (emitter : EncFn) : Except Fatal (Emitted × EncoderState) := do
  let src1 ← deref instr.GetSrc1
  let src2 ← deref instr.GetSrc2
  Assert src1.IsRegOpnd
  Assert src2.IsImmediateOpnd
  let target ← instr.GetTarget
  let st := { st with
    m_relocList := EncodeReloc.New st.m_relocList .RelocTypeBranch14 st.m_pc target }
  let immediate ← src2.GetImmediateValue
  Assert (decide (immediate ≥ 0) && decide (immediate < 64))
  return (md.emit ⟨emitter, [.reg (GetRegEncode md (← src1.AsRegOpnd)),
                             .imm (toUInt32 immediate), .linker]⟩, st)

/-- Conversion to `int64` (`IntConstType`). -/
def toInt64 (x : Int) : Int := (x + 2 ^ 63) % 2 ^ 64 - 2 ^ 63

/-- The loop of `EmitMovConstant`:
`while ((immediate & 0xFFFF) != immediate) { immediate = ULONG64(immediate) >> 16; shift += 16; }`
on the `int64` variable `immediate`; the result is the pair of the two
variables on exit.  The mask `x & 0xFFFF` of a two's-complement `x` is the
remainder of `x` by `2 ^ 16`. -/
def movConstantLoop (immediate : Int) (shift : Int) : Int × Int :=
  if immediate % 2 ^ 16 ≠ immediate then
    movConstantLoop (toInt64 (toUInt64 immediate / 2 ^ 16)) (shift + 16)
  else
    (immediate, shift)
termination_by (if immediate < 0 then 2 ^ 64 else immediate.toNat)
decreasing_by
  simp only [toInt64, toUInt64]
  split <;> split <;> omega

/-- Template `EncoderMD::EmitMovConstant`. -/
def EmitMovConstant (md : MdDecls) (instr : Instr) (emitter emitter64 : EncFn) :
    Except Fatal Emitted := do
  let dst ← deref instr.GetDst
  let src1 ← deref instr.GetSrc1
  Assert dst.IsRegOpnd
  Assert src1.IsImmediateOpnd
  let size := dst.GetSize
  Assert (decide (size = 4) || decide (size = 8))
  let immediate ← src1.GetImmediateValue
  let (immediate, shift) := movConstantLoop immediate 0
  Assert (decide (shift < 32) || decide (size = 8))
  if size = 8 then
    return md.emit ⟨emitter64, [.reg (GetRegEncode md (← dst.AsRegOpnd)),
                                .imm (toUInt32 immediate), .imm shift]⟩
  else
    return md.emit ⟨emitter, [.reg (GetRegEncode md (← dst.AsRegOpnd)),
                              .imm (toUInt32 immediate), .imm shift]⟩

/-- Template `EncoderMD::EmitBitfield`; `x & 0x3f` is the remainder by 64 and
`x >> 16` the floor division by `2 ^ 16`. -/
def EmitBitfield (md : MdDecls) (instr : Instr) (emitter emitter64 : EncFn) :
    Except Fatal Emitted := do
  let dst ← deref instr.GetDst
  let src1 ← deref instr.GetSrc1
  let src2 ← deref instr.GetSrc2
  Assert dst.IsRegOpnd
  Assert src1.IsRegOpnd
  Assert src2.IsImmediateOpnd
  let size := dst.GetSize
  Assert (decide (size = 4) || decide (size = 8))
  Assert (decide (size = src1.GetSize))
  let immediate ← src2.GetImmediateValue
  let start := immediate % 64
  let length := (immediate / 2 ^ 16) % 64
  Assert (decide (start ≥ 0) && decide (start < 8 * size))
  Assert (decide (length ≥ 0) && decide (length < 8 * size))
  if size = 8 then
    return md.emit ⟨emitter64, [.reg (GetRegEncode md (← dst.AsRegOpnd)),
                                .reg (GetRegEncode md (← src1.AsRegOpnd)),
                                .imm start, .imm length]⟩
  else
    return md.emit ⟨emitter, [.reg (GetRegEncode md (← dst.AsRegOpnd)),
                              .reg (GetRegEncode md (← src1.AsRegOpnd)),
                              .imm start, .imm length]⟩

/-- Template `EncoderMD::EmitConditionalSelect`. -/
def EmitConditionalSelect (md : MdDecls) (instr : Instr) (condition : Cond)
    (emitter emitter64 : EncFn) : Except Fatal Emitted := do
  let dst ← deref instr.GetDst
  let src1 ← deref instr.GetSrc1
  let src2 ← deref instr.GetSrc2
  Assert dst.IsRegOpnd
  Assert src1.IsRegOpnd
  Assert src2.IsRegOpnd
  let size := dst.GetSize
  Assert (decide (size = 4) || decide (size = 8))
  Assert (decide (size = src1.GetSize))
  Assert (decide (size = src2.GetSize))
  if size = 8 then
    return md.emit ⟨emitter64, [.reg (GetRegEncode md (← dst.AsRegOpnd)),
                                .reg (GetRegEncode md (← src1.AsRegOpnd)),
                                .reg (GetRegEncode md (← src2.AsRegOpnd)), .cond condition]⟩
  else
    return md.emit ⟨emitter, [.reg (GetRegEncode md (← dst.AsRegOpnd)),
                              .reg (GetRegEncode md (← src1.AsRegOpnd)),
                              .reg (GetRegEncode md (← src2.AsRegOpnd)), .cond condition]⟩

/-- The expression `(size == 8) ? SIZE_1D : SIZE_1S`. -/
def neonSizeOf (size : Int) : NEON_SIZE := if size = 8 then .SIZE_1D else .SIZE_1S

/-- Template `EncoderMD::EmitOp2FpRegister` (the overload on two operands; the
overload on an instruction passes its destination and first source). -/
def EmitOp2FpRegister (md : MdDecls) (opnd1 opnd2 : Option Opnd) (emitter : EncFn) :
    Except Fatal Emitted := do
  let opnd1 ← deref opnd1
  let opnd2 ← deref opnd2
  Assert opnd1.IsRegOpnd
  Assert opnd2.IsRegOpnd
  let size := opnd1.GetSize
  Assert (decide (size = 4) || decide (size = 8))
  Assert (decide (size = opnd2.GetSize))
  let neonSize := neonSizeOf size
  return md.emit ⟨emitter, [.reg (← GetFloatRegEncode md (← opnd1.AsRegOpnd)),
                            .reg (← GetFloatRegEncode md (← opnd2.AsRegOpnd)),
                            .neonSize neonSize]⟩

/-- Template `EncoderMD::EmitOp3FpRegister`. -/
def EmitOp3FpRegister (md : MdDecls) (instr : Instr) (emitter : EncFn) :
    Except Fatal Emitted := do
  let dst ← deref instr.GetDst
  let src1 ← deref instr.GetSrc1
  let src2 ← deref instr.GetSrc2
  Assert dst.IsRegOpnd
  Assert src1.IsRegOpnd
  Assert src2.IsRegOpnd
  let size := dst.GetSize
  Assert (decide (size = 4) || decide (size = 8))
  Assert (decide (size = src1.GetSize))
  Assert (decide (size = src2.GetSize))
  let neonSize := neonSizeOf size
  return md.emit ⟨emitter, [.reg (← GetFloatRegEncode md (← dst.AsRegOpnd)),
                            .reg (← GetFloatRegEncode md (← src1.AsRegOpnd)),
                            .reg (← GetFloatRegEncode md (← src2.AsRegOpnd)),
                            .neonSize neonSize]⟩

/-- Template `EncoderMD::EmitLoadStoreFp`. -/
def EmitLoadStoreFp (md : MdDecls) (func : Func) (memOpnd srcDstOpnd : Option Opnd)
    (loadStore : EncFn) : Except Fatal Emitted := do
  let srcDstOpnd ← deref srcDstOpnd
  let memOpnd ← deref memOpnd
  Assert srcDstOpnd.IsRegOpnd
  Assert (memOpnd.IsIndirOpnd || memOpnd.IsSymOpnd)
  let size := memOpnd.GetSize
  Assert (decide (size = 4) || decide (size = 8))
  let d ← DecodeMemoryOpnd md func memOpnd
  if d.result then
    -- Should never get here
    Assert false
    return ⟨0, 0⟩
  else
    return md.emit ⟨loadStore, [.reg (← GetFloatRegEncode md (← srcDstOpnd.AsRegOpnd)),
                                .neonSize (neonSizeOf size), .reg d.baseRegResult,
                                .imm d.offset]⟩

/-- Template `EncoderMD::EmitLoadStoreFpPair`. -/
def EmitLoadStoreFpPair (md : MdDecls) (func : Func)
    (memOpnd srcDst1Opnd srcDst2Opnd : Option Opnd) (loadStore : EncFn) :
    Except Fatal Emitted := do
  let memOpnd ← deref memOpnd
  Assert (memOpnd.IsIndirOpnd || memOpnd.IsSymOpnd)
  let size := memOpnd.GetSize
  Assert (decide (size = 4) || decide (size = 8))
  let d ← DecodeMemoryOpnd md func memOpnd
  if d.result then
    -- Should never get here
    Assert false
    return ⟨0, 0⟩
  else
    return md.emit ⟨loadStore, [.reg (← GetFloatRegEncode md (← (← deref srcDst1Opnd).AsRegOpnd)),
                                .reg (← GetFloatRegEncode md (← (← deref srcDst2Opnd).AsRegOpnd)),
                                .neonSize (neonSizeOf size), .reg d.baseRegResult,
                                .imm d.offset]⟩

/-- Template `EncoderMD::EmitConvertToInt`. -/
def EmitConvertToInt (md : MdDecls) (instr : Instr)
    (toInt32Fn toUint32Fn toInt64Fn toUint64Fn : EncFn) : Except Fatal Emitted := do
  let dst ← deref instr.GetDst
  let src1 ← deref instr.GetSrc1
  Assert dst.IsRegOpnd
  Assert (!dst.IsFloat)
  Assert src1.IsRegOpnd
  Assert src1.IsFloat
  let size := dst.GetSize
  Assert (decide (size = 4) || decide (size = 8))
  let srcSize := src1.GetSize
  Assert (decide (srcSize = 4) || decide (srcSize = 8))
  let rd := GetRegEncode md (← dst.AsRegOpnd)
  if dst.GetType = .TyInt32 then
    return md.emit ⟨toInt32Fn, [.reg rd, .reg (← GetFloatRegEncode md (← src1.AsRegOpnd)),
                                .neonSize (neonSizeOf srcSize)]⟩
  else if dst.GetType = .TyUint32 then
    return md.emit ⟨toUint32Fn, [.reg rd, .reg (← GetFloatRegEncode md (← src1.AsRegOpnd)),
                                 .neonSize (neonSizeOf srcSize)]⟩
  else if dst.GetType = .TyInt64 then
    return md.emit ⟨toInt64Fn, [.reg rd, .reg (← GetFloatRegEncode md (← src1.AsRegOpnd)),
                                .neonSize (neonSizeOf srcSize)]⟩
  else if dst.GetType = .TyUint64 then
    return md.emit ⟨toUint64Fn, [.reg rd, .reg (← GetFloatRegEncode md (← src1.AsRegOpnd)),
                                 .neonSize (neonSizeOf srcSize)]⟩
  else
    -- Shouldn't get here
    Assert false
    return ⟨0, 0⟩

/-! ## The dispatch -/

/-- The local emitter before any encoder ran: `bytes = 0`, no word. -/
def noEmit : Emitted := ⟨0, 0⟩

/-- A helper that does not touch the members of the encoder object. -/
def keepState (st : EncoderState) (r : Except Fatal Emitted) :
    Except Fatal (Emitted × EncoderState) := do
  let e ← r
  return (e, st)

/-- The `switch (instr->m_opcode)` of `GenerateEncoding`: the value of `bytes`
and the content of the local emitter after the case of the opcode ran, with
the members of the encoder object. -/
def dispatch (md : MdDecls) (func : Func) (st : EncoderState) (instr : Instr) :
    Except Fatal (Emitted × EncoderState) :=
  match instr.m_opcode with
    | .ADD =>
      keepState st (EmitOp3RegisterOrImmediate md instr .EmitAddRegister .EmitAddRegister64
      .EmitAddImmediate .EmitAddImmediate64)
    | .ADDS =>
      keepState st (EmitOp3RegisterOrImmediate md instr .EmitAddsRegister .EmitAddsRegister64
      .EmitAddsImmediate .EmitAddsImmediate64)
    | .AND =>
      keepState st (EmitOp3RegisterOrImmediate md instr .EmitAndRegister .EmitAndRegister64
      .EmitAndImmediate .EmitAndImmediate64)
    | .ANDS =>
      keepState st (EmitOp3RegisterOrImmediate md instr .EmitAndsRegister .EmitAndsRegister64
      .EmitAndsImmediate .EmitAndsImmediate64)
    | .ASR =>
      keepState st (EmitOp3RegisterOrImmediate md instr .EmitAsrRegister .EmitAsrRegister64
      .EmitAsrImmediate .EmitAsrImmediate64)
    | .B =>
      EmitConditionalBranch md st instr .COND_AL
    | .BFI =>
      keepState st (EmitBitfield md instr .EmitBfi .EmitBfi64)
    | .BFXIL =>
      keepState st (EmitBitfield md instr .EmitBfxil .EmitBfxil64)
    | .BIC =>
      keepState st (EmitOp3Register md instr .EmitBicRegister .EmitBicRegister64)
    | .BL =>
      EmitUnconditionalBranch md st instr .EmitBl
    | .BR =>
      keepState st (EmitOp1Register64 md instr .EmitBr)
    | .BLR =>
      keepState st (EmitOp1Register64 md instr .EmitBlr)
    | .BEQ =>
      EmitConditionalBranch md st instr .COND_EQ
    | .BNE =>
      EmitConditionalBranch md st instr .COND_NE
    | .BLT =>
      EmitConditionalBranch md st instr .COND_LT
    | .BLE =>
      EmitConditionalBranch md st instr .COND_LE
    | .BGT =>
      EmitConditionalBranch md st instr .COND_GT
    | .BGE =>
      EmitConditionalBranch md st instr .COND_GE
    | .BCS =>
      EmitConditionalBranch md st instr .COND_CS
    | .BCC =>
      EmitConditionalBranch md st instr .COND_CC
    | .BHI =>
      EmitConditionalBranch md st instr .COND_HI
    | .BLS =>
      EmitConditionalBranch md st instr .COND_LS
    | .BMI =>
      EmitConditionalBranch md st instr .COND_MI
    | .BPL =>
      EmitConditionalBranch md st instr .COND_PL
    | .BVS =>
      EmitConditionalBranch md st instr .COND_VS
    | .BVC =>
      EmitConditionalBranch md st instr .COND_VC
    | .CBZ =>
      EmitCompareAndBranch md st instr .EmitCbz .EmitCbz64
    | .CBNZ =>
      EmitCompareAndBranch md st instr .EmitCbnz .EmitCbnz64
    | .CLZ =>
      keepState st (EmitOp2Register md instr .EmitClz .EmitClz64)
    | .CMP =>
      -- Legalizer should convert this to SUBS before getting here
      keepState st (do Assert false; return noEmit)
    | .CMN =>
      -- Legalizer should convert this to ADDS before getting here
      keepState st (do Assert false; return noEmit)
    | .CSELLT =>
      keepState st (EmitConditionalSelect md instr .COND_LT .EmitCsel .EmitCsel64)
    | .CSNEGPL =>
      keepState st (EmitConditionalSelect md instr .COND_PL .EmitCsneg .EmitCsneg64)
    | .CMP_SXTW =>
      keepState st (do
        let src1 := instr.GetSrc1
        let src2 := instr.GetSrc2
        Assert instr.GetDst.isNone
        let src1 ← deref src1
        Assert src1.IsRegOpnd
        let src2 ← deref src2
        Assert src2.IsRegOpnd
        let size := src1.GetSize
        Assert (decide (size = 8))
        Assert (decide (size = src2.GetSize))
        return md.emit ⟨.EmitSubsRegister64, [.reg md.ARMREG_ZR,
          .reg (GetRegEncode md (← src1.AsRegOpnd)),
          .regParam (GetRegEncode md (← src2.AsRegOpnd)) .EXTEND_SXTW 0]⟩)
    | .DEBUGBREAK =>
      keepState st (pure (md.emit ⟨.EmitDebugBreak, []⟩))
    | .EOR =>
      keepState st (EmitOp3RegisterOrImmediate md instr .EmitEorRegister .EmitEorRegister64
      .EmitEorImmediate .EmitEorImmediate64)
    | .EOR_ASR31 =>
      keepState st (EmitOp3RegisterShifted md instr .SHIFT_ASR 63 .EmitEorRegister
        .EmitEorRegister64)
    | .LDIMM =>
      -- Legalizer should convert these into MOVZ/MOVN/MOVK
      keepState st (do Assert false; return noEmit)
    | .LDR =>
      keepState st (EmitLoadStore md func instr.GetSrc1 instr.GetDst
        .EmitLdrbRegister .EmitLdrhRegister .EmitLdrRegister .EmitLdrRegister64
        .EmitLdrbOffset .EmitLdrhOffset .EmitLdrOffset .EmitLdrOffset64)
    | .LDRS =>
      keepState st (EmitLoadStore md func instr.GetSrc1 instr.GetDst
        .EmitLdrsbRegister .EmitLdrshRegister .EmitLdrswRegister64 .EmitLdrRegister64
        .EmitLdrsbOffset .EmitLdrshOffset .EmitLdrswOffset64 .EmitLdrOffset64)
    | .LDP =>
      -- src2 is really the second destination register
      keepState st (EmitLoadStorePair md func instr.GetSrc1 instr.GetDst instr.GetSrc2
        .EmitLdpOffset .EmitLdpOffset64)
    | .LDP_POST =>
      keepState st (EmitLoadStorePair md func instr.GetSrc1 instr.GetDst instr.GetSrc2
        .EmitLdpOffsetPostIndex .EmitLdpOffsetPostIndex64)
    | .LEA =>
      -- Legalizer should convert this to MOV/ADD before getting here
      keepState st (do Assert false; return noEmit)
    | .LSL =>
      keepState st (EmitOp3RegisterOrImmediate md instr .EmitLslRegister .EmitLslRegister64
      .EmitLslImmediate .EmitLslImmediate64)
    | .LSR =>
      keepState st (EmitOp3RegisterOrImmediate md instr .EmitLsrRegister .EmitLsrRegister64
      .EmitLsrImmediate .EmitLsrImmediate64)
    | .MOV | .MOV_TRUNC =>
      keepState st (EmitOp2Register md instr .EmitMovRegister .EmitMovRegister64)
    | .MOVK =>
      keepState st (EmitMovConstant md instr .EmitMovk .EmitMovk64)
    | .MOVN =>
      keepState st (EmitMovConstant md instr .EmitMovn .EmitMovn64)
    | .MOVZ =>
      keepState st (EmitMovConstant md instr .EmitMovz .EmitMovz64)
    | .MRS_FPCR =>
      keepState st (do
        let dst ← deref instr.GetDst
        Assert dst.IsRegOpnd
        Assert (decide (dst.GetSize = 4))
        return md.emit ⟨.EmitMrs, [.reg (GetRegEncode md (← dst.AsRegOpnd)), .sysReg .ARM64_FPCR]⟩)
    | .MRS_FPSR =>
      keepState st (do
        let dst ← deref instr.GetDst
        Assert dst.IsRegOpnd
        Assert (decide (dst.GetSize = 4))
        return md.emit ⟨.EmitMrs, [.reg (GetRegEncode md (← dst.AsRegOpnd)), .sysReg .ARM64_FPSR]⟩)
    | .MSR_FPCR =>
      keepState st (do
        let src1 ← deref instr.GetSrc1
        Assert src1.IsRegOpnd
        Assert (decide (src1.GetSize = 4))
        return md.emit ⟨.EmitMsr, [.reg (GetRegEncode md (← src1.AsRegOpnd)), .sysReg .ARM64_FPCR]⟩)
    | .MSR_FPSR =>
      keepState st (do
        let src1 ← deref instr.GetSrc1
        Assert src1.IsRegOpnd
        Assert (decide (src1.GetSize = 4))
        return md.emit ⟨.EmitMsr, [.reg (GetRegEncode md (← src1.AsRegOpnd)), .sysReg .ARM64_FPSR]⟩)
    | .MUL =>
      keepState st (EmitOp3Register md instr .EmitMul .EmitMul64)
    | .MVN =>
      keepState st (EmitOp2Register md instr .EmitMvnRegister .EmitMvnRegister64)
    | .SMULL =>
      -- SMULL dst, src1, src2. src1 and src2 are 32-bit. dst is 64-bit.
      keepState st (do
        let dst ← deref instr.GetDst
        let src1 ← deref instr.GetSrc1
        let src2 ← deref instr.GetSrc2
        Assert dst.IsRegOpnd
        Assert src1.IsRegOpnd
        Assert src2.IsRegOpnd
        Assert (decide (dst.GetSize = 8))
        Assert (decide (src1.GetSize = 4))
        Assert (decide (src2.GetSize = 4))
        return md.emit ⟨.EmitSmull, [.reg (GetRegEncode md (← dst.AsRegOpnd)),
          .reg (GetRegEncode md (← src1.AsRegOpnd)),
          .reg (GetRegEncode md (← src2.AsRegOpnd))]⟩)
    | .SMADDL =>
      keepState st (do
        let dst ← deref instr.GetDst
        let src1 ← deref instr.GetSrc1
        let src2 ← deref instr.GetSrc2
        Assert dst.IsRegOpnd
        Assert src1.IsRegOpnd
        Assert src2.IsRegOpnd
        return md.emit ⟨.EmitSmaddl, [.reg (GetRegEncode md (← dst.AsRegOpnd)),
          .reg (GetRegEncode md (← dst.AsRegOpnd)),
          .reg (GetRegEncode md (← src1.AsRegOpnd)),
          .reg (GetRegEncode md (← src2.AsRegOpnd))]⟩)
    | .MSUB =>
      -- dst = src1 - src2 * dst
      keepState st (do
        let dst ← deref instr.GetDst
        let src1 ← deref instr.GetSrc1
        let src2 ← deref instr.GetSrc2
        Assert dst.IsRegOpnd
        Assert src1.IsRegOpnd
        Assert src2.IsRegOpnd
        return md.emit ⟨.EmitMsub, [.reg (GetRegEncode md (← dst.AsRegOpnd)),
          .reg (GetRegEncode md (← src2.AsRegOpnd)),
          .reg (GetRegEncode md (← dst.AsRegOpnd)),
          .reg (GetRegEncode md (← src1.AsRegOpnd))]⟩)
    | .NOP =>
      keepState st (pure (md.emit ⟨.EmitNop, []⟩))
    | .ORR =>
      keepState st (EmitOp3RegisterOrImmediate md instr .EmitOrrRegister .EmitOrrRegister64
      .EmitOrrImmediate .EmitOrrImmediate64)
    | .PLD =>
      keepState st (do EmitPrefetch md func (← deref instr.GetSrc1))
    | .RET =>
      keepState st (EmitOp1Register64 md instr .EmitRet)
    | .REM =>
      -- Legalizer should convert this to SDIV/MSUB before getting here
      keepState st (do Assert false; return noEmit)
    | .SBFX =>
      keepState st (EmitBitfield md instr .EmitSbfx .EmitSbfx64)
    | .SDIV =>
      keepState st (EmitOp3Register md instr .EmitSdiv .EmitSdiv64)
    | .STR =>
      keepState st (EmitLoadStore md func instr.GetDst instr.GetSrc1
        .EmitStrbRegister .EmitStrhRegister .EmitStrRegister .EmitStrRegister64
        .EmitStrbOffset .EmitStrhOffset .EmitStrOffset .EmitStrOffset64)
    | .STP =>
      keepState st (EmitLoadStorePair md func instr.GetDst instr.GetSrc1 instr.GetSrc2
        .EmitStpOffset .EmitStpOffset64)
    | .STP_PRE =>
      keepState st (EmitLoadStorePair md func instr.GetDst instr.GetSrc1 instr.GetSrc2
        .EmitStpOffsetPreIndex .EmitStpOffsetPreIndex64)
    | .SUB =>
      keepState st (EmitOp3RegisterOrImmediate md instr .EmitSubRegister .EmitSubRegister64
      .EmitSubImmediate .EmitSubImmediate64)
    | .SUBS =>
      keepState st (EmitOp3RegisterOrImmediate md instr .EmitSubsRegister .EmitSubsRegister64
      .EmitSubsImmediate .EmitSubsImmediate64)
    | .SUB_LSL4 =>
      keepState st (EmitOp3RegisterShifted md instr .EXTEND_UXTX 4 .EmitSubRegister
        .EmitSubRegister64)
    | .TBZ =>
      EmitTestAndBranch md st instr .EmitTbz
    | .TBNZ =>
      EmitTestAndBranch md st instr .EmitTbnz
    | .TST =>
      -- Legalizer should convert this to ANDS before getting here
      keepState st (do Assert false; return noEmit)
    | .UBFX =>
      keepState st (EmitBitfield md instr .EmitUbfx .EmitUbfx64)
    | .FABS =>
      keepState st (EmitOp2FpRegister md instr.GetDst instr.GetSrc1 .EmitNeonFabs)
    | .FADD =>
      keepState st (EmitOp3FpRegister md instr .EmitNeonFadd)
    | .FCMP =>
      keepState st (EmitOp2FpRegister md instr.GetSrc1 instr.GetSrc2 .EmitNeonFcmp)
    | .FCVT =>
      keepState st (do
        let dst ← deref instr.GetDst
        let src1 ← deref instr.GetSrc1
        Assert dst.IsRegOpnd
        Assert src1.IsRegOpnd
        Assert dst.IsFloat
        let size := dst.GetSize
        Assert (decide (size = 4) || decide (size = 8))
        if src1.IsFloat then
          return md.emit ⟨.EmitNeonFcvt, [.reg (← GetFloatRegEncode md (← dst.AsRegOpnd)),
            .neonSize (neonSizeOf size), .reg (← GetFloatRegEncode md (← src1.AsRegOpnd)),
            .neonSize (neonSizeOf src1.GetSize)]⟩
        else if src1.GetType = .TyInt32 then
          return md.emit ⟨.EmitNeonScvtf, [.reg (← GetFloatRegEncode md (← dst.AsRegOpnd)),
            .simpleRegParam (GetRegEncode md (← src1.AsRegOpnd)), .neonSize (neonSizeOf size)]⟩
        else if src1.GetType = .TyUint32 then
          return md.emit ⟨.EmitNeonUcvtf, [.reg (← GetFloatRegEncode md (← dst.AsRegOpnd)),
            .simpleRegParam (GetRegEncode md (← src1.AsRegOpnd)), .neonSize (neonSizeOf size)]⟩
        else if src1.GetType = .TyInt64 then
          return md.emit ⟨.EmitNeonScvtf64, [.reg (← GetFloatRegEncode md (← dst.AsRegOpnd)),
            .simpleRegParam (GetRegEncode md (← src1.AsRegOpnd)), .neonSize (neonSizeOf size)]⟩
        else if src1.GetType = .TyUint64 then
          return md.emit ⟨.EmitNeonUcvtf64, [.reg (← GetFloatRegEncode md (← dst.AsRegOpnd)),
            .simpleRegParam (GetRegEncode md (← src1.AsRegOpnd)), .neonSize (neonSizeOf size)]⟩
        else
          return noEmit)
    | .FCVTM =>
      keepState st (EmitConvertToInt md instr .EmitNeonFcvtmsGen .EmitNeonFcvtmuGen
        .EmitNeonFcvtmsGen64 .EmitNeonFcvtmuGen64)
    | .FCVTN =>
      keepState st (EmitConvertToInt md instr .EmitNeonFcvtnsGen .EmitNeonFcvtnuGen
        .EmitNeonFcvtnsGen64 .EmitNeonFcvtnuGen64)
    | .FCVTP =>
      keepState st (EmitConvertToInt md instr .EmitNeonFcvtpsGen .EmitNeonFcvtpuGen
        .EmitNeonFcvtpsGen64 .EmitNeonFcvtpuGen64)
    | .FCVTZ =>
      keepState st (EmitConvertToInt md instr .EmitNeonFcvtzsGen .EmitNeonFcvtzuGen
        .EmitNeonFcvtzsGen64 .EmitNeonFcvtzuGen64)
    | .FDIV =>
      keepState st (EmitOp3FpRegister md instr .EmitNeonFdiv)
    | .FLDR =>
      keepState st (EmitLoadStoreFp md func instr.GetSrc1 instr.GetDst .EmitNeonLdrOffset)
    | .FLDP =>
      -- src2 is really the second destination register
      keepState st (EmitLoadStoreFpPair md func instr.GetSrc1 instr.GetDst instr.GetSrc2
        .EmitNeonLdpOffset)
    | .FMIN =>
      keepState st (EmitOp3FpRegister md instr .EmitNeonFmin)
    | .FMAX =>
      keepState st (EmitOp3FpRegister md instr .EmitNeonFmax)
    | .FMOV =>
      keepState st (EmitOp2FpRegister md instr.GetDst instr.GetSrc1 .EmitNeonFmov)
    | .FMOV_GEN =>
      keepState st (do
        let dst ← deref instr.GetDst
        let src1 ← deref instr.GetSrc1
        Assert dst.IsRegOpnd
        Assert src1.IsRegOpnd
        let size := dst.GetSize
        Assert (decide (size = 4) || decide (size = 8))
        Assert (decide (size = src1.GetSize))
        Assert (dst.IsFloat != src1.IsFloat)
        if dst.IsFloat then
          return md.emit ⟨.EmitNeonIns, [.reg (← GetFloatRegEncode md (← dst.AsRegOpnd)), .imm 0,
            .reg (GetRegEncode md (← src1.AsRegOpnd)), .neonSize (neonSizeOf size)]⟩
        else if size = 8 then
          return md.emit ⟨.EmitNeonUmov64, [.reg (← GetFloatRegEncode md (← dst.AsRegOpnd)),
            .reg (GetRegEncode md (← src1.AsRegOpnd)), .imm 0, .neonSize (neonSizeOf size)]⟩
        else
          return md.emit ⟨.EmitNeonUmov, [.reg (← GetFloatRegEncode md (← dst.AsRegOpnd)),
            .reg (GetRegEncode md (← src1.AsRegOpnd)), .imm 0, .neonSize (neonSizeOf size)]⟩)
    | .FMUL =>
      keepState st (EmitOp3FpRegister md instr .EmitNeonFmul)
    | .FNEG =>
      keepState st (EmitOp2FpRegister md instr.GetDst instr.GetSrc1 .EmitNeonFneg)
    | .FRINTM =>
      keepState st (EmitOp2FpRegister md instr.GetDst instr.GetSrc1 .EmitNeonFrintm)
    | .FRINTP =>
      keepState st (EmitOp2FpRegister md instr.GetDst instr.GetSrc1 .EmitNeonFrintp)
    | .FSUB =>
      keepState st (EmitOp3FpRegister md instr .EmitNeonFsub)
    | .FSQRT =>
      keepState st (EmitOp2FpRegister md instr.GetDst instr.GetSrc1 .EmitNeonFsqrt)
    | .FSTR =>
      keepState st (EmitLoadStoreFp md func instr.GetDst instr.GetSrc1 .EmitNeonStrOffset)
    | .FSTP =>
      keepState st (EmitLoadStoreFpPair md func instr.GetDst instr.GetSrc1 instr.GetSrc2
        .EmitNeonStpOffset)
    | .Other _ =>
      -- Opcode not yet implemented: AssertMsg(UNREACHED, "Unsupported Instruction Form")
      keepState st (do Assert false; return noEmit)

set_option linter.unusedVariables false in
/-- Function `EncoderMD::GenerateEncoding`: the word `Emitter.Opcode()` it
returns and the members of the encoder object on return.  The members `m_pc`
and `m_relocList` are `st`, the member `m_func` is `func`. -/
def GenerateEncoding (md : MdDecls) (func : Func) (st : EncoderState) (instr : Instr)
    (pc : Nat) : Except Fatal (Nat × EncoderState) := do
  let (e, st) ← dispatch md func st instr
  Assert (e.bytes != 0)
  return (e.opcode, st)

/-! ## Canonicalization -/

/-- Modelled from the spec: the method `Instr::UnlinkSrc1` of `IR.cpp` (not
part of the sources): it takes the first source out of the instruction and
returns it; the result pair is the operand and the instruction without it. -/
def Instr.UnlinkSrc1 (instr : Instr) : Except Fatal (Opnd × Instr) := do
  let oldSrc ← deref instr.m_src1
  return (oldSrc, { instr with m_src1 := none })

/-- Modelled from the spec: the method `Instr::SetSrc1` of `IR.cpp` (not part of
the sources): it puts an operand into the empty first source slot of the same
instruction; an occupied slot is outside its contract, a fatal assertion. -/
def Instr.SetSrc1 (instr : Instr) (newSrc : Opnd) : Except Fatal Instr := do
  Assert instr.m_src1.isNone
  return { instr with m_src1 := some newSrc }

/-- Modelled from the spec: the method `Instr::SetSrc2` of `IR.cpp` (not part of
the sources): it puts an operand into the empty second source slot of the same
instruction; an occupied slot is outside its contract, a fatal assertion. -/
def Instr.SetSrc2 (instr : Instr) (newSrc : Opnd) : Except Fatal Instr := do
  Assert instr.m_src2.isNone
  return { instr with m_src2 := some newSrc }

/-- Function `EncoderMD::CanonicalizeLea`: the instruction after the call (the
instruction object is rewritten in place). -/
def CanonicalizeLea (md : MdDecls) (func : Func) (instr : Instr) : Except Fatal Instr := do
  let (src1, instr) ← instr.UnlinkSrc1
  if src1.IsSymOpnd then
    -- Turn this LEA into the equivalent ADD instruction.
    let symOpnd ← src1.AsSymOpnd
    let (baseReg, offset) ← BaseAndOffsetFromSym md symOpnd func
    let instr ← instr.SetSrc1 (.reg { m_reg := baseReg, m_type := TyMachReg })
    let instr ← instr.SetSrc2 (.imm { m_value := offset, m_type := TyMachReg })
    return { instr with m_opcode := .ADD }
  else
    let indirOpnd ← src1.AsIndirOpnd
    let baseOpnd := indirOpnd.GetBaseOpnd
    let indexOpnd := indirOpnd.GetIndexOpnd
    let offset := indirOpnd.GetOffset
    Assert (decide (offset = 0) || indexOpnd.isNone)
    let instr ← instr.SetSrc1 (.reg baseOpnd)
    match indexOpnd with
    | some indexOpnd =>
      -- "NYI Needs shifted register support for ADD"
      Assert (decide (indirOpnd.GetScale = 0))
      let instr ← instr.SetSrc2 (.reg indexOpnd)
      return { instr with m_opcode := .ADD }
    | none =>
      let instr ← instr.SetSrc2 (.imm { m_value := offset, m_type := TyMachReg })
      return { instr with m_opcode := .ADD }

/-- Function `EncoderMD::CanonicalizeInstr`: its `bool` result and the
instruction after the call. -/
def CanonicalizeInstr (md : MdDecls) (func : Func) (instr : Instr) :
    Except Fatal (Bool × Instr) :=
  if !instr.IsLowered then
    return (false, instr)
  else
    match instr.m_opcode with
    | .LEA => do
      let instr ← CanonicalizeLea md func instr
      return (true, instr)
    | _ => return (true, instr)

/-! ## Applying the relocations -/

/-- The part of a label instruction (`IR::LabelInstr`) that `ApplyRelocs`
reads: the recorded PC; 0 is the null pointer. -/
structure LabelInstr where
  m_pc : Nat := 0
  /-- The member `offset` that `GetOffset` and `ResetOffset` access. -/
  m_offset : Nat := 0
  /-- The number of the label. -/
  m_id : Nat := 0
  deriving DecidableEq, Repr

def LabelInstr.GetPC (l : LabelInstr) : Nat := l.m_pc

/-- The instruction objects that relocation records point to, by identity:
the label instruction at that identity, or `none` if the object there is not
a label instruction. -/
abbrev InstrTable := LabelRef → Option LabelInstr

/-- The downcast `AsLabelInstr()` of the target of a record; it asserts the
class of the instruction. -/
def AsLabelInstr (instrs : InstrTable) (relocInstr : LabelRef) : Except Fatal LabelInstr :=
  match instrs relocInstr with
  | some l => .ok l
  | none => .error .assertion

/-- The loop of `ApplyRelocs` from the record `reloc` on, `reloc->m_next` being
the tail of the list.  The patch routine `ArmBranchLinker::LinkRaw` of
`ARM64Encoder.h` is the parameter `LinkRaw`, acting on a code memory of type
`σ`: its arguments are the address of the existing instruction and the address
of the target instruction. -/
def ApplyRelocsLoop {σ : Type} (LinkRaw : Nat → Nat → σ → Except Fatal σ)
    (instrs : InstrTable) : List EncodeReloc → σ → Except Fatal σ
  | [], mem => .ok mem
  | reloc :: m_next, mem => do
    let relocAddress := reloc.m_consumerOffset
    let labelInstr ← AsLabelInstr instrs reloc.m_relocInstr
    let mem ← LinkRaw relocAddress labelInstr.GetPC mem
    ApplyRelocsLoop LinkRaw instrs m_next mem

set_option linter.unusedVariables false in
/-- Function `EncoderMD::ApplyRelocs`: the code memory and the members of the
encoder object on return.  (`bufferCRC` is a pointer the body never uses.) -/
def ApplyRelocs {σ : Type} (LinkRaw : Nat → Nat → σ → Except Fatal σ)
    (instrs : InstrTable) (st : EncoderState) (mem : σ)
    (codeBufferAddress codeSize : Nat) (bufferCRC : Nat)
    (isBrShorteningSucceeded isFinalBufferValidation : Bool) :
    Except Fatal (σ × EncoderState) := do
  let mem ← ApplyRelocsLoop LinkRaw instrs st.m_relocList mem
  return (mem, st)

/-- Function `EncoderMD::AddLabelReloc`; `readInstr` is the read
`*(IR::Instr**)relocAddress` of the code memory. -/
def AddLabelReloc (readInstr : Nat → LabelRef) (st : EncoderState) (relocAddress : Nat) :
    Except Fatal EncoderState := do
  Assert (decide (relocAddress ≠ 0))
  return { st with m_relocList :=
    EncodeReloc.New st.m_relocList .RelocTypeLabel relocAddress (readInstr relocAddress) }

/-! ## Encoding one instruction -/

/-- Modelled from the spec: the constant `MachInt` of `md.h` (not part of the
sources), the byte width of an instruction word. -/
def MachInt : Nat := 4

/-- What `Encode` reads outside the encoder object and the instruction. -/
structure EncodeEnv where
  /-- The member `m_encoder->m_encodeBuffer`, the address of the start of the
  code buffer. -/
  m_encodeBuffer : Nat
  /-- The build switch `DBG_DUMP`. -/
  DBG_DUMP : Bool
  /-- The test `Js::Configuration::Global.flags.DebugBreak.Contains(
  m_func->GetFunctionNumber())` of the configuration. -/
  DebugBreak : Bool
  /-- The routine `Js::InlineeCallInfo::Encode(callInfo, count, offset)` (not
  part of the sources): the boolean it returns and the value of `callInfo`
  after the call, `callInfo` being 0 before. -/
  InlineeCallInfo_Encode : Nat → Int → Bool × Int

/-- The objects `Encode` acts on: the members of the encoder object, the code
memory (the byte at each address), the label instruction objects, and the calls
`m_func->m_unwindInfo.SetLabelOffset(id, offset)` made so far, latest first. -/
structure EncodeState where
  encoder : EncoderState
  buffer : Nat → Nat
  instrs : InstrTable
  unwindLabelOffsets : List (Nat × Int)

def LabelInstr.GetOffset (l : LabelInstr) : Nat := l.m_offset
def LabelInstr.ResetOffset (l : LabelInstr) (offset : Nat) : LabelInstr :=
  { l with m_offset := offset }
def LabelInstr.SetPC (l : LabelInstr) (pc : Nat) : LabelInstr := { l with m_pc := pc }

/-- The downcast `instr->AsLabelInstr()`: the identity of the label object and
the object. -/
def Instr.AsLabelInstr (instrs : InstrTable) (i : Instr) :
    Except Fatal (LabelRef × LabelInstr) :=
  match i.kind with
  | .label self => do
    let l ← EncoderMD.AsLabelInstr instrs self
    return (self, l)
  | _ => .error .assertion

/-- The table of label objects after the object at `self` became `l`. -/
def InstrTable.set (instrs : InstrTable) (self : LabelRef) (l : LabelInstr) : InstrTable :=
  fun n => if n = self then some l else instrs n

/-- The store `*(DWORD *)addr = value` on the little-endian target: the four
bytes from `addr` on become the bytes of the 32-bit word, lowest first. -/
def storeDWORD (buffer : Nat → Nat) (addr : Nat) (value : Nat) : Nat → Nat :=
  fun a => if addr ≤ a ∧ a < addr + 4 then value / 256 ^ (a - addr) % 256 else buffer a

/-- The part of `EncoderMD::Encode` that handles a lowered instruction, from
`this->CanonicalizeInstr(instr)` on, in the build without `INSERT_NOPS`: the
value returned, the instruction after the call and the objects after the
call. -/
def EncodeLowered (md : MdDecls) (func : Func) (st : EncodeState) (instr : Instr) :
    Except Fatal (Nat × Instr × EncodeState) := do
  let (_, instr) ← CanonicalizeInstr md func instr
  let (outInstr, encoder) ← GenerateEncoding md func st.encoder instr st.encoder.m_pc
  let st := { st with encoder := encoder }
  if outInstr = 0 then
    return (0, instr, st)
  else
    return (MachInt, instr, { st with buffer := storeDWORD st.buffer st.encoder.m_pc outInstr })

/-- The block `if (instr->IsLabelInstr()) { ... }` of `EncoderMD::Encode`, run
on an instruction that is not lowered: the objects after it. -/
def EncodeLabel (env : EncodeEnv) (st : EncodeState) (instr : Instr) :
    Except Fatal EncodeState := do
  if instr.IsLabelInstr then
    if instr.isInlineeEntryInstr then
      let (self, label) ← instr.AsLabelInstr st.instrs
      let (encodeResult, inlineeCallInfo) :=
        env.InlineeCallInfo_Encode label.GetOffset
          (toUInt64 ((st.encoder.m_pc : Int) - env.m_encodeBuffer))
      Assert encodeResult
      -- We are re-using offset to save the inlineeCallInfo which will be patched in
      -- ApplyRelocs
      return { st with
        instrs := (st.instrs.set self (label.ResetOffset (toUInt32 inlineeCallInfo).toNat)) }
    else
      let (self, label) ← instr.AsLabelInstr st.instrs
      return { st with
        instrs := (st.instrs.set self (label.SetPC st.encoder.m_pc)),
        unwindLabelOffsets :=
          ((label.m_id, toUInt32 ((st.encoder.m_pc : Int) - env.m_encodeBuffer)) ::
            st.unwindLabelOffsets) }
  else
    return st

set_option linter.unusedVariables false in
/-- Function `EncoderMD::Encode`: the value returned, the instruction after the
call and the objects after the call.  The call `this->Encode(int3, m_pc)` of the
`DBG_DUMP` block is on a new `DEBUGBREAK` instruction, which is lowered, at the
pc already stored in `m_pc`: it runs `EncodeLowered`. -/
def Encode (md : MdDecls) (func : Func) (env : EncodeEnv) (st : EncodeState) (instr : Instr)
    (pc : Nat) (beginCodeAddress : Nat) : Except Fatal (Nat × Instr × EncodeState) := do
  let st := { st with encoder := { st.encoder with m_pc := pc } }
  -- Instructions must be lowered, we don't handle non-MD opcodes here.
  if instr.IsLowered == false then
    let st ← EncodeLabel env st instr
    if env.DBG_DUMP && (instr.IsEntryInstr && env.DebugBreak) then
      let int3 : Instr := { m_opcode := .DEBUGBREAK }
      let (n, _, st) ← EncodeLowered md func st int3
      return (n, instr, st)
    else
      return (0, instr, st)
  else
    EncodeLowered md func st instr

/-- Modelled from the spec: the driver that encodes the instructions of one
function in program order, each at the pc where the previous one ended: the
objects and the pc after the last call. -/
def EncodeSequence (md : MdDecls) (func : Func) (env : EncodeEnv) :
    EncodeState → Nat → List Instr → Except Fatal (EncodeState × Nat)
  | st, pc, [] => .ok (st, pc)
  | st, pc, instr :: rest => do
    let (n, _, st) ← Encode md func env st instr pc env.m_encodeBuffer
    EncodeSequence md func env st (pc + n) rest

/-! ## The peephole folders -/

/-- The argument `IR::RegOpnd *regOpnd` of the folders: the address of the
operand object (not null), the operand, and what the folders read through its
symbol `regOpnd->m_sym`: the symbol, `IsConst()` and `GetConstOpnd()`. -/
structure RegOpndPtr where
  addr : Nat
  opnd : RegOpnd
  m_sym : StackSym
  m_symIsConst : Bool
  m_symConstOpnd : Option Opnd

def RegOpndPtr.GetSize (r : RegOpndPtr) : Int := TySize r.opnd.m_type
def RegOpndPtr.GetType (r : RegOpndPtr) : IRType := r.opnd.m_type

/-- The routines of the lowerer and of the legalizer that the folders call; they
are not part of the sources. -/
structure FoldDecls where
  /-- The predicate `LowererMD::IsAssign(instr)`. -/
  IsAssign : Instr → Bool
  /-- The instruction after `LegalizeMD::LegalizeInstr(instr, fPostRegAlloc)`. -/
  LegalizeInstr : Instr → Bool → Instr

/-- The pointer `instr->GetSrc1()`: the address of the operand object in the
first source slot, `none` being the null pointer of an empty slot. -/
def Instr.GetSrc1Ptr (i : Instr) : Option Nat := i.m_src1.map (fun _ => i.m_src1Addr)

/-- Modelled from the spec: `IR::Instr::ReplaceSrc(oldSrc, newSrc)` of `IR.cpp`
(not part of the sources), as the folders use it, on the first source: the slot
holding the operand object `oldSrc` receives the operand `newSrc`, and
`newSrcAddr` is the address of the operand object the slot holds afterwards. -/
def Instr.ReplaceSrc (instr : Instr) (oldSrc : Nat) (newSrc : Opnd) (newSrcAddr : Nat) :
    Except Fatal Instr := do
  Assert (instr.GetSrc1Ptr == some oldSrc)
  return { instr with m_src1 := some newSrc, m_src1Addr := newSrcAddr }

/-- Modelled from the spec: `IR::SymOpnd::New(sym, type, func)` of `Opnd.cpp` (not
part of the sources): the operand for `sym` at offset 0 with the given type. -/
def SymOpnd.New (sym : StackSym) (type : IRType) : SymOpnd :=
  { m_sym := sym, m_offset := 0, m_type := type }

/-- Function `EncoderMD::TryConstFold`: the boolean returned and the instruction
after the call.  `newSrcAddr` is the address of the operand object that
`ReplaceSrc` leaves in the source slot. -/
def TryConstFold (decls : FoldDecls) (instr : Instr) (regOpnd : RegOpndPtr)
    (newSrcAddr : Nat) : Except Fatal (Bool × Instr) := do
  Assert regOpnd.m_symIsConst
  match instr.m_opcode with
  | .MOV =>
    if instr.GetSrc1Ptr != some regOpnd.addr then
      return (false, instr)
    else if !(← deref instr.GetDst).IsRegOpnd then
      return (false, instr)
    else
      let constOpnd ← deref regOpnd.m_symConstOpnd
      if constOpnd.GetSize > regOpnd.GetSize then
        return (false, instr)
      else
        let instr ← instr.ReplaceSrc regOpnd.addr constOpnd newSrcAddr
        let instr := decls.LegalizeInstr instr false
        return (true, instr)
  | _ => return (false, instr)

/-- Function `EncoderMD::TryFold`: the boolean returned and the instruction
after the call.  `newSrcAddr` is the address of the operand object that
`ReplaceSrc` leaves in the source slot. -/
def TryFold (decls : FoldDecls) (instr : Instr) (regOpnd : RegOpndPtr)
    (newSrcAddr : Nat) : Except Fatal (Bool × Instr) := do
  if decls.IsAssign instr then
    if !(← deref instr.GetDst).IsRegOpnd || (some regOpnd.addr != instr.GetSrc1Ptr) then
      return (false, instr)
    else
      let symOpnd := SymOpnd.New regOpnd.m_sym regOpnd.GetType
      let instr ← instr.ReplaceSrc regOpnd.addr (.sym symOpnd) newSrcAddr
      let instr := decls.LegalizeInstr instr false
      return (true, instr)
  else
    return (false, instr)

/-! ## Branch offsets -/

/-- Modelled from the spec: the macro `IS_CONST_INT26` of the backend headers
(not part of the sources): the value fits in a signed 26-bit integer. -/
def IS_CONST_INT26 (x : Int) : Bool := decide (-2 ^ 25 ≤ x ∧ x < 2 ^ 25)

/-- Function `EncoderMD::BranchOffset_26` on its `int64` argument: `>>` on the
signed value is the arithmetic shift, `x & 0x3` the two low bits of the two's
complement form, `(DWORD) x` the low 32 bits. -/
def BranchOffset_26 (x : Int) : Except Fatal Int := do
  Assert (IS_CONST_INT26 (x / 2 ^ 1))
  Assert (decide (x % 2 ^ 2 = 0))
  let x := x / 2 ^ 2
  return toUInt32 x

/-! ## An example environment

Concrete values for the declarations taken as parameters, used to evaluate the
routines on concrete instructions. -/

/-- Example encoders: every encoder emits four bytes; the 64-bit add-immediate
encoder emits the A64 word `ADD Xd, Xn, #imm12`, the others a fixed word. -/
def exampleEmit (c : EmitCall) : Emitted :=
  match c.fn, c.args with
  | .EmitAddImmediate64, [.reg rd, .reg rn, .imm v] =>
    ⟨4, 0x91000000 + (v % 4096).toNat * 1024 + rn * 32 + rd⟩
  | _, _ => ⟨4, 0xD503201F⟩

/-- Example declarations: registers are numbered by their encodings, `sp` is
register 31 and the frame register is `x29`; load/store offsets are unsigned
12-bit values. -/
def exampleMd : MdDecls where
  RegEncode := fun r => r
  RegSP := 31
  FRAME_REG := 29
  ARMREG_ZR := 31
  LAST_FLOAT_REG_ENCODE := 31
  MachRegInt := 8
  JavascriptFunctionArgIndex_Frame := -2
  CanEncodeLoadStoreOffset := fun o => decide (0 ≤ o) && decide (o < 4096)
  emit := exampleEmit

/-- Example frame: locals addressed from `sp`, two outgoing argument slots. -/
def exampleFunc : Func :=
  { m_localsPointer := 31, m_argSlotsForFunctionsCalled := 2,
    m_localStackHeight := 64, m_ArgumentsOffset := 16 }

/-- The encoder object after `Init`, about to encode at address 0. -/
def exampleInit : EncoderState := Init { m_pc := 0, m_relocList := [] }

/-- The instruction `ADD x0, x1, #5` on 8-byte registers. -/
def exampleAdd : Instr :=
  { m_opcode := .ADD,
    m_dst := some (.reg ⟨0, .TyInt64⟩),
    m_src1 := some (.reg ⟨1, .TyInt64⟩),
    m_src2 := some (.imm ⟨5, .TyInt64⟩) }

/-- The instruction `BIC x2, x0, x1` on 8-byte registers. -/
def exampleBic : Instr :=
  { m_opcode := .BIC,
    m_dst := some (.reg ⟨2, .TyInt64⟩),
    m_src1 := some (.reg ⟨0, .TyInt64⟩),
    m_src2 := some (.reg ⟨1, .TyInt64⟩) }

/-- The instruction `TBZ x3, #5, L7`. -/
def exampleTbz : Instr :=
  { m_opcode := .TBZ,
    m_src1 := some (.reg ⟨3, .TyInt64⟩),
    m_src2 := some (.imm ⟨5, .TyInt32⟩),
    kind := .branch 7 }

/-- The instruction `CBNZ w3, L7`. -/
def exampleCbnz : Instr :=
  { m_opcode := .CBNZ, m_src1 := some (.reg ⟨3, .TyInt32⟩), kind := .branch 7 }

/-- The instruction `BL L7`. -/
def exampleBl : Instr := { m_opcode := .BL, kind := .branch 7 }

/-- The instruction `BNE L7`. -/
def exampleBne : Instr := { m_opcode := .BNE, kind := .branch 7 }

/-- An encoder object in the middle of a function: one record already in the
list, the next instruction goes to address 64. -/
def exampleState : EncoderState :=
  { m_pc := 64, m_relocList := [⟨.RelocTypeBranch19, 16, 2⟩] }

/-- The instruction `MOVZ x0, #0x12340000` on an 8-byte register. -/
def exampleMovz : Instr :=
  { m_opcode := .MOVZ,
    m_dst := some (.reg ⟨0, .TyInt64⟩),
    m_src1 := some (.imm ⟨0x12340000, .TyInt64⟩) }

/-- The instruction `MOVN x0, #-1` on an 8-byte register. -/
def exampleMovn : Instr :=
  { m_opcode := .MOVN,
    m_dst := some (.reg ⟨0, .TyInt64⟩),
    m_src1 := some (.imm ⟨-1, .TyInt64⟩) }

/-- The instruction `MOVZ w0, #0x12340000` on a 4-byte register. -/
def exampleMovz32 : Instr :=
  { m_opcode := .MOVZ,
    m_dst := some (.reg ⟨0, .TyInt32⟩),
    m_src1 := some (.imm ⟨0x12340000, .TyInt32⟩) }

/-- The instruction `MOVZ w0, #-1` on a 4-byte register. -/
def exampleMovzNeg32 : Instr :=
  { m_opcode := .MOVZ,
    m_dst := some (.reg ⟨0, .TyInt32⟩),
    m_src1 := some (.imm ⟨-1, .TyInt32⟩) }

/-- A local at frame offset 24, read at sub-offset 8. -/
def exampleLocal : SymOpnd :=
  { m_sym := { m_offset := 24 }, m_offset := 8, m_type := .TyInt64 }

/-- A local at frame offset 8192. -/
def exampleFarLocal : SymOpnd :=
  { m_sym := { m_offset := 8192 }, m_offset := 0, m_type := .TyInt64 }

/-- A parameter slot at offset 16 from the frame. -/
def exampleParam : SymOpnd :=
  { m_sym := { m_offset := 16, m_isParamSym := true }, m_offset := 0, m_type := .TyInt64 }

/-- Example frame with 8 KiB of locals: a parameter slot is out of the reach
of an unsigned 12-bit offset from `sp`. -/
def exampleBigFunc : Func :=
  { m_localsPointer := 31, m_argSlotsForFunctionsCalled := 2,
    m_localStackHeight := 8192, m_ArgumentsOffset := 16 }

/-- The memory operand `[x1, x2, LSL #3]`, 8 bytes wide. -/
def exampleIndexed : IndirOpnd :=
  { m_baseOpnd := ⟨1, .TyInt64⟩, m_indexOpnd := some ⟨2, .TyInt64⟩, m_scale := 3,
    m_offset := 0, m_type := .TyInt64 }

/-- The memory operand `[x1, #40]`, 8 bytes wide. -/
def exampleBaseOffset : IndirOpnd :=
  { m_baseOpnd := ⟨1, .TyInt64⟩, m_indexOpnd := none, m_scale := 0,
    m_offset := 40, m_type := .TyInt64 }

/-- An indirect operand with both an index register and a non-zero offset. -/
def exampleIndexedOffset : IndirOpnd :=
  { m_baseOpnd := ⟨1, .TyInt64⟩, m_indexOpnd := some ⟨2, .TyInt64⟩, m_scale := 0,
    m_offset := 8, m_type := .TyInt64 }

/-- The instruction `LEA x0, <local at 24, sub-offset 8>`. -/
def exampleLeaSym : Instr :=
  { m_opcode := .LEA, m_dst := some (.reg ⟨0, .TyInt64⟩), m_src1 := some (.sym exampleLocal) }

/-- The instruction `LEA x0, [x1, x2]`. -/
def exampleLeaIndexed : Instr :=
  { m_opcode := .LEA, m_dst := some (.reg ⟨0, .TyInt64⟩),
    m_src1 := some (.indir { m_baseOpnd := ⟨1, .TyInt64⟩, m_indexOpnd := some ⟨2, .TyInt64⟩,
                             m_scale := 0, m_offset := 0, m_type := .TyInt64 }) }

/-- The instruction `LEA x0, [x1, #40]`. -/
def exampleLeaOffset : Instr :=
  { m_opcode := .LEA, m_dst := some (.reg ⟨0, .TyInt64⟩),
    m_src1 := some (.indir exampleBaseOffset) }

/-- The instruction `LEA x0, [x1, x2, LSL #3]` (a scaled index). -/
def exampleLeaScaled : Instr :=
  { m_opcode := .LEA, m_dst := some (.reg ⟨0, .TyInt64⟩),
    m_src1 := some (.indir exampleIndexed) }

/-- The instruction `LEA x0, [x1, x2, #8]` (index register and offset). -/
def exampleLeaIndexedOffset : Instr :=
  { m_opcode := .LEA, m_dst := some (.reg ⟨0, .TyInt64⟩),
    m_src1 := some (.indir exampleIndexedOffset) }

/-- A label instruction, not lowered. -/
def exampleLabel : Instr :=
  { m_opcode := .Other 0, isLowered := false, kind := .label 7 }

/-- A patch routine that only records its calls, in order: the code memory is
the log of the pairs (address of the existing instruction, address of the
target instruction) it was called with. -/
def recordLinkRaw (existingInstruction targetInstruction : Nat) (log : List (Nat × Nat)) :
    Except Fatal (List (Nat × Nat)) :=
  .ok (log ++ [(existingInstruction, targetInstruction)])

/-- Example instruction objects: labels 2 and 7 with recorded PCs 0x1010 and
0x1040 in the drafting buffer, label 9 whose PC was never set (null), and no
label instruction at any other identity. -/
def exampleInstrs : InstrTable := fun n =>
  if n = 2 then some { m_pc := 0x1010 }
  else if n = 7 then some { m_pc := 0x1040 }
  else if n = 9 then some { m_pc := 0 }
  else none

/-- Example encoder object after a function was drafted at 0x1000: a 26-bit
branch at 0x1000 to label 2 and a 19-bit branch at 0x1020 to label 7. -/
def exampleRelocState : EncoderState :=
  { m_pc := 0x1080,
    m_relocList := [⟨.RelocTypeBranch19, 0x1020, 7⟩, ⟨.RelocTypeBranch26, 0x1000, 2⟩] }

/-- Example encoder object with one record of kind label, as `AddLabelReloc`
creates it for the data slot at 0x2000 that holds label 7. -/
def exampleLabelRelocState : EncoderState :=
  { m_pc := 0x1080, m_relocList := [⟨.RelocTypeLabel, 0x2000, 7⟩] }

/-- The same record with the kind of a 26-bit branch. -/
def exampleBranchRelocState : EncoderState :=
  { m_pc := 0x1080, m_relocList := [⟨.RelocTypeBranch26, 0x2000, 7⟩] }

/-- The instruction `LDR x0, [x1, x2, LSL #3]` (8-byte memory operand). -/
def exampleLdr : Instr :=
  { m_opcode := .LDR, m_dst := some (.reg ⟨0, .TyInt64⟩),
    m_src1 := some (.indir exampleIndexed) }

/-- The instruction `STR w0, [x1, #40]` on a 2-byte memory operand. -/
def exampleStr : Instr :=
  { m_opcode := .STR,
    m_dst := some (.indir { exampleBaseOffset with m_type := .TyInt16 }),
    m_src1 := some (.reg ⟨0, .TyInt32⟩) }

/-- The instruction `LDRS x0, <local>` on a 4-byte view of the example local. -/
def exampleLdrs : Instr :=
  { m_opcode := .LDRS, m_dst := some (.reg ⟨0, .TyInt64⟩),
    m_src1 := some (.sym { exampleLocal with m_type := .TyInt32 }) }

/-- An `LDR` whose memory operand is 16 bytes wide. -/
def exampleLdrWide : Instr :=
  { m_opcode := .LDR, m_dst := some (.reg ⟨0, .TyInt64⟩),
    m_src1 := some (.indir { exampleBaseOffset with m_type := .TyOther 16 }) }

/-- The instruction `TBZ x3, #64, L7`: the bit number is out of range. -/
def exampleTbzOutOfRange : Instr :=
  { m_opcode := .TBZ,
    m_src1 := some (.reg ⟨3, .TyInt64⟩),
    m_src2 := some (.imm ⟨64, .TyInt32⟩),
    kind := .branch 7 }

/-- The instruction `CMP x1, x2`, which the legalizer replaces by `SUBS`. -/
def exampleCmp : Instr :=
  { m_opcode := .CMP,
    m_src1 := some (.reg ⟨1, .TyInt64⟩),
    m_src2 := some (.reg ⟨2, .TyInt64⟩) }

/-- The instruction `FCVTZ w0, d1`: a double converted to a signed 32-bit
integer. -/
def exampleFcvtz : Instr :=
  { m_opcode := .FCVTZ,
    m_dst := some (.reg ⟨0, .TyInt32⟩),
    m_src1 := some (.reg ⟨1, .TyFloat64⟩) }

/-- The instruction `FCVTM x0, s1`: a single converted to an unsigned 64-bit
integer. -/
def exampleFcvtm : Instr :=
  { m_opcode := .FCVTM,
    m_dst := some (.reg ⟨0, .TyUint64⟩),
    m_src1 := some (.reg ⟨1, .TyFloat32⟩) }

/-- An `FCVTZ` whose destination is a 16-bit integer register. -/
def exampleFcvtzShort : Instr :=
  { m_opcode := .FCVTZ,
    m_dst := some (.reg ⟨0, .TyInt16⟩),
    m_src1 := some (.reg ⟨1, .TyFloat64⟩) }

/-- The instruction `MOVZ x0, #0x12345678` on an 8-byte register. -/
def exampleMovzDropped : Instr :=
  { m_opcode := .MOVZ,
    m_dst := some (.reg ⟨0, .TyInt64⟩),
    m_src1 := some (.imm ⟨0x12345678, .TyInt64⟩) }

/-- The environment of `Encode` in a build without `DBG_DUMP`: code buffer at
`0x1000`, and an `InlineeCallInfo::Encode` that packs the offset above a 4-bit
count and rejects counts of 16 or more. -/
def exampleEnv : EncodeEnv :=
  { m_encodeBuffer := 0x1000,
    DBG_DUMP := false,
    DebugBreak := false,
    InlineeCallInfo_Encode := fun count offset =>
      if count < 16 then (true, offset * 16 + count) else (false, 0) }

/-- The same environment in a `DBG_DUMP` build run with the `DebugBreak` flag
set for the function. -/
def exampleDebugEnv : EncodeEnv := { exampleEnv with DBG_DUMP := true, DebugBreak := true }

/-- The objects before the first instruction of a function is encoded: empty
relocation list, zeroed code memory, the label `L7` not yet placed. -/
def exampleEncodeState : EncodeState :=
  { encoder := exampleInit,
    buffer := fun _ => 0,
    instrs := fun n => if n = 7 then some { m_id := 3 } else none,
    unwindLabelOffsets := [] }

/-- The entry instruction of a function: not lowered. -/
def exampleEntry : Instr := { m_opcode := .Other 1, isLowered := false, kind := .entry }

/-- The instructions `BL L7; ADD x0, x1, #5; L7:; BNE L7`. -/
def exampleProgram : List Instr := [exampleBl, exampleAdd, exampleLabel, exampleBne]

/-- An `IsAssign` that accepts `MOV` and `FMOV`, and a legalizer that finds every
instruction legal as it is. -/
def exampleFoldDecls : FoldDecls :=
  { IsAssign := fun i => match i.m_opcode with
      | .MOV | .FMOV => true
      | _ => false,
    LegalizeInstr := fun i _ => i }

/-- The instruction `MOV x0, x1`, its first source being the operand object at
`0x5000`. -/
def exampleMov : Instr :=
  { m_opcode := .MOV,
    m_dst := some (.reg ⟨0, .TyInt64⟩),
    m_src1 := some (.reg ⟨1, .TyInt64⟩),
    m_src1Addr := 0x5000 }

/-- The operand object at `0x5000`: register `x1`, whose symbol holds the
32-bit constant 42. -/
def exampleConstReg : RegOpndPtr :=
  { addr := 0x5000,
    opnd := ⟨1, .TyInt64⟩,
    m_sym := { m_offset := 16 },
    m_symIsConst := true,
    m_symConstOpnd := some (.imm ⟨42, .TyInt32⟩) }

/-- An operand object for `x1` at another address, `0x6000`. -/
def exampleOtherReg : RegOpndPtr := { exampleConstReg with addr := 0x6000 }

/-- The instruction `UBFX x0, x1, #63, #63`: a bit field that starts at bit 63
and is 63 bits long, on 8-byte registers. -/
def exampleUbfxWide : Instr :=
  { m_opcode := .UBFX,
    m_dst := some (.reg ⟨0, .TyInt64⟩),
    m_src1 := some (.reg ⟨1, .TyInt64⟩),
    m_src2 := some (.imm ⟨63 + 63 * 2 ^ 16, .TyInt64⟩) }

/-- The instruction `UBFX w0, w1, #31, #31` on 4-byte registers. -/
def exampleUbfx32 : Instr :=
  { m_opcode := .UBFX,
    m_dst := some (.reg ⟨0, .TyInt32⟩),
    m_src1 := some (.reg ⟨1, .TyInt32⟩),
    m_src2 := some (.imm ⟨31 + 31 * 2 ^ 16, .TyInt32⟩) }

/-- The instruction `UBFX w0, w1, #32, #1` on 4-byte registers: the start is out
of range. -/
def exampleUbfx32OutOfRange : Instr :=
  { m_opcode := .UBFX,
    m_dst := some (.reg ⟨0, .TyInt32⟩),
    m_src1 := some (.reg ⟨1, .TyInt32⟩),
    m_src2 := some (.imm ⟨32 + 1 * 2 ^ 16, .TyInt32⟩) }

/-- The instruction `EOR_ASR31 w0, w1, w2` on 4-byte registers. -/
def exampleEorAsr32 : Instr :=
  { m_opcode := .EOR_ASR31,
    m_dst := some (.reg ⟨0, .TyInt32⟩),
    m_src1 := some (.reg ⟨1, .TyInt32⟩),
    m_src2 := some (.reg ⟨2, .TyInt32⟩) }

/-- The instruction `EOR_ASR31 x0, x1, x2` on 8-byte registers. -/
def exampleEorAsr64 : Instr :=
  { m_opcode := .EOR_ASR31,
    m_dst := some (.reg ⟨0, .TyInt64⟩),
    m_src1 := some (.reg ⟨1, .TyInt64⟩),
    m_src2 := some (.reg ⟨2, .TyInt64⟩) }

/-- The instruction `SUB_LSL4 x0, x1, x2` on 8-byte registers. -/
def exampleSubLsl4 : Instr :=
  { m_opcode := .SUB_LSL4,
    m_dst := some (.reg ⟨0, .TyInt64⟩),
    m_src1 := some (.reg ⟨1, .TyInt64⟩),
    m_src2 := some (.reg ⟨2, .TyInt64⟩) }

/-- The instruction `LDRS x0, [x1, x2, LSL #3]` on an 8-byte memory operand. -/
def exampleLdrsWord64 : Instr := { exampleLdr with m_opcode := .LDRS }

/-- A frame addressed from `sp` with two outgoing argument slots (16 bytes) and
nothing else below the parameters. -/
def exampleSmallFunc : Func := { m_localsPointer := 31, m_argSlotsForFunctionsCalled := 2 }

/-- A parameter slot at offset 8, read 16 bytes below its start. -/
def exampleLowParam : SymOpnd :=
  { m_sym := { m_offset := 8, m_isParamSym := true }, m_offset := -16, m_type := .TyInt64 }

/-- A local at offset 8, read 16 bytes below its start. -/
def exampleLowLocal : SymOpnd :=
  { m_sym := { m_offset := 8 }, m_offset := -16, m_type := .TyInt64 }

/-! ## Theorems -/

/-- The tail of `GenerateEncoding` after a case of the switch that ran to its
end: `Assert(bytes != 0); return Emitter.Opcode();`. -/
theorem GenerateEncoding_of_dispatch_ok (md : MdDecls) (func : Func) (st st1 : EncoderState)
    (instr : Instr) (pc : Nat) (e : Emitted) (h : dispatch md func st instr = .ok (e, st1)) :
    GenerateEncoding md func st instr pc =
      if e.bytes = 0 then .error .assertion else .ok (e.opcode, st1) := by
  by_cases hb : e.bytes = 0 <;>
    simp [GenerateEncoding, h, Assert, hb, bind, Except.bind, pure, Except.pure]

/-- A fatal error in a case of the switch is the outcome of `GenerateEncoding`. -/
theorem GenerateEncoding_of_dispatch_error (md : MdDecls) (func : Func) (st : EncoderState)
    (instr : Instr) (pc : Nat) (f : Fatal) (h : dispatch md func st instr = .error f) :
    GenerateEncoding md func st instr pc = .error f := by
  simp [GenerateEncoding, h, bind, Except.bind]

/-- C1. Dispatch of `ADD` with an immediate second source: when destination and
first source are registers of the same size, 4 or 8 bytes, `GenerateEncoding`
invokes the add-immediate encoder on `(RegEncode[dst], RegEncode[src1], v)`,
the 64-bit encoder with `v` as an unsigned 64-bit value for size 8 and the
32-bit encoder with `v` truncated to 32 bits for size 4, and returns the word
that encoder emitted (the final `Assert(bytes != 0)` fails if it emitted
nothing); the relocation list and `m_pc` are unchanged. -/
theorem GenerateEncoding_ADD_immediate (md : MdDecls) (func : Func) (st : EncoderState)
    (pc : Nat) (instr : Instr) (dst src1 : RegOpnd) (v : IntConstOpnd)
    (hop : instr.m_opcode = .ADD) (hdst : instr.m_dst = some (.reg dst))
    (hsrc1 : instr.m_src1 = some (.reg src1)) (hsrc2 : instr.m_src2 = some (.imm v))
    (hsize : TySize dst.m_type = 4 ∨ TySize dst.m_type = 8)
    (heq : TySize dst.m_type = TySize src1.m_type) :
    GenerateEncoding md func st instr pc =
      (let e := if TySize dst.m_type = 8 then
          md.emit ⟨.EmitAddImmediate64, [.reg (md.RegEncode dst.m_reg),
            .reg (md.RegEncode src1.m_reg), .imm (v.m_value % 2 ^ 64)]⟩
        else
          md.emit ⟨.EmitAddImmediate, [.reg (md.RegEncode dst.m_reg),
            .reg (md.RegEncode src1.m_reg), .imm (v.m_value % 2 ^ 32)]⟩
       if e.bytes = 0 then .error .assertion else .ok (e.opcode, st)) := by
  apply GenerateEncoding_of_dispatch_ok
  rcases hsize with h | h
  · have h8 : ¬ TySize dst.m_type = 8 := by omega
    simp [dispatch, hop, keepState, EmitOp3RegisterOrImmediate,
      EmitOp3Immediate, Instr.GetDst, Instr.GetSrc1, Instr.GetSrc2, hdst, hsrc1, hsrc2,
      deref, Assert, Opnd.IsImmediateOpnd, Opnd.IsRegOpnd, Opnd.GetSize, Opnd.GetType,
      Opnd.AsRegOpnd, Opnd.GetImmediateValue, GetRegEncode, toUInt64, toUInt32, ← heq, h,
      bind, Except.bind, pure, Except.pure]
  · simp [dispatch, hop, keepState, EmitOp3RegisterOrImmediate,
      EmitOp3Immediate, Instr.GetDst, Instr.GetSrc1, Instr.GetSrc2, hdst, hsrc1, hsrc2,
      deref, Assert, Opnd.IsImmediateOpnd, Opnd.IsRegOpnd, Opnd.GetSize, Opnd.GetType,
      Opnd.AsRegOpnd, Opnd.GetImmediateValue, GetRegEncode, toUInt64, toUInt32, ← heq, h,
      bind, Except.bind, pure, Except.pure]

/-- C1, at `ADD x0, x1, #5`: the word of `EmitAddImmediate64(x0, x1, 5)`. -/
theorem GenerateEncoding_ADD_immediate_witness :
    GenerateEncoding exampleMd exampleFunc exampleInit exampleAdd 0 =
      .ok ((exampleMd.emit ⟨.EmitAddImmediate64, [.reg 0, .reg 1, .imm 5]⟩).opcode,
        exampleInit) ∧
    (exampleMd.emit ⟨.EmitAddImmediate64, [.reg 0, .reg 1, .imm 5]⟩).opcode = 0x91001420 := by
  refine ⟨?_, by decide⟩
  have h := GenerateEncoding_ADD_immediate exampleMd exampleFunc exampleInit 0 exampleAdd
    ⟨0, .TyInt64⟩ ⟨1, .TyInt64⟩ ⟨5, .TyInt64⟩ rfl rfl rfl rfl (Or.inr rfl) rfl
  rw [h]
  rfl

/-- C2. Encoding an unconditional branch `B` (the case calls
`EmitConditionalBranch` with `COND_AL`) prepends exactly one relocation record
with patch offset `m_pc` and the branch target as target, but the kind of the
record is `RelocTypeBranch19`, not `RelocTypeBranch26`. -/
theorem GenerateEncoding_B_records_Branch19 (md : MdDecls) (func : Func) (st : EncoderState)
    (pc : Nat) (target : LabelRef) (dst src1 src2 : Option Opnd) (inlineeEntry : Bool)
    (src1Addr : Nat) :
    GenerateEncoding md func st
        { m_opcode := .B, m_dst := dst, m_src1 := src1, m_src2 := src2, isLowered := true,
          kind := .branch target, isInlineeEntryInstr := inlineeEntry,
          m_src1Addr := src1Addr } pc =
      (let e := md.emit ⟨.EmitBranch, [.linker, .cond .COND_AL]⟩
       if e.bytes = 0 then .error .assertion
       else .ok (e.opcode, { st with m_relocList :=
          { m_relocType := .RelocTypeBranch19, m_consumerOffset := st.m_pc,
            m_relocInstr := target } :: st.m_relocList })) := by
  apply GenerateEncoding_of_dispatch_ok
  simp [dispatch, EmitConditionalBranch, Instr.GetTarget, EncodeReloc.New,
    bind, Except.bind, pure, Except.pure]

/-- Behaviour of `EmitOp3Register` on three register operands. -/
theorem EmitOp3Register_registers (md : MdDecls) (instr : Instr) (reg32 reg64 : EncFn)
    (dst src1 src2 : RegOpnd) (hdst : instr.m_dst = some (.reg dst))
    (hsrc1 : instr.m_src1 = some (.reg src1)) (hsrc2 : instr.m_src2 = some (.reg src2)) :
    EmitOp3Register md instr reg32 reg64 =
      if TySize dst.m_type = 8 ∧ TySize src1.m_type = 8 ∧ TySize src2.m_type = 8 then
        .ok (md.emit ⟨reg64, [.reg (md.RegEncode dst.m_reg), .reg (md.RegEncode src1.m_reg),
          .reg (md.RegEncode src2.m_reg)]⟩)
      else if TySize dst.m_type = 4 ∧ TySize src1.m_type = 4 ∧ TySize src2.m_type = 4 then
        .ok (md.emit ⟨reg32, [.reg (md.RegEncode dst.m_reg), .reg (md.RegEncode src1.m_reg),
          .reg (md.RegEncode src2.m_reg)]⟩)
      else .error .assertion := by
  simp only [EmitOp3Register, Instr.GetDst, Instr.GetSrc1, Instr.GetSrc2, hdst, hsrc1, hsrc2,
    deref, Opnd.IsRegOpnd, Opnd.GetSize, Opnd.GetType, Opnd.AsRegOpnd, GetRegEncode, Assert,
    bind, Except.bind, pure, Except.pure]
  by_cases h8 : TySize dst.m_type = 8
  · by_cases h1 : TySize src1.m_type = 8 <;> by_cases h2 : TySize src2.m_type = 8 <;>
      simp [h8, h1, h2, eq_comm]
  · by_cases h4 : TySize dst.m_type = 4
    · by_cases h1 : TySize src1.m_type = 4 <;> by_cases h2 : TySize src2.m_type = 4 <;>
        simp [h4, h1, h2, eq_comm]
    · simp [h8, h4]

/-- The cases of the switch that reach `EmitOp3Register` on a register second
source, with the encoders they pass. -/
theorem dispatch_EmitOp3Register (md : MdDecls) (func : Func) (st : EncoderState)
    (instr : Instr) (reg32 reg64 : EncFn) (src2 : RegOpnd)
    (hsrc2 : instr.m_src2 = some (.reg src2))
    (hcase : (instr.m_opcode, reg32, reg64) ∈
      [(OpCode.BIC, EncFn.EmitBicRegister, EncFn.EmitBicRegister64),
       (.MUL, .EmitMul, .EmitMul64), (.SDIV, .EmitSdiv, .EmitSdiv64),
       (.ADD, .EmitAddRegister, .EmitAddRegister64),
       (.ADDS, .EmitAddsRegister, .EmitAddsRegister64),
       (.AND, .EmitAndRegister, .EmitAndRegister64),
       (.ANDS, .EmitAndsRegister, .EmitAndsRegister64),
       (.ASR, .EmitAsrRegister, .EmitAsrRegister64),
       (.EOR, .EmitEorRegister, .EmitEorRegister64),
       (.LSL, .EmitLslRegister, .EmitLslRegister64),
       (.LSR, .EmitLsrRegister, .EmitLsrRegister64),
       (.ORR, .EmitOrrRegister, .EmitOrrRegister64),
       (.SUB, .EmitSubRegister, .EmitSubRegister64),
       (.SUBS, .EmitSubsRegister, .EmitSubsRegister64)]) :
    dispatch md func st instr = keepState st (EmitOp3Register md instr reg32 reg64) := by
  simp only [List.mem_cons, Prod.mk.injEq, List.mem_singleton, List.not_mem_nil, or_false]
    at hcase
  rcases hcase with h | h | h | h | h | h | h | h | h | h | h | h | h | h <;>
    obtain ⟨hop, h32, h64⟩ := h <;> subst h32 h64 <;>
    simp [dispatch, hop, EmitOp3RegisterOrImmediate, Instr.GetSrc2, hsrc2, deref,
      Opnd.IsImmediateOpnd, Opnd.IsRegOpnd, bind, Except.bind]

/-- C3. For `BIC`, `MUL`, `SDIV` and the register forms of `ADD`, `ADDS`, `AND`,
`ANDS`, `ASR`, `EOR`, `LSL`, `LSR`, `ORR`, `SUB`, `SUBS` (each listed with the
32-bit and the 64-bit encoder of its case) on register operands `dst`, `src1`,
`src2`: if all three are 8 bytes wide the 64-bit encoder is invoked, if all
three are 4 bytes wide the 32-bit encoder, in both cases on
`(RegEncode[dst], RegEncode[src1], RegEncode[src2])`, and the emitted word is
returned; for every other combination of sizes encoding fails with a fatal
assertion. -/
theorem GenerateEncoding_EmitOp3Register (md : MdDecls) (func : Func) (st : EncoderState)
    (pc : Nat) (instr : Instr) (reg32 reg64 : EncFn) (dst src1 src2 : RegOpnd)
    (hdst : instr.m_dst = some (.reg dst)) (hsrc1 : instr.m_src1 = some (.reg src1))
    (hsrc2 : instr.m_src2 = some (.reg src2))
    (hcase : (instr.m_opcode, reg32, reg64) ∈
      [(OpCode.BIC, EncFn.EmitBicRegister, EncFn.EmitBicRegister64),
       (.MUL, .EmitMul, .EmitMul64), (.SDIV, .EmitSdiv, .EmitSdiv64),
       (.ADD, .EmitAddRegister, .EmitAddRegister64),
       (.ADDS, .EmitAddsRegister, .EmitAddsRegister64),
       (.AND, .EmitAndRegister, .EmitAndRegister64),
       (.ANDS, .EmitAndsRegister, .EmitAndsRegister64),
       (.ASR, .EmitAsrRegister, .EmitAsrRegister64),
       (.EOR, .EmitEorRegister, .EmitEorRegister64),
       (.LSL, .EmitLslRegister, .EmitLslRegister64),
       (.LSR, .EmitLsrRegister, .EmitLsrRegister64),
       (.ORR, .EmitOrrRegister, .EmitOrrRegister64),
       (.SUB, .EmitSubRegister, .EmitSubRegister64),
       (.SUBS, .EmitSubsRegister, .EmitSubsRegister64)]) :
    GenerateEncoding md func st instr pc =
      if TySize dst.m_type = 8 ∧ TySize src1.m_type = 8 ∧ TySize src2.m_type = 8 then
        (let e := md.emit ⟨reg64, [.reg (md.RegEncode dst.m_reg),
            .reg (md.RegEncode src1.m_reg), .reg (md.RegEncode src2.m_reg)]⟩
         if e.bytes = 0 then .error .assertion else .ok (e.opcode, st))
      else if TySize dst.m_type = 4 ∧ TySize src1.m_type = 4 ∧ TySize src2.m_type = 4 then
        (let e := md.emit ⟨reg32, [.reg (md.RegEncode dst.m_reg),
            .reg (md.RegEncode src1.m_reg), .reg (md.RegEncode src2.m_reg)]⟩
         if e.bytes = 0 then .error .assertion else .ok (e.opcode, st))
      else .error .assertion := by
  have hd := dispatch_EmitOp3Register md func st instr reg32 reg64 src2 hsrc2 hcase
  rw [EmitOp3Register_registers md instr reg32 reg64 dst src1 src2 hdst hsrc1 hsrc2] at hd
  split_ifs with h8 h4
  · rw [if_pos h8] at hd
    exact GenerateEncoding_of_dispatch_ok md func st st instr pc _ hd
  · rw [if_neg h8, if_pos h4] at hd
    exact GenerateEncoding_of_dispatch_ok md func st st instr pc _ hd
  · rw [if_neg h8, if_neg h4] at hd
    exact GenerateEncoding_of_dispatch_error md func st instr pc _ hd

/-- C3, at `BIC x2, x0, x1` on 8-byte registers: the 64-bit encoder runs on
`(2, 0, 1)`. -/
theorem GenerateEncoding_EmitOp3Register_witness :
    GenerateEncoding exampleMd exampleFunc exampleInit exampleBic 0 =
      .ok ((exampleMd.emit ⟨.EmitBicRegister64, [.reg 2, .reg 0, .reg 1]⟩).opcode,
        exampleInit) := by
  have h := GenerateEncoding_EmitOp3Register exampleMd exampleFunc exampleInit 0
    exampleBic .EmitBicRegister .EmitBicRegister64 ⟨2, .TyInt64⟩ ⟨0, .TyInt64⟩ ⟨1, .TyInt64⟩ rfl rfl rfl
    (List.Mem.head _)
  rw [h]
  rfl

/-- C6. A branch instruction (with a branch target) whose operands meet the
preconditions of its routine makes the dispatch prepend exactly one relocation
record, with patch offset `m_pc`, the branch target as target, and the kind
given by the opcode: `BL` a 26-bit branch; `BEQ`, `BNE`, `BLT`, `BLE`, `BGT`,
`BGE`, `BCS`, `BCC`, `BHI`, `BLS`, `BMI`, `BPL`, `BVS`, `BVC`, `CBZ`, `CBNZ` a
19-bit branch; `TBZ`, `TBNZ` a 14-bit branch.  The case of the switch runs to
its end with some emitted `e`, and `GenerateEncoding` returns the word of `e`
with the extended list. -/
theorem dispatch_branch_relocation (md : MdDecls) (func : Func) (st : EncoderState)
    (pc : Nat) (instr : Instr) (target : LabelRef) (k : RelocType)
    (hkind : instr.kind = .branch target)
    (hcase :
      (instr.m_opcode = .BL ∧ k = .RelocTypeBranch26) ∨
      (instr.m_opcode ∈ [OpCode.BEQ, .BNE, .BLT, .BLE, .BGT, .BGE, .BCS, .BCC, .BHI, .BLS,
          .BMI, .BPL, .BVS, .BVC] ∧ k = .RelocTypeBranch19) ∨
      (instr.m_opcode ∈ [OpCode.CBZ, .CBNZ] ∧ k = .RelocTypeBranch19 ∧
        ∃ r, instr.m_src1 = some (.reg r) ∧ (TySize r.m_type = 4 ∨ TySize r.m_type = 8)) ∨
      (instr.m_opcode ∈ [OpCode.TBZ, .TBNZ] ∧ k = .RelocTypeBranch14 ∧
        ∃ r b, instr.m_src1 = some (.reg r) ∧ instr.m_src2 = some (.imm b) ∧
          0 ≤ b.m_value ∧ b.m_value < 64)) :
    ∃ e : Emitted,
      dispatch md func st instr =
        .ok (e, { st with m_relocList :=
          { m_relocType := k, m_consumerOffset := st.m_pc, m_relocInstr := target }
            :: st.m_relocList }) ∧
      GenerateEncoding md func st instr pc =
        if e.bytes = 0 then .error .assertion
        else .ok (e.opcode, { st with m_relocList :=
          { m_relocType := k, m_consumerOffset := st.m_pc, m_relocInstr := target }
            :: st.m_relocList }) := by
  suffices h : ∃ e : Emitted, dispatch md func st instr =
      .ok (e, { st with m_relocList :=
        { m_relocType := k, m_consumerOffset := st.m_pc, m_relocInstr := target }
          :: st.m_relocList }) by
    obtain ⟨e, he⟩ := h
    exact ⟨e, he, GenerateEncoding_of_dispatch_ok md func st _ instr pc e he⟩
  rcases hcase with ⟨hop, hk⟩ | ⟨hop, hk⟩ | ⟨hop, hk, r, hsrc1, hsize⟩ |
      ⟨hop, hk, r, b, hsrc1, hsrc2, hb0, hb64⟩
  · subst hk
    simp [dispatch, hop, EmitUnconditionalBranch, Instr.GetTarget, hkind,
      EncodeReloc.New, bind, Except.bind, pure, Except.pure]
  · subst hk
    simp only [List.mem_cons, List.mem_singleton, List.not_mem_nil, or_false] at hop
    rcases hop with h | h | h | h | h | h | h | h | h | h | h | h | h | h <;>
      simp [dispatch, h, EmitConditionalBranch, Instr.GetTarget, hkind,
        EncodeReloc.New, bind, Except.bind, pure, Except.pure]
  · subst hk
    simp only [List.mem_cons, List.mem_singleton, List.not_mem_nil, or_false] at hop
    rcases hop with h | h <;> rcases hsize with hs | hs <;>
      simp [dispatch, h, EmitCompareAndBranch, Instr.GetTarget, hkind, Instr.GetSrc1, hsrc1,
        deref, Assert, Opnd.IsRegOpnd, Opnd.GetSize, Opnd.GetType, Opnd.AsRegOpnd, hs,
        EncodeReloc.New, bind, Except.bind, pure, Except.pure]
  · subst hk
    simp only [List.mem_cons, List.mem_singleton, List.not_mem_nil, or_false] at hop
    rcases hop with h | h <;>
      simp [dispatch, h, EmitTestAndBranch, Instr.GetTarget, hkind, Instr.GetSrc1, hsrc1,
        Instr.GetSrc2, hsrc2, deref, Assert, Opnd.IsRegOpnd, Opnd.IsImmediateOpnd,
        Opnd.GetImmediateValue, Opnd.AsRegOpnd, hb0, hb64,
        EncodeReloc.New, bind, Except.bind, pure, Except.pure]

/-- C6, at `BL L7`, `BNE L7`, `CBNZ w3, L7` and `TBZ x3, #5, L7` encoded at
address 64 with one earlier record in the list: each puts one record in front
of the earlier one, of kind 26-bit, 19-bit, 19-bit and 14-bit branch. -/
theorem dispatch_branch_relocation_witness :
    (∃ e, dispatch exampleMd exampleFunc exampleState exampleBl =
      .ok (e, { m_pc := 64, m_relocList :=
        [⟨.RelocTypeBranch26, 64, 7⟩, ⟨.RelocTypeBranch19, 16, 2⟩] })) ∧
    (∃ e, dispatch exampleMd exampleFunc exampleState exampleBne =
      .ok (e, { m_pc := 64, m_relocList :=
        [⟨.RelocTypeBranch19, 64, 7⟩, ⟨.RelocTypeBranch19, 16, 2⟩] })) ∧
    (∃ e, dispatch exampleMd exampleFunc exampleState exampleCbnz =
      .ok (e, { m_pc := 64, m_relocList :=
        [⟨.RelocTypeBranch19, 64, 7⟩, ⟨.RelocTypeBranch19, 16, 2⟩] })) ∧
    (∃ e, dispatch exampleMd exampleFunc exampleState exampleTbz =
      .ok (e, { m_pc := 64, m_relocList :=
        [⟨.RelocTypeBranch14, 64, 7⟩, ⟨.RelocTypeBranch19, 16, 2⟩] })) := by
  refine ⟨?_, ?_, ?_, ?_⟩
  · obtain ⟨e, h, _⟩ := dispatch_branch_relocation exampleMd exampleFunc exampleState 0
      exampleBl 7 .RelocTypeBranch26 rfl (Or.inl ⟨rfl, rfl⟩)
    exact ⟨e, h⟩
  · obtain ⟨e, h, _⟩ := dispatch_branch_relocation exampleMd exampleFunc exampleState 0
      exampleBne 7 .RelocTypeBranch19 rfl
      (Or.inr (Or.inl ⟨by simp [exampleBne], rfl⟩))
    exact ⟨e, h⟩
  · obtain ⟨e, h, _⟩ := dispatch_branch_relocation exampleMd exampleFunc exampleState 0
      exampleCbnz 7 .RelocTypeBranch19 rfl
      (Or.inr (Or.inr (Or.inl ⟨by simp [exampleCbnz], rfl, ⟨3, .TyInt32⟩, rfl, Or.inl rfl⟩)))
    exact ⟨e, h⟩
  · obtain ⟨e, h, _⟩ := dispatch_branch_relocation exampleMd exampleFunc exampleState 0
      exampleTbz 7 .RelocTypeBranch14 rfl
      (Or.inr (Or.inr (Or.inr ⟨by simp [exampleTbz], rfl, ⟨3, .TyInt64⟩, ⟨5, .TyInt32⟩,
        rfl, rfl, by decide, by decide⟩)))
    exact ⟨e, h⟩

/-- The loop of `EmitMovConstant` exits at once on a value that fits 16 bits. -/
theorem movConstantLoop_done (i s : Int) (h0 : 0 ≤ i) (h1 : i < 65536) :
    movConstantLoop i s = (i, s) := by
  rw [movConstantLoop]
  split
  · omega
  · rfl

/-- The loop of `EmitMovConstant` takes one more turn on any other value. -/
theorem movConstantLoop_step (i s : Int) (h : i < 0 ∨ 65536 ≤ i) :
    movConstantLoop i s = movConstantLoop (toInt64 (toUInt64 i / 2 ^ 16)) (s + 16) := by
  rw [movConstantLoop]
  split
  · rfl
  · omega

/-- Result of the loop of `EmitMovConstant` on an `int64` constant `c`, in terms
of the unsigned value `c % 2 ^ 64`. -/
theorem movConstantLoop_eq (c : Int) (hlo : -2 ^ 63 ≤ c) (hhi : c < 2 ^ 63) :
    movConstantLoop c 0 =
      if c % 2 ^ 64 < 2 ^ 16 then (c % 2 ^ 64, 0)
      else if c % 2 ^ 64 < 2 ^ 32 then (c % 2 ^ 64 / 2 ^ 16, 16)
      else if c % 2 ^ 64 < 2 ^ 48 then (c % 2 ^ 64 / 2 ^ 32, 32)
      else (c % 2 ^ 64 / 2 ^ 48, 48) := by
  by_cases h16 : c % 2 ^ 64 < 2 ^ 16
  · rw [if_pos h16, movConstantLoop_done c 0 (by omega) (by omega)]
    congr 1
    omega
  · rw [if_neg h16, movConstantLoop_step c 0 (by omega)]
    have e1 : toInt64 (toUInt64 c / 2 ^ 16) = c % 2 ^ 64 / 2 ^ 16 := by
      simp only [toInt64, toUInt64]; omega
    rw [e1]
    by_cases h32 : c % 2 ^ 64 < 2 ^ 32
    · rw [if_pos h32, movConstantLoop_done _ _ (by omega) (by omega)]
      rfl
    · rw [if_neg h32, movConstantLoop_step _ _ (by omega)]
      have e2 : toInt64 (toUInt64 (c % 2 ^ 64 / 2 ^ 16) / 2 ^ 16) = c % 2 ^ 64 / 2 ^ 32 := by
        simp only [toInt64, toUInt64]; omega
      rw [e2]
      by_cases h48 : c % 2 ^ 64 < 2 ^ 48
      · rw [if_pos h48, movConstantLoop_done _ _ (by omega) (by omega)]
        rfl
      · rw [if_neg h48, movConstantLoop_step _ _ (by omega)]
        have e3 : toInt64 (toUInt64 (c % 2 ^ 64 / 2 ^ 32) / 2 ^ 16) = c % 2 ^ 64 / 2 ^ 48 := by
          simp only [toInt64, toUInt64]; omega
        rw [e3, movConstantLoop_done _ _ (by omega) (by omega)]
        rfl

/-- Behaviour of `EmitMovConstant` on a register destination and an immediate
source, in terms of the result of its loop. -/
theorem EmitMovConstant_eq (md : MdDecls) (instr : Instr) (emitter emitter64 : EncFn)
    (d : RegOpnd) (c : IntConstOpnd) (hdst : instr.m_dst = some (.reg d))
    (hsrc1 : instr.m_src1 = some (.imm c)) :
    EmitMovConstant md instr emitter emitter64 =
      if TySize d.m_type = 8 then
        .ok (md.emit ⟨emitter64, [.reg (md.RegEncode d.m_reg),
          .imm (toUInt32 (movConstantLoop c.m_value 0).1), .imm (movConstantLoop c.m_value 0).2]⟩)
      else if TySize d.m_type = 4 then
        if (movConstantLoop c.m_value 0).2 < 32 then
          .ok (md.emit ⟨emitter, [.reg (md.RegEncode d.m_reg),
            .imm (toUInt32 (movConstantLoop c.m_value 0).1),
            .imm (movConstantLoop c.m_value 0).2]⟩)
        else .error .assertion
      else .error .assertion := by
  simp only [EmitMovConstant, Instr.GetDst, Instr.GetSrc1, hdst, hsrc1, deref, Opnd.IsRegOpnd,
    Opnd.IsImmediateOpnd, Opnd.GetSize, Opnd.GetType, Opnd.AsRegOpnd, Opnd.GetImmediateValue,
    GetRegEncode, Assert, bind, Except.bind, pure, Except.pure]
  by_cases h8 : TySize d.m_type = 8
  · simp [h8]
  · by_cases h4 : TySize d.m_type = 4
    · by_cases hs : (movConstantLoop c.m_value 0).2 < 32 <;> simp [h4, hs]
    · simp [h8, h4]

/-- C4. For an 8-byte register destination and an immediate source holding the
`int64` constant `c`, `EmitMovConstant` invokes the 64-bit encoder on
`(RegEncode[dst], imm, shift)` where, with `u = c % 2 ^ 64` the constant read
as an unsigned 64-bit value, `shift` is one of 0, 16, 32, 48, `imm = u >> shift`
fits 16 bits (so `(u >> shift) & 0xFFFF = u >> shift`), and no smaller multiple
of 16 makes `u >> s` fit 16 bits. -/
theorem EmitMovConstant_decomposition (md : MdDecls) (instr : Instr)
    (emitter emitter64 : EncFn) (d : RegOpnd) (c : IntConstOpnd)
    (hdst : instr.m_dst = some (.reg d)) (hsrc1 : instr.m_src1 = some (.imm c))
    (hsize : TySize d.m_type = 8) (hlo : -2 ^ 63 ≤ c.m_value) (hhi : c.m_value < 2 ^ 63) :
    ∃ shift : Nat, shift ∈ [0, 16, 32, 48] ∧
      EmitMovConstant md instr emitter emitter64 =
        .ok (md.emit ⟨emitter64, [.reg (md.RegEncode d.m_reg),
          .imm (c.m_value % 2 ^ 64 / 2 ^ shift), .imm (shift : Int)]⟩) ∧
      c.m_value % 2 ^ 64 / 2 ^ shift < 2 ^ 16 ∧
      (c.m_value % 2 ^ 64 / 2 ^ shift) % 2 ^ 16 = c.m_value % 2 ^ 64 / 2 ^ shift ∧
      (∀ s : Nat, 16 ∣ s → s < shift → (2 : Int) ^ 16 ≤ c.m_value % 2 ^ 64 / 2 ^ s) := by
  have hE := EmitMovConstant_eq md instr emitter emitter64 d c hdst hsrc1
  rw [if_pos hsize, movConstantLoop_eq c.m_value hlo hhi] at hE
  have hmin : ∀ (bound : Nat) (s : Nat), 16 ∣ s → s < bound → bound ≤ 48 →
      s = 0 ∨ s = 16 ∨ s = 32 := by
    intro bound s hd hs hb
    omega
  by_cases h16 : c.m_value % 2 ^ 64 < 2 ^ 16
  · refine ⟨0, by simp, ?_, by simpa using h16, by simp; omega, by intro s _ hs; omega⟩
    rw [hE, if_pos h16]
    simp only [toUInt32, pow_zero, Int.ediv_one, Nat.cast_zero]
    have e : c.m_value % 2 ^ 64 % 2 ^ 32 = c.m_value % 2 ^ 64 := by omega
    rw [e]
  · by_cases h32 : c.m_value % 2 ^ 64 < 2 ^ 32
    · refine ⟨16, by simp, ?_, by omega, by omega, ?_⟩
      · rw [hE, if_neg h16, if_pos h32]
        simp only [toUInt32, Nat.cast_ofNat]
        have e : c.m_value % 2 ^ 64 / 2 ^ 16 % 2 ^ 32 = c.m_value % 2 ^ 64 / 2 ^ 16 := by
          omega
        rw [e]
      · intro s hd hs
        rcases hmin 16 s hd hs (by omega) with h | h | h <;> subst h <;> simp at hs ⊢
        omega
    · by_cases h48 : c.m_value % 2 ^ 64 < 2 ^ 48
      · refine ⟨32, by simp, ?_, by omega, by omega, ?_⟩
        · rw [hE, if_neg h16, if_neg h32, if_pos h48]
          simp only [toUInt32, Nat.cast_ofNat]
          have e : c.m_value % 2 ^ 64 / 2 ^ 32 % 2 ^ 32 = c.m_value % 2 ^ 64 / 2 ^ 32 := by
            omega
          rw [e]
        · intro s hd hs
          rcases hmin 32 s hd hs (by omega) with h | h | h <;> subst h <;> simp at hs ⊢ <;>
            omega
      · refine ⟨48, by simp, ?_, by omega, by omega, ?_⟩
        · rw [hE, if_neg h16, if_neg h32, if_neg h48]
          simp only [toUInt32, Nat.cast_ofNat]
          have e : c.m_value % 2 ^ 64 / 2 ^ 48 % 2 ^ 32 = c.m_value % 2 ^ 64 / 2 ^ 48 := by
            omega
          rw [e]
        · intro s hd hs
          rcases hmin 48 s hd hs (by omega) with h | h | h <;> subst h <;> simp at hs ⊢ <;>
            omega

/-- C4, at `MOVZ x0, #0x12340000` and at `MOVN x0, #-1`: the encoder receives
`(0x1234, 16)` and `(0xFFFF, 48)`. -/
theorem EmitMovConstant_decomposition_witness :
    (∃ shift : Nat, shift ∈ [0, 16, 32, 48] ∧
      EmitMovConstant exampleMd exampleMovz .EmitMovz .EmitMovz64 =
        .ok (exampleMd.emit ⟨.EmitMovz64, [.reg (exampleMd.RegEncode 0),
          .imm (0x12340000 % 2 ^ 64 / 2 ^ shift), .imm (shift : Int)]⟩) ∧
      (0x12340000 : Int) % 2 ^ 64 / 2 ^ shift < 2 ^ 16 ∧
      ((0x12340000 : Int) % 2 ^ 64 / 2 ^ shift) % 2 ^ 16 = 0x12340000 % 2 ^ 64 / 2 ^ shift ∧
      (∀ s : Nat, 16 ∣ s → s < shift → (2 : Int) ^ 16 ≤ 0x12340000 % 2 ^ 64 / 2 ^ s)) ∧
    EmitMovConstant exampleMd exampleMovz .EmitMovz .EmitMovz64 =
      .ok (exampleMd.emit ⟨.EmitMovz64, [.reg 0, .imm 0x1234, .imm 16]⟩) ∧
    EmitMovConstant exampleMd exampleMovn .EmitMovn .EmitMovn64 =
      .ok (exampleMd.emit ⟨.EmitMovn64, [.reg 0, .imm 0xFFFF, .imm 48]⟩) := by
  refine ⟨EmitMovConstant_decomposition exampleMd exampleMovz .EmitMovz .EmitMovz64
    ⟨0, .TyInt64⟩ ⟨0x12340000, .TyInt64⟩ rfl rfl rfl (by decide) (by decide), ?_, ?_⟩
  · rw [EmitMovConstant_eq exampleMd exampleMovz .EmitMovz .EmitMovz64
      ⟨0, .TyInt64⟩ ⟨0x12340000, .TyInt64⟩ rfl rfl,
      movConstantLoop_eq _ (by decide) (by decide)]
    rfl
  · rw [EmitMovConstant_eq exampleMd exampleMovn .EmitMovn .EmitMovn64
      ⟨0, .TyInt64⟩ ⟨-1, .TyInt64⟩ rfl rfl,
      movConstantLoop_eq _ (by decide) (by decide)]
    rfl

/-- C5. For a register destination and an immediate source holding the `int64`
constant `c`: with an 8-byte destination `EmitMovConstant` always reaches its
encoder; with a 4-byte destination it fails with a fatal assertion exactly when
the shift its loop computed is 32 or more, that is exactly when `c` read as an
unsigned 64-bit value is at least `2 ^ 32` (in particular for every negative
`c`), and reaches the 32-bit encoder otherwise. -/
theorem EmitMovConstant_failure (md : MdDecls) (instr : Instr)
    (emitter emitter64 : EncFn) (d : RegOpnd) (c : IntConstOpnd)
    (hdst : instr.m_dst = some (.reg d)) (hsrc1 : instr.m_src1 = some (.imm c))
    (hlo : -2 ^ 63 ≤ c.m_value) (hhi : c.m_value < 2 ^ 63) :
    (TySize d.m_type = 8 → ∃ imm shift, EmitMovConstant md instr emitter emitter64 =
      .ok (md.emit ⟨emitter64, [.reg (md.RegEncode d.m_reg), .imm imm, .imm shift]⟩)) ∧
    (TySize d.m_type = 4 →
      (EmitMovConstant md instr emitter emitter64 = .error .assertion ↔
        32 ≤ (movConstantLoop c.m_value 0).2) ∧
      (32 ≤ (movConstantLoop c.m_value 0).2 ↔ 2 ^ 32 ≤ c.m_value % 2 ^ 64) ∧
      (c.m_value % 2 ^ 64 < 2 ^ 32 → ∃ imm shift, shift < 32 ∧
        EmitMovConstant md instr emitter emitter64 =
          .ok (md.emit ⟨emitter, [.reg (md.RegEncode d.m_reg), .imm imm, .imm shift]⟩)) ∧
      (c.m_value < 0 → EmitMovConstant md instr emitter emitter64 = .error .assertion)) := by
  have hE := EmitMovConstant_eq md instr emitter emitter64 d c hdst hsrc1
  have hL := movConstantLoop_eq c.m_value hlo hhi
  constructor
  · intro h8
    rw [if_pos h8] at hE
    exact ⟨_, _, hE⟩
  · intro h4
    have h8 : ¬ TySize d.m_type = 8 := by omega
    rw [if_neg h8, if_pos h4] at hE
    have hshift : (movConstantLoop c.m_value 0).2 < 32 ↔ c.m_value % 2 ^ 64 < 2 ^ 32 := by
      rw [hL]
      split_ifs <;> simp <;> omega
    refine ⟨?_, ?_, ?_, ?_⟩
    · rw [hE]
      constructor
      · intro h
        by_contra hlt
        rw [if_pos (by omega)] at h
        cases h
      · intro h
        rw [if_neg (by omega)]
    · constructor
      · intro h
        by_contra hlt
        have := hshift.mpr (by omega)
        omega
      · intro h
        by_contra hlt
        have := hshift.mp (by omega)
        omega
    · intro hlt
      rw [if_pos (hshift.mpr hlt)] at hE
      exact ⟨_, _, hshift.mpr hlt, hE⟩
    · intro hneg
      rw [hE, if_neg (by rw [hshift]; omega)]

/-- C5, at `MOVZ x0, #0x12340000` (8 bytes), `MOVZ w0, #0x12340000` and
`MOVZ w0, #-1` (4 bytes): the first two reach their encoders, the third is a
fatal assertion. -/
theorem EmitMovConstant_failure_witness :
    (∃ imm shift, EmitMovConstant exampleMd exampleMovz .EmitMovz .EmitMovz64 =
      .ok (exampleMd.emit ⟨.EmitMovz64, [.reg 0, .imm imm, .imm shift]⟩)) ∧
    (∃ imm shift, shift < 32 ∧ EmitMovConstant exampleMd exampleMovz32 .EmitMovz .EmitMovz64 =
      .ok (exampleMd.emit ⟨.EmitMovz, [.reg 0, .imm imm, .imm shift]⟩)) ∧
    EmitMovConstant exampleMd exampleMovzNeg32 .EmitMovz .EmitMovz64 = .error .assertion := by
  refine ⟨?_, ?_, ?_⟩
  · exact (EmitMovConstant_failure exampleMd exampleMovz .EmitMovz .EmitMovz64
      ⟨0, .TyInt64⟩ ⟨0x12340000, .TyInt64⟩ rfl rfl (by decide) (by decide)).1 rfl
  · exact ((EmitMovConstant_failure exampleMd exampleMovz32 .EmitMovz .EmitMovz64
      ⟨0, .TyInt32⟩ ⟨0x12340000, .TyInt32⟩ rfl rfl (by decide) (by decide)).2 rfl).2.2.1
      (by decide)
  · exact ((EmitMovConstant_failure exampleMd exampleMovzNeg32 .EmitMovz .EmitMovz64
      ⟨0, .TyInt32⟩ ⟨-1, .TyInt32⟩ rfl rfl (by decide) (by decide)).2 rfl).2.2.2 (by decide)

/-- Additions on an `int32` variable compose: converting an intermediate sum
does not change the converted total. -/
theorem toInt32_add_toInt32 (a b : Int) : toInt32 (toInt32 a + b) = toInt32 (a + b) := by
  simp only [toInt32]
  omega

/-- C7. For a symbolic stack operand whose symbol is not a parameter-slot
symbol `BaseAndOffsetFromSym` returns the locals pointer of the function as
base and, as offset, the `int32` value of `sym.m_offset + opnd.m_offset`, plus
`m_argSlotsForFunctionsCalled * MachRegInt` if the locals pointer is `RegSP`,
plus `GetInlineeArgumentStackSize()` if the function has an inlinee and the
symbol is not an argument-slot symbol or is an orphaned one; nothing else is
added.  It returns exactly when the cross-checks of the debug build hold and is
a fatal assertion otherwise. -/
theorem BaseAndOffsetFromSym_local (md : MdDecls) (symOpnd : SymOpnd) (func : Func)
    (hparam : symOpnd.m_sym.m_isParamSym = false) :
    BaseAndOffsetFromSym md symOpnd func =
      (let offset := toInt32 (symOpnd.m_sym.m_offset + symOpnd.m_offset
          + (if func.m_localsPointer = md.RegSP then
              func.m_argSlotsForFunctionsCalled * md.MachRegInt else 0)
          + (if func.m_hasInlinee = true ∧ (symOpnd.m_sym.m_isArgSlotSym = false ∨
                symOpnd.m_sym.m_isOrphanedArg = true) then
              func.m_inlineeArgumentStackSize else 0))
       if 0 ≤ offset ∧
          (func.m_localsPointer = md.RegSP →
            toUInt32 (func.m_argSlotsForFunctionsCalled * md.MachRegInt) ≤ toUInt32 offset) ∧
          (func.m_hasInlinee = true → func.m_localsPointer = md.RegSP ∧
            (if symOpnd.m_sym.m_isArgSlotSym = true ∧ symOpnd.m_sym.m_isOrphanedArg = false
             then symOpnd.m_sym.m_isInlinedArgSlot = true
             else symOpnd.m_sym.m_allocated = true))
       then .ok (func.m_localsPointer, offset) else .error .assertion) := by
  simp only [BaseAndOffsetFromSym, StackSym.IsParamSlotSym, StackSym.IsArgSlotSym,
    StackSym.IsAllocated, Func.GetLocalsPointer, Func.HasInlinee,
    Func.GetInlineeArgumentStackSize, hparam, Assert, bind, Except.bind, pure, Except.pure]
  by_cases hsp : func.m_localsPointer = md.RegSP <;>
  by_cases hin : func.m_hasInlinee = true <;>
  by_cases harg : symOpnd.m_sym.m_isArgSlotSym = true <;>
  by_cases horph : symOpnd.m_sym.m_isOrphanedArg = true <;>
  simp [hsp, hin, harg, horph, toInt32_add_toInt32] <;>
  split_ifs <;> simp_all

/-- C7, at a local at frame offset 24 read at sub-offset 8, in a frame addressed
from `sp` with two outgoing argument slots: base `sp`, offset 24 + 8 + 16. -/
theorem BaseAndOffsetFromSym_local_witness :
    BaseAndOffsetFromSym exampleMd exampleLocal exampleFunc = .ok (31, 48) := by
  rw [BaseAndOffsetFromSym_local exampleMd exampleLocal exampleFunc rfl]
  rfl

/-- Behaviour of `BaseAndOffsetFromSym` on a parameter-slot symbol. -/
theorem BaseAndOffsetFromSym_param_eq (md : MdDecls) (symOpnd : SymOpnd) (func : Func)
    (hparam : symOpnd.m_sym.m_isParamSym = true) :
    BaseAndOffsetFromSym md symOpnd func =
      (let o := toInt32 (symOpnd.m_sym.m_offset + symOpnd.m_offset
          + (if func.m_localsPointer = md.RegSP then
              func.m_argSlotsForFunctionsCalled * md.MachRegInt else 0)
          + (func.m_localStackHeight + func.m_ArgumentsOffset))
       let o1 := toInt32 (symOpnd.m_sym.m_offset + symOpnd.m_offset
          - md.JavascriptFunctionArgIndex_Frame * md.MachRegInt)
       if md.CanEncodeLoadStoreOffset o = true then .ok (func.m_localsPointer, o)
       else if md.CanEncodeLoadStoreOffset o1 = true then .ok (md.FRAME_REG, o1)
       else .error .assertion) := by
  simp only [BaseAndOffsetFromSym, StackSym.IsParamSlotSym, StackSym.IsArgSlotSym,
    Func.GetLocalsPointer, Func.HasInlinee, Func.GetInlineeArgumentStackSize, hparam, Assert,
    bind, Except.bind, pure, Except.pure]
  by_cases hsp : func.m_localsPointer = md.RegSP <;>
  by_cases hin : func.m_hasInlinee = true <;>
  simp [hsp, hin, toInt32_add_toInt32] <;>
  split_ifs <;> simp_all

/-- C8. For a parameter-slot symbol `BaseAndOffsetFromSym` computes
`o = sym.m_offset + opnd.m_offset` (plus the outgoing-argument area if the
locals pointer is `RegSP`) `+ m_localStackHeight + m_ArgumentsOffset`; if `o` is
encodable as a load/store offset it returns the locals pointer and `o`;
otherwise it returns `FRAME_REG` and
`sym.m_offset + opnd.m_offset - JavascriptFunctionArgIndex_Frame * MachRegInt`
if that offset is encodable, and is a fatal assertion if it is not.  In
particular an offset returned with `FRAME_REG` after the switch is encodable. -/
theorem BaseAndOffsetFromSym_param (md : MdDecls) (symOpnd : SymOpnd) (func : Func)
    (hparam : symOpnd.m_sym.m_isParamSym = true) :
    BaseAndOffsetFromSym md symOpnd func =
      (let o := toInt32 (symOpnd.m_sym.m_offset + symOpnd.m_offset
          + (if func.m_localsPointer = md.RegSP then
              func.m_argSlotsForFunctionsCalled * md.MachRegInt else 0)
          + (func.m_localStackHeight + func.m_ArgumentsOffset))
       let o1 := toInt32 (symOpnd.m_sym.m_offset + symOpnd.m_offset
          - md.JavascriptFunctionArgIndex_Frame * md.MachRegInt)
       if md.CanEncodeLoadStoreOffset o = true then .ok (func.m_localsPointer, o)
       else if md.CanEncodeLoadStoreOffset o1 = true then .ok (md.FRAME_REG, o1)
       else .error .assertion) ∧
    (md.CanEncodeLoadStoreOffset (toInt32 (symOpnd.m_sym.m_offset + symOpnd.m_offset
          + (if func.m_localsPointer = md.RegSP then
              func.m_argSlotsForFunctionsCalled * md.MachRegInt else 0)
          + (func.m_localStackHeight + func.m_ArgumentsOffset))) = false →
      ∀ base offset, BaseAndOffsetFromSym md symOpnd func = .ok (base, offset) →
        base = md.FRAME_REG ∧ md.CanEncodeLoadStoreOffset offset = true) := by
  have h := BaseAndOffsetFromSym_param_eq md symOpnd func hparam
  refine ⟨h, ?_⟩
  intro hno base offset hret
  rw [h] at hret
  simp only [hno, Bool.false_eq_true, if_false] at hret
  split_ifs at hret with h1
  simp only [Except.ok.injEq, Prod.mk.injEq] at hret
  exact ⟨hret.1.symm, hret.2 ▸ h1⟩

/-- C8, at a parameter slot at offset 16: in the small example frame the
`sp`-relative offset 16 + 16 + 64 + 16 is used; in the example frame with
8 KiB of locals it is out of range and the result is `x29` with offset
16 - (-2) * 8. -/
theorem BaseAndOffsetFromSym_param_witness :
    BaseAndOffsetFromSym exampleMd exampleParam exampleFunc = .ok (31, 112) ∧
    BaseAndOffsetFromSym exampleMd exampleParam exampleBigFunc = .ok (29, 32) := by
  constructor
  · rw [(BaseAndOffsetFromSym_param exampleMd exampleParam exampleFunc rfl).1]
    rfl
  · rw [(BaseAndOffsetFromSym_param exampleMd exampleParam exampleBigFunc rfl).1]
    rfl

/-- An offset that leaves a two-stage check is accepted by the predicate. -/
theorem ok_offset_of_checked (p : Int → Bool) (a a1 : RegNum) (o o1 : Int) (b : RegNum)
    (off : Int)
    (h : (if p o = true then Except.ok (a, o)
          else if p o1 = true then Except.ok (a1, o1)
          else Except.error Fatal.assertion : Except Fatal (RegNum × Int)) = .ok (b, off)) :
    p off = true := by
  split_ifs at h with h1 h2
  · simp only [Except.ok.injEq, Prod.mk.injEq] at h
    exact h.2 ▸ h1
  · simp only [Except.ok.injEq, Prod.mk.injEq] at h
    exact h.2 ▸ h2

/-- C9 as stated fails: a local at frame offset 8192 in the example frame is
returned with offset 8208, which the load/store offset predicate of the
example rejects. -/
theorem BaseAndOffsetFromSym_offset_not_always_encodable :
    ¬ ∀ (md : MdDecls) (symOpnd : SymOpnd) (func : Func) (base : RegNum) (offset : Int),
        BaseAndOffsetFromSym md symOpnd func = .ok (base, offset) →
        md.CanEncodeLoadStoreOffset offset = true := by
  intro h
  have h1 : BaseAndOffsetFromSym exampleMd exampleFarLocal exampleFunc = .ok (31, 8208) := rfl
  have h2 := h exampleMd exampleFarLocal exampleFunc 31 8208 h1
  revert h2
  decide

/-- C9, amended. For a parameter-slot symbol, whenever `BaseAndOffsetFromSym`
returns, the returned offset satisfies `CanEncodeLoadStoreOffset`.  For a
symbol that is not a parameter slot the offset is not checked against the
load/store offset field: in a frame without outgoing arguments and without
inlinee every non-negative `int32` offset of an allocated local is returned
unchanged, whatever the predicate says of it. -/
theorem BaseAndOffsetFromSym_param_offset_encodable (md : MdDecls) :
    (∀ (symOpnd : SymOpnd) (func : Func) (base : RegNum) (offset : Int),
      symOpnd.m_sym.m_isParamSym = true →
      BaseAndOffsetFromSym md symOpnd func = .ok (base, offset) →
      md.CanEncodeLoadStoreOffset offset = true) ∧
    (∀ (lp : RegNum) (o : Int) (ty : IRType), 0 ≤ o → o < 2 ^ 31 →
      BaseAndOffsetFromSym md { m_sym := { m_offset := o }, m_offset := 0, m_type := ty }
        { m_localsPointer := lp } = .ok (lp, o)) := by
  constructor
  · intro symOpnd func base offset hparam hret
    rw [BaseAndOffsetFromSym_param_eq md symOpnd func hparam] at hret
    exact ok_offset_of_checked md.CanEncodeLoadStoreOffset _ _ _ _ _ _ hret
  · intro lp o ty h0 h1
    have e : toInt32 o = o := by
      simp only [toInt32]
      omega
    have e2 : (0 : Int) ≤ o % 4294967296 := by omega
    simp only [BaseAndOffsetFromSym, StackSym.IsParamSlotSym, StackSym.IsArgSlotSym,
      StackSym.IsAllocated, Func.GetLocalsPointer, Func.HasInlinee,
      Func.GetInlineeArgumentStackSize, Assert, bind, Except.bind, pure, Except.pure]
    by_cases hsp : lp = md.RegSP <;> simp [hsp, e, h0, toUInt32, e2, toInt32_add_toInt32]

/-- C9 amended, at the parameter slot of the example in both example frames
(the returned offsets 112 and 32 are encodable) and at a local at frame offset
100000 addressed from `x29` (returned as it is). -/
theorem BaseAndOffsetFromSym_param_offset_encodable_witness :
    exampleMd.CanEncodeLoadStoreOffset 112 = true ∧
    exampleMd.CanEncodeLoadStoreOffset 32 = true ∧
    BaseAndOffsetFromSym exampleMd
      { m_sym := { m_offset := 100000 }, m_offset := 0, m_type := .TyInt64 }
      { m_localsPointer := 29 } = .ok (29, 100000) := by
  have h := BaseAndOffsetFromSym_param_offset_encodable exampleMd
  refine ⟨h.1 exampleParam exampleFunc 31 112 rfl ?_,
    h.1 exampleParam exampleBigFunc 29 32 rfl ?_,
    h.2 29 100000 .TyInt64 (by decide) (by decide)⟩
  · rw [BaseAndOffsetFromSym_param_eq exampleMd exampleParam exampleFunc rfl]
    rfl
  · rw [BaseAndOffsetFromSym_param_eq exampleMd exampleParam exampleBigFunc rfl]
    rfl

/-- C10. `DecodeMemoryOpnd` has two outcomes on a memory operand.  It returns
`true` with `RegEncode` of the base and of the index register, the scale of
the operand and offset 0 on an indirect operand with an index register and a
zero offset; such an operand with a non-zero offset is a fatal assertion.  It
returns `false` with `RegEncode` of the base register and the static offset on
an indirect operand without index register, and `false` with `RegEncode` of
the base and the offset of `BaseAndOffsetFromSym` on a symbolic operand (index
and scale are not assigned).  So a returned `true` means exactly: indirect
operand with an index register. -/
theorem DecodeMemoryOpnd_shapes (md : MdDecls) (func : Func) :
    (∀ (i : IndirOpnd) (index : RegOpnd), i.m_indexOpnd = some index →
      DecodeMemoryOpnd md func (.indir i) =
        if i.m_offset = 0 then
          .ok { result := true, baseRegResult := md.RegEncode i.m_baseOpnd.m_reg,
                indexRegResult := some (md.RegEncode index.m_reg),
                indexScale := some i.m_scale, offset := 0 }
        else .error .assertion) ∧
    (∀ (i : IndirOpnd), i.m_indexOpnd = none →
      DecodeMemoryOpnd md func (.indir i) =
        .ok { result := false, baseRegResult := md.RegEncode i.m_baseOpnd.m_reg,
              indexRegResult := none, indexScale := none, offset := i.m_offset }) ∧
    (∀ (s : SymOpnd),
      DecodeMemoryOpnd md func (.sym s) =
        match BaseAndOffsetFromSym md s func with
        | .ok (baseReg, offset) =>
          .ok { result := false, baseRegResult := md.RegEncode baseReg,
                indexRegResult := none, indexScale := none, offset := offset }
        | .error f => .error f) ∧
    (∀ (opnd : Opnd) (d : DecodedMemoryOpnd), DecodeMemoryOpnd md func opnd = .ok d →
      (d.result = true ↔ ∃ i index, opnd = .indir i ∧ i.m_indexOpnd = some index)) := by
  have hindex : ∀ (i : IndirOpnd) (index : RegOpnd), i.m_indexOpnd = some index →
      DecodeMemoryOpnd md func (.indir i) =
        if i.m_offset = 0 then
          .ok { result := true, baseRegResult := md.RegEncode i.m_baseOpnd.m_reg,
                indexRegResult := some (md.RegEncode index.m_reg),
                indexScale := some i.m_scale, offset := 0 }
        else .error .assertion := by
    intro i index hi
    by_cases h0 : i.m_offset = 0 <;>
      simp [DecodeMemoryOpnd, Opnd.IsSymOpnd, Opnd.AsIndirOpnd, IndirOpnd.GetBaseOpnd,
        IndirOpnd.GetIndexOpnd, IndirOpnd.GetOffset, IndirOpnd.GetScale, GetRegEncode, Assert,
        hi, h0, bind, Except.bind, pure, Except.pure]
  have hnone : ∀ (i : IndirOpnd), i.m_indexOpnd = none →
      DecodeMemoryOpnd md func (.indir i) =
        .ok { result := false, baseRegResult := md.RegEncode i.m_baseOpnd.m_reg,
              indexRegResult := none, indexScale := none, offset := i.m_offset } := by
    intro i hi
    simp [DecodeMemoryOpnd, Opnd.IsSymOpnd, Opnd.AsIndirOpnd, IndirOpnd.GetBaseOpnd,
      IndirOpnd.GetIndexOpnd, IndirOpnd.GetOffset, IndirOpnd.GetScale, GetRegEncode, Assert,
      hi, bind, Except.bind, pure, Except.pure]
  have hsym : ∀ (s : SymOpnd),
      DecodeMemoryOpnd md func (.sym s) =
        match BaseAndOffsetFromSym md s func with
        | .ok (baseReg, offset) =>
          .ok { result := false, baseRegResult := md.RegEncode baseReg,
                indexRegResult := none, indexScale := none, offset := offset }
        | .error f => .error f := by
    intro s
    simp only [DecodeMemoryOpnd, Opnd.IsSymOpnd, Opnd.AsSymOpnd, if_true, bind, Except.bind,
      pure, Except.pure]
    cases BaseAndOffsetFromSym md s func <;> rfl
  refine ⟨hindex, hnone, hsym, ?_⟩
  intro opnd d hd
  cases opnd with
  | reg r => simp [DecodeMemoryOpnd, Opnd.IsSymOpnd, Opnd.AsIndirOpnd, bind, Except.bind] at hd
  | imm c => simp [DecodeMemoryOpnd, Opnd.IsSymOpnd, Opnd.AsIndirOpnd, bind, Except.bind] at hd
  | other t => simp [DecodeMemoryOpnd, Opnd.IsSymOpnd, Opnd.AsIndirOpnd, bind, Except.bind] at hd
  | sym s =>
    rw [hsym s] at hd
    cases hb : BaseAndOffsetFromSym md s func with
    | error f => rw [hb] at hd; cases hd
    | ok p =>
      rw [hb] at hd
      simp only [Except.ok.injEq] at hd
      subst hd
      simp
  | indir i =>
    cases hi : i.m_indexOpnd with
    | none =>
      rw [hnone i hi] at hd
      simp only [Except.ok.injEq] at hd
      subst hd
      simp [hi]
    | some index =>
      rw [hindex i index hi] at hd
      split_ifs at hd
      simp only [Except.ok.injEq] at hd
      subst hd
      simp [hi]

/-- C10, at `[x1, x2, LSL #3]`, at `[x1, #40]`, at the local of the example and
at an indirect operand with both an index register and offset 8. -/
theorem DecodeMemoryOpnd_shapes_witness :
    DecodeMemoryOpnd exampleMd exampleFunc (.indir exampleIndexed) =
      .ok { result := true, baseRegResult := 1, indexRegResult := some 2,
            indexScale := some 3, offset := 0 } ∧
    DecodeMemoryOpnd exampleMd exampleFunc (.indir exampleBaseOffset) =
      .ok { result := false, baseRegResult := 1, indexRegResult := none,
            indexScale := none, offset := 40 } ∧
    DecodeMemoryOpnd exampleMd exampleFunc (.sym exampleLocal) =
      .ok { result := false, baseRegResult := 31, indexRegResult := none,
            indexScale := none, offset := 48 } ∧
    DecodeMemoryOpnd exampleMd exampleFunc (.indir exampleIndexedOffset) =
      .error .assertion := by
  have h := DecodeMemoryOpnd_shapes exampleMd exampleFunc
  refine ⟨?_, ?_, ?_, ?_⟩
  · rw [h.1 exampleIndexed ⟨2, .TyInt64⟩ rfl]
    rfl
  · rw [h.2.1 exampleBaseOffset rfl]
    rfl
  · rw [h.2.2.1 exampleLocal]
    rfl
  · rw [h.1 exampleIndexedOffset ⟨2, .TyInt64⟩ rfl]
    rfl

/-- On a lowered `LEA`, `CanonicalizeInstr` is `CanonicalizeLea` with result
`true`. -/
theorem CanonicalizeInstr_of_LEA (md : MdDecls) (func : Func) (instr : Instr)
    (hlow : instr.isLowered = true) (hop : instr.m_opcode = .LEA) :
    CanonicalizeInstr md func instr =
      match CanonicalizeLea md func instr with
      | .ok i => .ok (true, i)
      | .error f => .error f := by
  simp only [CanonicalizeInstr, Instr.IsLowered, hlow, hop, bind, Except.bind, pure,
    Except.pure]
  cases CanonicalizeLea md func instr <;> rfl

/-- Behaviour of `CanonicalizeLea` on a symbolic source. -/
theorem CanonicalizeLea_sym (md : MdDecls) (func : Func) (instr : Instr) (s : SymOpnd)
    (hsrc1 : instr.m_src1 = some (.sym s)) (hsrc2 : instr.m_src2 = none) :
    CanonicalizeLea md func instr =
      match BaseAndOffsetFromSym md s func with
      | .ok (baseReg, offset) =>
        .ok { instr with
              m_opcode := .ADD
              m_src1 := some (.reg { m_reg := baseReg, m_type := TyMachReg })
              m_src2 := some (.imm { m_value := offset, m_type := TyMachReg }) }
      | .error f => .error f := by
  simp only [CanonicalizeLea, Instr.UnlinkSrc1, hsrc1, deref, Opnd.IsSymOpnd, Opnd.AsSymOpnd,
    bind, Except.bind, pure, Except.pure, if_true]
  cases BaseAndOffsetFromSym md s func with
  | error f => rfl
  | ok p => simp [Instr.SetSrc1, Instr.SetSrc2, Assert, hsrc2, bind, Except.bind, pure,
      Except.pure]

/-- Behaviour of `CanonicalizeLea` on an indirect source. -/
theorem CanonicalizeLea_indir (md : MdDecls) (func : Func) (instr : Instr) (i : IndirOpnd)
    (hsrc1 : instr.m_src1 = some (.indir i)) (hsrc2 : instr.m_src2 = none) :
    CanonicalizeLea md func instr =
      match i.m_indexOpnd with
      | some index =>
        if i.m_offset = 0 ∧ i.m_scale = 0 then
          .ok { instr with
                m_opcode := .ADD
                m_src1 := some (.reg i.m_baseOpnd)
                m_src2 := some (.reg index) }
        else .error .assertion
      | none =>
        .ok { instr with
              m_opcode := .ADD
              m_src1 := some (.reg i.m_baseOpnd)
              m_src2 := some (.imm { m_value := i.m_offset, m_type := TyMachReg }) } := by
  cases hi : i.m_indexOpnd with
  | none =>
    simp [CanonicalizeLea, Instr.UnlinkSrc1, hsrc1, deref, Opnd.IsSymOpnd, Opnd.AsIndirOpnd,
      IndirOpnd.GetBaseOpnd, IndirOpnd.GetIndexOpnd, IndirOpnd.GetOffset, IndirOpnd.GetScale,
      Instr.SetSrc1, Instr.SetSrc2, Assert, hsrc2, hi, bind, Except.bind, pure, Except.pure]
  | some index =>
    by_cases h0 : i.m_offset = 0 <;> by_cases hs : i.m_scale = 0 <;>
      simp [CanonicalizeLea, Instr.UnlinkSrc1, hsrc1, deref, Opnd.IsSymOpnd, Opnd.AsIndirOpnd,
        IndirOpnd.GetBaseOpnd, IndirOpnd.GetIndexOpnd, IndirOpnd.GetOffset,
        IndirOpnd.GetScale, Instr.SetSrc1, Instr.SetSrc2, Assert, hsrc2, hi, h0, hs, bind,
        Except.bind, pure, Except.pure]

/-- C12. On a lowered `LEA` (one source, no second source) `CanonicalizeInstr`
returns `true` and the same instruction has become an `ADD` with the
destination unchanged: for a symbolic source, `src1` is a register operand of
type `TyMachReg` for the base returned by `BaseAndOffsetFromSym` and `src2` the
integer constant of the offset it returned; for an indirect source with an
index register (offset 0, scale 0), `src1` is the base register operand and
`src2` the index register operand; for an indirect source without index
register, `src1` is the base register operand and `src2` the integer constant
of the static offset. -/
theorem CanonicalizeInstr_LEA (md : MdDecls) (func : Func) (instr : Instr)
    (hlow : instr.isLowered = true) (hop : instr.m_opcode = .LEA)
    (hsrc2 : instr.m_src2 = none) :
    (∀ (s : SymOpnd) (baseReg : RegNum) (offset : Int), instr.m_src1 = some (.sym s) →
      BaseAndOffsetFromSym md s func = .ok (baseReg, offset) →
      CanonicalizeInstr md func instr =
        .ok (true, { instr with
          m_opcode := .ADD
          m_src1 := some (.reg { m_reg := baseReg, m_type := TyMachReg })
          m_src2 := some (.imm { m_value := offset, m_type := TyMachReg }) })) ∧
    (∀ (i : IndirOpnd) (index : RegOpnd), instr.m_src1 = some (.indir i) →
      i.m_indexOpnd = some index → i.m_offset = 0 → i.m_scale = 0 →
      CanonicalizeInstr md func instr =
        .ok (true, { instr with
          m_opcode := .ADD
          m_src1 := some (.reg i.m_baseOpnd)
          m_src2 := some (.reg index) })) ∧
    (∀ (i : IndirOpnd), instr.m_src1 = some (.indir i) → i.m_indexOpnd = none →
      CanonicalizeInstr md func instr =
        .ok (true, { instr with
          m_opcode := .ADD
          m_src1 := some (.reg i.m_baseOpnd)
          m_src2 := some (.imm { m_value := i.m_offset, m_type := TyMachReg }) })) ∧
    TySize TyMachReg = 8 := by
  have hI := CanonicalizeInstr_of_LEA md func instr hlow hop
  refine ⟨?_, ?_, ?_, rfl⟩
  · intro s baseReg offset hsrc1 hres
    rw [hI, CanonicalizeLea_sym md func instr s hsrc1 hsrc2, hres]
  · intro i index hsrc1 hidx h0 hs
    rw [hI, CanonicalizeLea_indir md func instr i hsrc1 hsrc2, hidx]
    simp [h0, hs]
  · intro i hsrc1 hidx
    rw [hI, CanonicalizeLea_indir md func instr i hsrc1 hsrc2, hidx]

/-- C12, at `LEA x0, <local>`, `LEA x0, [x1, x2]` and `LEA x0, [x1, #40]`: they
become `ADD x0, sp, #48`, `ADD x0, x1, x2` and `ADD x0, x1, #40`. -/
theorem CanonicalizeInstr_LEA_witness :
    CanonicalizeInstr exampleMd exampleFunc exampleLeaSym =
      .ok (true, { m_opcode := .ADD, m_dst := some (.reg ⟨0, .TyInt64⟩),
                   m_src1 := some (.reg ⟨31, .TyInt64⟩),
                   m_src2 := some (.imm ⟨48, .TyInt64⟩) }) ∧
    CanonicalizeInstr exampleMd exampleFunc exampleLeaIndexed =
      .ok (true, { m_opcode := .ADD, m_dst := some (.reg ⟨0, .TyInt64⟩),
                   m_src1 := some (.reg ⟨1, .TyInt64⟩),
                   m_src2 := some (.reg ⟨2, .TyInt64⟩) }) ∧
    CanonicalizeInstr exampleMd exampleFunc exampleLeaOffset =
      .ok (true, { m_opcode := .ADD, m_dst := some (.reg ⟨0, .TyInt64⟩),
                   m_src1 := some (.reg ⟨1, .TyInt64⟩),
                   m_src2 := some (.imm ⟨40, .TyInt64⟩) }) := by
  refine ⟨?_, ?_, ?_⟩
  · rw [(CanonicalizeInstr_LEA exampleMd exampleFunc exampleLeaSym rfl rfl rfl).1
      exampleLocal 31 48 rfl rfl]
    rfl
  · rw [(CanonicalizeInstr_LEA exampleMd exampleFunc exampleLeaIndexed rfl rfl rfl).2.1
      _ ⟨2, .TyInt64⟩ rfl rfl rfl rfl]
    rfl
  · rw [(CanonicalizeInstr_LEA exampleMd exampleFunc exampleLeaOffset rfl rfl rfl).2.2.1
      exampleBaseOffset rfl rfl]
    rfl

/-- C13. Canonicalizing a lowered `LEA` (one source) whose source is an indirect
operand is a fatal assertion if the operand has an index register and a
non-zero static offset, and also if it has an index register and a non-zero
scale; for every other indirect source, and for every symbolic source whose
stack offset `BaseAndOffsetFromSym` resolves, it succeeds with result `true`. -/
theorem CanonicalizeInstr_LEA_failure (md : MdDecls) (func : Func) (instr : Instr)
    (hlow : instr.isLowered = true) (hop : instr.m_opcode = .LEA)
    (hsrc2 : instr.m_src2 = none) :
    (∀ (i : IndirOpnd) (index : RegOpnd), instr.m_src1 = some (.indir i) →
      i.m_indexOpnd = some index → i.m_offset ≠ 0 →
      CanonicalizeInstr md func instr = .error .assertion) ∧
    (∀ (i : IndirOpnd) (index : RegOpnd), instr.m_src1 = some (.indir i) →
      i.m_indexOpnd = some index → i.m_scale ≠ 0 →
      CanonicalizeInstr md func instr = .error .assertion) ∧
    (∀ (i : IndirOpnd), instr.m_src1 = some (.indir i) →
      (i.m_indexOpnd = none ∨ (i.m_offset = 0 ∧ i.m_scale = 0)) →
      ∃ instr1, CanonicalizeInstr md func instr = .ok (true, instr1)) ∧
    (∀ (s : SymOpnd) (baseReg : RegNum) (offset : Int), instr.m_src1 = some (.sym s) →
      BaseAndOffsetFromSym md s func = .ok (baseReg, offset) →
      ∃ instr1, CanonicalizeInstr md func instr = .ok (true, instr1)) := by
  have hI := CanonicalizeInstr_of_LEA md func instr hlow hop
  refine ⟨?_, ?_, ?_, ?_⟩
  · intro i index hsrc1 hidx h0
    rw [hI, CanonicalizeLea_indir md func instr i hsrc1 hsrc2, hidx]
    simp [h0]
  · intro i index hsrc1 hidx hs
    rw [hI, CanonicalizeLea_indir md func instr i hsrc1 hsrc2, hidx]
    simp [hs]
  · intro i hsrc1 hcase
    rw [hI, CanonicalizeLea_indir md func instr i hsrc1 hsrc2]
    cases hidx : i.m_indexOpnd with
    | none => exact ⟨_, rfl⟩
    | some index =>
      rcases hcase with h | ⟨h0, hs⟩
      · rw [hidx] at h
        cases h
      · simp [h0, hs]
  · intro s baseReg offset hsrc1 hres
    rw [hI, CanonicalizeLea_sym md func instr s hsrc1 hsrc2, hres]
    exact ⟨_, rfl⟩

/-- C13, at `LEA x0, [x1, x2, #8]` and `LEA x0, [x1, x2, LSL #3]` (fatal
assertions) and at `LEA x0, [x1, #40]` and `LEA x0, <local>` (success). -/
theorem CanonicalizeInstr_LEA_failure_witness :
    CanonicalizeInstr exampleMd exampleFunc exampleLeaIndexedOffset = .error .assertion ∧
    CanonicalizeInstr exampleMd exampleFunc exampleLeaScaled = .error .assertion ∧
    (∃ instr1, CanonicalizeInstr exampleMd exampleFunc exampleLeaOffset = .ok (true, instr1)) ∧
    (∃ instr1, CanonicalizeInstr exampleMd exampleFunc exampleLeaSym = .ok (true, instr1)) :=
  ⟨(CanonicalizeInstr_LEA_failure exampleMd exampleFunc exampleLeaIndexedOffset rfl rfl rfl).1
      exampleIndexedOffset ⟨2, .TyInt64⟩ rfl rfl (by decide),
   (CanonicalizeInstr_LEA_failure exampleMd exampleFunc exampleLeaScaled rfl rfl rfl).2.1
      exampleIndexed ⟨2, .TyInt64⟩ rfl rfl (by decide),
   (CanonicalizeInstr_LEA_failure exampleMd exampleFunc exampleLeaOffset rfl rfl rfl).2.2.1
      exampleBaseOffset rfl (Or.inl rfl),
   (CanonicalizeInstr_LEA_failure exampleMd exampleFunc exampleLeaSym rfl rfl rfl).2.2.2
      exampleLocal 31 48 rfl rfl⟩

/-- C14. `CanonicalizeInstr` returns `false` exactly on an instruction that is
not lowered, and then leaves it unchanged; it returns `true` and leaves the
instruction unchanged on every lowered instruction whose opcode is not
`LEA`. -/
theorem CanonicalizeInstr_frame (md : MdDecls) (func : Func) (instr : Instr) :
    (instr.isLowered = false → CanonicalizeInstr md func instr = .ok (false, instr)) ∧
    (instr.isLowered = true → instr.m_opcode ≠ .LEA →
      CanonicalizeInstr md func instr = .ok (true, instr)) ∧
    (∀ (b : Bool) (instr1 : Instr), CanonicalizeInstr md func instr = .ok (b, instr1) →
      (b = false ↔ instr.isLowered = false)) := by
  have hnot : instr.isLowered = false → CanonicalizeInstr md func instr = .ok (false, instr) := by
    intro h
    simp [CanonicalizeInstr, Instr.IsLowered, h, pure, Except.pure]
  refine ⟨hnot, ?_, ?_⟩
  · intro hlow hop
    simp only [CanonicalizeInstr, Instr.IsLowered, hlow]
    split
    · contradiction
    · rfl
  · intro b instr1 hres
    cases hlow : instr.isLowered with
    | false =>
      rw [hnot hlow] at hres
      simp only [Except.ok.injEq, Prod.mk.injEq] at hres
      simp [hres.1.symm]
    | true =>
      simp only [CanonicalizeInstr, Instr.IsLowered, hlow, bind, Except.bind, pure,
        Except.pure, Bool.not_true, Bool.false_eq_true, if_false] at hres
      split at hres
      · cases hc : CanonicalizeLea md func instr with
        | error f => rw [hc] at hres; cases hres
        | ok i =>
          rw [hc] at hres
          simp only [Except.ok.injEq, Prod.mk.injEq] at hres
          simp [hres.1.symm]
      · simp only [Except.ok.injEq, Prod.mk.injEq] at hres
        simp [hres.1.symm]

/-- C14, at a label instruction that is not lowered, at the lowered
`ADD x0, x1, #5`, and at a lowered `LEA` (result `true`, although lowered). -/
theorem CanonicalizeInstr_frame_witness :
    CanonicalizeInstr exampleMd exampleFunc exampleLabel = .ok (false, exampleLabel) ∧
    CanonicalizeInstr exampleMd exampleFunc exampleAdd = .ok (true, exampleAdd) ∧
    ((true = false) ↔ exampleLeaOffset.isLowered = false) :=
  ⟨(CanonicalizeInstr_frame exampleMd exampleFunc exampleLabel).1 rfl,
   (CanonicalizeInstr_frame exampleMd exampleFunc exampleAdd).2.1 rfl (by simp [exampleAdd]),
   (CanonicalizeInstr_frame exampleMd exampleFunc exampleLeaOffset).2.2 true
      { m_opcode := .ADD, m_dst := some (.reg ⟨0, .TyInt64⟩),
        m_src1 := some (.reg ⟨1, .TyInt64⟩), m_src2 := some (.imm ⟨40, .TyInt64⟩) } rfl⟩

/-- Successive calls of `EncodeReloc::New` put the records in front of the list
in reverse order of the calls. -/
theorem EncodeReloc_New_foldl (rs l : List EncodeReloc) :
    rs.foldl (fun head r =>
        EncodeReloc.New head r.m_relocType r.m_consumerOffset r.m_relocInstr) l =
      rs.reverse ++ l := by
  induction rs generalizing l with
  | nil => rfl
  | cons r rs ih =>
    rw [List.foldl_cons, ih]
    simp [EncodeReloc.New]

/-- C15. One call of `EncodeReloc::New` puts one record with the given kind,
patch offset and target in front of the list and leaves the earlier entries
and their order as they were; so, starting from the empty list set by `Init`,
after the calls for the records `r1, ..., rk` in this order the list is
`[rk, ..., r1]`. -/
theorem EncodeReloc_New_order (st : EncoderState) (rs : List EncodeReloc) :
    (∀ (head : List EncodeReloc) (relocType : RelocType) (offset : Nat)
        (relocInstr : LabelRef),
      EncodeReloc.New head relocType offset relocInstr =
        { m_relocType := relocType, m_consumerOffset := offset, m_relocInstr := relocInstr }
          :: head) ∧
    (Init st).m_relocList = [] ∧
    rs.foldl (fun head r =>
        EncodeReloc.New head r.m_relocType r.m_consumerOffset r.m_relocInstr)
      (Init st).m_relocList = rs.reverse := by
  refine ⟨fun _ _ _ _ => rfl, rfl, ?_⟩
  rw [EncodeReloc_New_foldl]
  simp [Init]

/-- The loop of `ApplyRelocs` with the recording patch routine: one call per
record, in list order, at the patch offset of the record with the PC of its
target, when every target is a label instruction. -/
theorem ApplyRelocsLoop_record (instrs : InstrTable) (l : List EncodeReloc)
    (log : List (Nat × Nat))
    (hlabels : ∀ r ∈ l, ∃ lab, instrs r.m_relocInstr = some lab) :
    ApplyRelocsLoop recordLinkRaw instrs l log =
      .ok (log ++ l.map (fun r =>
        (r.m_consumerOffset, ((instrs r.m_relocInstr).map LabelInstr.GetPC).getD 0))) := by
  induction l generalizing log with
  | nil => simp [ApplyRelocsLoop]
  | cons r l ih =>
    obtain ⟨lab, hlab⟩ := hlabels r (List.mem_cons_self r l)
    have ih1 := ih (log ++ [(r.m_consumerOffset, lab.GetPC)])
      (fun x hx => hlabels x (List.mem_cons_of_mem r hx))
    simp only [ApplyRelocsLoop, AsLabelInstr, hlab, recordLinkRaw, bind, Except.bind]
    rw [ih1]
    simp [hlab]

/-- `ApplyRelocs` returns the members of the encoder object as they were. -/
theorem ApplyRelocs_state {σ : Type} (LinkRaw : Nat → Nat → σ → Except Fatal σ)
    (instrs : InstrTable) (st st1 : EncoderState) (mem mem1 : σ)
    (codeBufferAddress codeSize bufferCRC : Nat)
    (isBrShorteningSucceeded isFinalBufferValidation : Bool)
    (h : ApplyRelocs LinkRaw instrs st mem codeBufferAddress codeSize bufferCRC
      isBrShorteningSucceeded isFinalBufferValidation = .ok (mem1, st1)) : st1 = st := by
  simp only [ApplyRelocs, bind, Except.bind, pure, Except.pure] at h
  cases hl : ApplyRelocsLoop LinkRaw instrs st.m_relocList mem with
  | error f => rw [hl] at h; cases h
  | ok m =>
    rw [hl] at h
    simp only [Except.ok.injEq, Prod.mk.injEq] at h
    exact h.2.symm

/-- C16. When every record's target is a label instruction, `ApplyRelocs` calls
the patch routine exactly once per record of the relocation list, in list
order, each time on the patch offset of the record and the recorded PC of its
target label, and makes no other call (observed with the recording patch
routine, starting from any log); the relocation list and `m_pc` are returned
as they were, for every patch routine. -/
theorem ApplyRelocs_one_patch_per_record (instrs : InstrTable) (st : EncoderState)
    (log : List (Nat × Nat)) (codeBufferAddress codeSize bufferCRC : Nat)
    (isBrShorteningSucceeded isFinalBufferValidation : Bool)
    (hlabels : ∀ r ∈ st.m_relocList, ∃ lab, instrs r.m_relocInstr = some lab) :
    ApplyRelocs recordLinkRaw instrs st log codeBufferAddress codeSize bufferCRC
        isBrShorteningSucceeded isFinalBufferValidation =
      .ok (log ++ st.m_relocList.map (fun r =>
        (r.m_consumerOffset, ((instrs r.m_relocInstr).map LabelInstr.GetPC).getD 0)), st) ∧
    (∀ (σ : Type) (LinkRaw : Nat → Nat → σ → Except Fatal σ) (mem mem1 : σ)
        (st1 : EncoderState),
      ApplyRelocs LinkRaw instrs st mem codeBufferAddress codeSize bufferCRC
        isBrShorteningSucceeded isFinalBufferValidation = .ok (mem1, st1) → st1 = st) := by
  constructor
  · simp only [ApplyRelocs, bind, Except.bind, pure, Except.pure]
    rw [ApplyRelocsLoop_record instrs st.m_relocList log hlabels]
  · intro σ LinkRaw mem mem1 st1 h
    exact ApplyRelocs_state LinkRaw instrs st st1 mem mem1 _ _ _ _ _ h

/-- C16, at the example object with two records: two calls, at 0x1020 to 0x1040
and at 0x1000 to 0x1010; the object is unchanged. -/
theorem ApplyRelocs_one_patch_per_record_witness :
    ApplyRelocs recordLinkRaw exampleInstrs exampleRelocState [] 0x70000000 0x80 0
        true false =
      .ok ([(0x1020, 0x1040), (0x1000, 0x1010)], exampleRelocState) := by
  have h := (ApplyRelocs_one_patch_per_record exampleInstrs exampleRelocState []
    0x70000000 0x80 0 true false (by
      intro r hr
      simp only [exampleRelocState, List.mem_cons, List.mem_singleton, List.not_mem_nil,
        or_false] at hr
      rcases hr with h | h <;> subst h
      · exact ⟨{ m_pc := 0x1040 }, rfl⟩
      · exact ⟨{ m_pc := 0x1010 }, rfl⟩)).1
  rw [h]
  rfl

/-- The loop of `ApplyRelocs` never reads the kind of a record. -/
theorem ApplyRelocsLoop_relocType {σ : Type} (LinkRaw : Nat → Nat → σ → Except Fatal σ)
    (instrs : InstrTable) (kind : EncodeReloc → RelocType) (l : List EncodeReloc) (mem : σ) :
    ApplyRelocsLoop LinkRaw instrs (l.map (fun r => { r with m_relocType := kind r })) mem =
      ApplyRelocsLoop LinkRaw instrs l mem := by
  induction l generalizing mem with
  | nil => rfl
  | cons r l ih =>
    simp only [List.map_cons, ApplyRelocsLoop, bind, Except.bind]
    cases AsLabelInstr instrs r.m_relocInstr with
    | error f => rfl
    | ok lab =>
      simp only
      cases LinkRaw r.m_consumerOffset lab.GetPC mem with
      | error f => rfl
      | ok m => exact ih m

/-- C17. `ApplyRelocs` does not patch according to the kind of a record: for
every patch routine, replacing the kinds of the records by any other kinds
leaves the resulting code memory the same.  At the record of kind label that
`AddLabelReloc` creates for the slot at 0x2000 holding label 7, the patch is the
call of the branch-link routine `LinkRaw` on (0x2000, PC of label 7), the same
call as for a 26-bit branch record. -/
theorem ApplyRelocs_ignores_relocType :
    (∀ (σ : Type) (LinkRaw : Nat → Nat → σ → Except Fatal σ) (instrs : InstrTable)
        (kind : EncodeReloc → RelocType) (st : EncoderState) (mem : σ)
        (codeBufferAddress codeSize bufferCRC : Nat)
        (isBrShorteningSucceeded isFinalBufferValidation : Bool),
      (ApplyRelocs LinkRaw instrs
          { st with m_relocList := st.m_relocList.map (fun r => { r with m_relocType := kind r }) }
          mem codeBufferAddress codeSize bufferCRC isBrShorteningSucceeded
          isFinalBufferValidation).map Prod.fst =
        (ApplyRelocs LinkRaw instrs st mem codeBufferAddress codeSize bufferCRC
          isBrShorteningSucceeded isFinalBufferValidation).map Prod.fst) ∧
    AddLabelReloc (fun _ => 7) { m_pc := 0x1080, m_relocList := [] } 0x2000 =
      .ok exampleLabelRelocState ∧
    ApplyRelocs recordLinkRaw exampleInstrs exampleLabelRelocState [] 0x70000000 0x80 0
        true false = .ok ([(0x2000, 0x1040)], exampleLabelRelocState) ∧
    ApplyRelocs recordLinkRaw exampleInstrs exampleBranchRelocState [] 0x70000000 0x80 0
        true false = .ok ([(0x2000, 0x1040)], exampleBranchRelocState) := by
  refine ⟨?_, rfl, rfl, rfl⟩
  intro σ LinkRaw instrs kind st mem cba cs crc b1 b2
  simp only [ApplyRelocs, bind, Except.bind, pure, Except.pure]
  rw [ApplyRelocsLoop_relocType]
  cases ApplyRelocsLoop LinkRaw instrs st.m_relocList mem <;> rfl

/-- Behaviour of `DecodeMemoryOpnd` on an indirect operand. -/
theorem DecodeMemoryOpnd_indir (md : MdDecls) (func : Func) (i : IndirOpnd) :
    DecodeMemoryOpnd md func (.indir i) =
      match i.m_indexOpnd with
      | some index =>
        if i.m_offset = 0 then
          .ok { result := true, baseRegResult := md.RegEncode i.m_baseOpnd.m_reg,
                indexRegResult := some (md.RegEncode index.m_reg),
                indexScale := some i.m_scale, offset := 0 }
        else .error .assertion
      | none =>
        .ok { result := false, baseRegResult := md.RegEncode i.m_baseOpnd.m_reg,
              indexRegResult := none, indexScale := none, offset := i.m_offset } := by
  cases hi : i.m_indexOpnd with
  | none =>
    simp [DecodeMemoryOpnd, Opnd.IsSymOpnd, Opnd.AsIndirOpnd, IndirOpnd.GetBaseOpnd,
      IndirOpnd.GetIndexOpnd, IndirOpnd.GetOffset, IndirOpnd.GetScale, GetRegEncode, Assert,
      hi, bind, Except.bind, pure, Except.pure]
  | some index =>
    by_cases h0 : i.m_offset = 0 <;>
      simp [DecodeMemoryOpnd, Opnd.IsSymOpnd, Opnd.AsIndirOpnd, IndirOpnd.GetBaseOpnd,
        IndirOpnd.GetIndexOpnd, IndirOpnd.GetOffset, IndirOpnd.GetScale, GetRegEncode, Assert,
        hi, h0, bind, Except.bind, pure, Except.pure]

/-- Behaviour of `DecodeMemoryOpnd` on a symbolic operand. -/
theorem DecodeMemoryOpnd_sym (md : MdDecls) (func : Func) (s : SymOpnd) :
    DecodeMemoryOpnd md func (.sym s) =
      match BaseAndOffsetFromSym md s func with
      | .ok (baseReg, offset) =>
        .ok { result := false, baseRegResult := md.RegEncode baseReg,
              indexRegResult := none, indexScale := none, offset := offset }
      | .error f => .error f := by
  simp only [DecodeMemoryOpnd, Opnd.IsSymOpnd, Opnd.AsSymOpnd, if_true, bind, Except.bind,
    pure, Except.pure]
  cases BaseAndOffsetFromSym md s func <;> rfl

/-- Behaviour of `EmitLoadStore` on a register data operand and a memory operand
of size 1, 2, 4 or 8, in terms of the result of `DecodeMemoryOpnd`. -/
theorem EmitLoadStore_eq (md : MdDecls) (func : Func) (memOpnd : Opnd) (r : RegOpnd)
    (reg8 reg16 reg32 reg64 off8 off16 off32 off64 regFn offFn : EncFn)
    (hmem : (memOpnd.IsIndirOpnd || memOpnd.IsSymOpnd) = true)
    (hsel : (memOpnd.GetSize = 1 ∧ regFn = reg8 ∧ offFn = off8) ∨
      (memOpnd.GetSize = 2 ∧ regFn = reg16 ∧ offFn = off16) ∨
      (memOpnd.GetSize = 4 ∧ regFn = reg32 ∧ offFn = off32) ∨
      (memOpnd.GetSize = 8 ∧ regFn = reg64 ∧ offFn = off64)) :
    EmitLoadStore md func (some memOpnd) (some (.reg r))
        reg8 reg16 reg32 reg64 off8 off16 off32 off64 =
      match DecodeMemoryOpnd md func memOpnd with
      | .error f => .error f
      | .ok d =>
        if d.result = true then
          match d.indexRegResult, d.indexScale with
          | some indexReg, some indexScale =>
            .ok (md.emit ⟨regFn, [.reg (md.RegEncode r.m_reg), .reg d.baseRegResult,
              .regParam indexReg .SHIFT_LSL indexScale]⟩)
          | _, _ => .error .nullDeref
        else
          .ok (md.emit ⟨offFn, [.reg (md.RegEncode r.m_reg), .reg d.baseRegResult,
            .imm d.offset]⟩) := by
  simp only [EmitLoadStore, deref, Opnd.IsRegOpnd, Opnd.AsRegOpnd, GetRegEncode, hmem, Assert,
    bind, Except.bind, pure, Except.pure, if_true]
  cases hd : DecodeMemoryOpnd md func memOpnd with
  | error f =>
    rcases hsel with ⟨hs, _, _⟩ | ⟨hs, _, _⟩ | ⟨hs, _, _⟩ | ⟨hs, _, _⟩ <;> simp [hs]
  | ok d =>
    cases hres : d.result with
    | false =>
      rcases hsel with ⟨hs, h1, h2⟩ | ⟨hs, h1, h2⟩ | ⟨hs, h1, h2⟩ | ⟨hs, h1, h2⟩ <;>
        subst h1 h2 <;> simp [hs, hres]
    | true =>
      cases hidx : d.indexRegResult with
      | none =>
        rcases hsel with ⟨hs, _, _⟩ | ⟨hs, _, _⟩ | ⟨hs, _, _⟩ | ⟨hs, _, _⟩ <;>
          simp [hs, hres, hidx]
      | some indexReg =>
        cases hsc : d.indexScale with
        | none =>
          rcases hsel with ⟨hs, _, _⟩ | ⟨hs, _, _⟩ | ⟨hs, _, _⟩ | ⟨hs, _, _⟩ <;>
            simp [hs, hres, hidx, hsc]
        | some indexScale =>
          rcases hsel with ⟨hs, h1, h2⟩ | ⟨hs, h1, h2⟩ | ⟨hs, h1, h2⟩ | ⟨hs, h1, h2⟩ <;>
            subst h1 h2 <;> simp [hs, hres, hidx, hsc]

/-- C11. The cases `LDR`, `LDRS` and `STR` call `EmitLoadStore` with their
eight encoders (memory operand: first source for the loads, destination for
`STR`).  `EmitLoadStore` takes the encoder from the size of the memory operand
(1, 2, 4, 8: byte, half-word, word, double-word) and from the result of
`DecodeMemoryOpnd`: the register-index encoder on `(RegEncode[data], base,
index LSL scale)` exactly when the operand is indirect with an index register,
the offset encoder on `(RegEncode[data], base, offset)` otherwise.  A memory
operand of any other size and a data operand that is not a register are fatal
assertions. -/
theorem EmitLoadStore_selection (md : MdDecls) (func : Func) (memOpnd data : Opnd)
    (reg8 reg16 reg32 reg64 off8 off16 off32 off64 : EncFn) :
    (∀ (st : EncoderState) (instr : Instr),
      (instr.m_opcode = .LDR → dispatch md func st instr =
        keepState st (EmitLoadStore md func instr.m_src1 instr.m_dst
          .EmitLdrbRegister .EmitLdrhRegister .EmitLdrRegister .EmitLdrRegister64
          .EmitLdrbOffset .EmitLdrhOffset .EmitLdrOffset .EmitLdrOffset64)) ∧
      (instr.m_opcode = .LDRS → dispatch md func st instr =
        keepState st (EmitLoadStore md func instr.m_src1 instr.m_dst
          .EmitLdrsbRegister .EmitLdrshRegister .EmitLdrswRegister64 .EmitLdrRegister64
          .EmitLdrsbOffset .EmitLdrshOffset .EmitLdrswOffset64 .EmitLdrOffset64)) ∧
      (instr.m_opcode = .STR → dispatch md func st instr =
        keepState st (EmitLoadStore md func instr.m_dst instr.m_src1
          .EmitStrbRegister .EmitStrhRegister .EmitStrRegister .EmitStrRegister64
          .EmitStrbOffset .EmitStrhOffset .EmitStrOffset .EmitStrOffset64))) ∧
    (data.IsRegOpnd = false →
      EmitLoadStore md func (some memOpnd) (some data)
        reg8 reg16 reg32 reg64 off8 off16 off32 off64 = .error .assertion) ∧
    (memOpnd.GetSize ≠ 1 → memOpnd.GetSize ≠ 2 → memOpnd.GetSize ≠ 4 → memOpnd.GetSize ≠ 8 →
      EmitLoadStore md func (some memOpnd) (some data)
        reg8 reg16 reg32 reg64 off8 off16 off32 off64 = .error .assertion) ∧
    (∀ (r : RegOpnd) (regFn offFn : EncFn), data = .reg r →
      ((memOpnd.GetSize = 1 ∧ regFn = reg8 ∧ offFn = off8) ∨
       (memOpnd.GetSize = 2 ∧ regFn = reg16 ∧ offFn = off16) ∨
       (memOpnd.GetSize = 4 ∧ regFn = reg32 ∧ offFn = off32) ∨
       (memOpnd.GetSize = 8 ∧ regFn = reg64 ∧ offFn = off64)) →
      (∀ (i : IndirOpnd) (index : RegOpnd), memOpnd = .indir i → i.m_indexOpnd = some index →
        EmitLoadStore md func (some memOpnd) (some data)
            reg8 reg16 reg32 reg64 off8 off16 off32 off64 =
          if i.m_offset = 0 then
            .ok (md.emit ⟨regFn, [.reg (md.RegEncode r.m_reg),
              .reg (md.RegEncode i.m_baseOpnd.m_reg),
              .regParam (md.RegEncode index.m_reg) .SHIFT_LSL i.m_scale]⟩)
          else .error .assertion) ∧
      (∀ (i : IndirOpnd), memOpnd = .indir i → i.m_indexOpnd = none →
        EmitLoadStore md func (some memOpnd) (some data)
            reg8 reg16 reg32 reg64 off8 off16 off32 off64 =
          .ok (md.emit ⟨offFn, [.reg (md.RegEncode r.m_reg),
            .reg (md.RegEncode i.m_baseOpnd.m_reg), .imm i.m_offset]⟩)) ∧
      (∀ (s : SymOpnd), memOpnd = .sym s →
        EmitLoadStore md func (some memOpnd) (some data)
            reg8 reg16 reg32 reg64 off8 off16 off32 off64 =
          match BaseAndOffsetFromSym md s func with
          | .ok (baseReg, offset) =>
            .ok (md.emit ⟨offFn, [.reg (md.RegEncode r.m_reg), .reg (md.RegEncode baseReg),
              .imm offset]⟩)
          | .error f => .error f)) := by
  refine ⟨?_, ?_, ?_, ?_⟩
  · intro st instr
    refine ⟨?_, ?_, ?_⟩ <;> intro hop <;>
      simp [dispatch, hop, Instr.GetSrc1, Instr.GetDst]
  · intro hdata
    simp [EmitLoadStore, deref, hdata, Assert, bind, Except.bind]
  · intro h1 h2 h4 h8
    by_cases hd : data.IsRegOpnd = true <;>
    by_cases hm : (memOpnd.IsIndirOpnd || memOpnd.IsSymOpnd) = true <;>
      simp [EmitLoadStore, deref, hd, hm, h1, h2, h4, h8, Assert, bind, Except.bind]
  · intro r regFn offFn hdata hsel
    subst hdata
    refine ⟨?_, ?_, ?_⟩
    · intro i index hmem hidx
      subst hmem
      rw [EmitLoadStore_eq md func (.indir i) r reg8 reg16 reg32 reg64 off8 off16 off32 off64
        regFn offFn rfl hsel, DecodeMemoryOpnd_indir, hidx]
      by_cases h0 : i.m_offset = 0 <;> simp [h0]
    · intro i hmem hidx
      subst hmem
      rw [EmitLoadStore_eq md func (.indir i) r reg8 reg16 reg32 reg64 off8 off16 off32 off64
        regFn offFn rfl hsel, DecodeMemoryOpnd_indir, hidx]
      simp
    · intro s hmem
      subst hmem
      rw [EmitLoadStore_eq md func (.sym s) r reg8 reg16 reg32 reg64 off8 off16 off32 off64
        regFn offFn rfl hsel, DecodeMemoryOpnd_sym]
      cases BaseAndOffsetFromSym md s func with
      | error f => rfl
      | ok p => simp

/-- C11, at `LDR x0, [x1, x2, LSL #3]` (8 bytes: `EmitLdrRegister64`), at
`STR w0, [x1, #40]` on 2 bytes (`EmitStrhOffset`), at `LDRS x0, <local>` on 4
bytes (`EmitLdrswOffset64`), and at an `LDR` of a 16-byte operand (fatal
assertion). -/
theorem EmitLoadStore_selection_witness :
    dispatch exampleMd exampleFunc exampleInit exampleLdr =
      .ok (exampleMd.emit ⟨.EmitLdrRegister64,
        [.reg 0, .reg 1, .regParam 2 .SHIFT_LSL 3]⟩, exampleInit) ∧
    dispatch exampleMd exampleFunc exampleInit exampleStr =
      .ok (exampleMd.emit ⟨.EmitStrhOffset, [.reg 0, .reg 1, .imm 40]⟩, exampleInit) ∧
    dispatch exampleMd exampleFunc exampleInit exampleLdrs =
      .ok (exampleMd.emit ⟨.EmitLdrswOffset64, [.reg 0, .reg 31, .imm 48]⟩, exampleInit) ∧
    dispatch exampleMd exampleFunc exampleInit exampleLdrWide = .error .assertion := by
  refine ⟨?_, ?_, ?_, ?_⟩
  · have h := EmitLoadStore_selection exampleMd exampleFunc (.indir exampleIndexed)
      (.reg ⟨0, .TyInt64⟩) .EmitLdrbRegister .EmitLdrhRegister .EmitLdrRegister
      .EmitLdrRegister64 .EmitLdrbOffset .EmitLdrhOffset .EmitLdrOffset .EmitLdrOffset64
    rw [((h.1 exampleInit exampleLdr).1 rfl)]
    have h2 := (h.2.2.2 ⟨0, .TyInt64⟩ .EmitLdrRegister64 .EmitLdrOffset64 rfl
      (Or.inr (Or.inr (Or.inr ⟨rfl, rfl, rfl⟩)))).1 exampleIndexed ⟨2, .TyInt64⟩ rfl rfl
    show keepState exampleInit (EmitLoadStore exampleMd exampleFunc
      (some (.indir exampleIndexed)) (some (.reg ⟨0, .TyInt64⟩)) _ _ _ _ _ _ _ _) = _
    rw [h2]
    rfl
  · have h := EmitLoadStore_selection exampleMd exampleFunc
      (.indir { exampleBaseOffset with m_type := .TyInt16 })
      (.reg ⟨0, .TyInt32⟩) .EmitStrbRegister .EmitStrhRegister .EmitStrRegister
      .EmitStrRegister64 .EmitStrbOffset .EmitStrhOffset .EmitStrOffset .EmitStrOffset64
    rw [((h.1 exampleInit exampleStr).2.2 rfl)]
    have h2 := (h.2.2.2 ⟨0, .TyInt32⟩ .EmitStrhRegister .EmitStrhOffset rfl
      (Or.inr (Or.inl ⟨rfl, rfl, rfl⟩))).2.1 _ rfl rfl
    show keepState exampleInit (EmitLoadStore exampleMd exampleFunc
      (some (.indir { exampleBaseOffset with m_type := .TyInt16 }))
      (some (.reg ⟨0, .TyInt32⟩)) _ _ _ _ _ _ _ _) = _
    rw [h2]
    rfl
  · have h := EmitLoadStore_selection exampleMd exampleFunc
      (.sym { exampleLocal with m_type := .TyInt32 })
      (.reg ⟨0, .TyInt64⟩) .EmitLdrsbRegister .EmitLdrshRegister .EmitLdrswRegister64
      .EmitLdrRegister64 .EmitLdrsbOffset .EmitLdrshOffset .EmitLdrswOffset64 .EmitLdrOffset64
    rw [((h.1 exampleInit exampleLdrs).2.1 rfl)]
    have h2 := (h.2.2.2 ⟨0, .TyInt64⟩ .EmitLdrswRegister64 .EmitLdrswOffset64 rfl
      (Or.inr (Or.inr (Or.inl ⟨rfl, rfl, rfl⟩)))).2.2 _ rfl
    show keepState exampleInit (EmitLoadStore exampleMd exampleFunc
      (some (.sym { exampleLocal with m_type := .TyInt32 }))
      (some (.reg ⟨0, .TyInt64⟩)) _ _ _ _ _ _ _ _) = _
    rw [h2]
    rfl
  · have h := EmitLoadStore_selection exampleMd exampleFunc
      (.indir { exampleBaseOffset with m_type := .TyOther 16 })
      (.reg ⟨0, .TyInt64⟩) .EmitLdrbRegister .EmitLdrhRegister .EmitLdrRegister
      .EmitLdrRegister64 .EmitLdrbOffset .EmitLdrhOffset .EmitLdrOffset .EmitLdrOffset64
    rw [((h.1 exampleInit exampleLdrWide).1 rfl)]
    have h2 := h.2.2.1 (by decide) (by decide) (by decide) (by decide)
    show keepState exampleInit (EmitLoadStore exampleMd exampleFunc
      (some (.indir { exampleBaseOffset with m_type := .TyOther 16 }))
      (some (.reg ⟨0, .TyInt64⟩)) _ _ _ _ _ _ _ _) = _
    rw [h2]
    rfl

/-- Every case of the switch other than the branch cases runs a helper that
does not touch the encoder object. -/
theorem dispatch_keepState (md : MdDecls) (func : Func) (st : EncoderState) (instr : Instr)
    (hop : instr.m_opcode ∉ [OpCode.B, .BL, .BEQ, .BNE, .BLT, .BLE, .BGT, .BGE, .BCS, .BCC,
      .BHI, .BLS, .BMI, .BPL, .BVS, .BVC, .CBZ, .CBNZ, .TBZ, .TBNZ]) :
    ∃ r : Except Fatal Emitted, dispatch md func st instr = keepState st r := by
  simp only [List.mem_cons, List.mem_singleton, List.not_mem_nil, or_false, not_or] at hop
  unfold dispatch
  split <;> first
    | exact ⟨_, rfl⟩
    | (exfalso; simp_all)

/-- C20. For every opcode other than `B`, `BL`, the conditional branches
`BEQ` ... `BVC`, `CBZ`, `CBNZ`, `TBZ` and `TBNZ`, the case of the switch leaves the
encoder object as it is: whenever `GenerateEncoding` returns, the relocation
list (and `m_pc`) it returns are the ones it was called with. -/
theorem GenerateEncoding_keeps_relocList (md : MdDecls) (func : Func) (st : EncoderState)
    (instr : Instr) (pc : Nat)
    (hop : instr.m_opcode ∉ [OpCode.B, .BL, .BEQ, .BNE, .BLT, .BLE, .BGT, .BGE, .BCS, .BCC,
      .BHI, .BLS, .BMI, .BPL, .BVS, .BVC, .CBZ, .CBNZ, .TBZ, .TBNZ]) :
    (∃ r : Except Fatal Emitted, dispatch md func st instr = keepState st r) ∧
    (∀ (w : Nat) (st1 : EncoderState),
      GenerateEncoding md func st instr pc = .ok (w, st1) →
      st1 = st ∧ st1.m_relocList = st.m_relocList) := by
  obtain ⟨r, hr⟩ := dispatch_keepState md func st instr hop
  refine ⟨⟨r, hr⟩, ?_⟩
  intro w st1 h
  simp only [GenerateEncoding, hr, keepState, bind, Except.bind, pure, Except.pure] at h
  cases r with
  | error f => cases h
  | ok e =>
    by_cases hb : (e.bytes != 0) = true
    · simp only [Assert, hb, if_true, Except.ok.injEq, Prod.mk.injEq] at h
      exact ⟨h.2.symm, by rw [h.2]⟩
    · simp only [Assert, hb] at h
      cases h

/-- C20, at `ADD x0, x1, #5` and at `LDR x0, [x1, x2, LSL #3]` encoded with one
record already in the list: both return, with the list as it was. -/
theorem GenerateEncoding_keeps_relocList_witness :
    (∃ r, dispatch exampleMd exampleFunc exampleState exampleAdd = keepState exampleState r) ∧
    GenerateEncoding exampleMd exampleFunc exampleState exampleAdd 64 =
      .ok (0x91001420, exampleState) ∧
    (∃ r, dispatch exampleMd exampleFunc exampleState exampleLdr = keepState exampleState r) ∧
    GenerateEncoding exampleMd exampleFunc exampleState exampleLdr 64 =
      .ok (0xD503201F, exampleState) :=
  ⟨(GenerateEncoding_keeps_relocList exampleMd exampleFunc exampleState exampleAdd 64
      (by simp [exampleAdd])).1, rfl,
   (GenerateEncoding_keeps_relocList exampleMd exampleFunc exampleState exampleLdr 64
      (by simp [exampleLdr])).1, rfl⟩

/-- C22. For each of the opcodes `CMP`, `CMN`, `TST`, `REM`, `LDIMM` and `LEA`,
and for every opcode that has no case in the switch, `GenerateEncoding` fails
with a fatal assertion whatever the operands, the encoder object and the pc
are; it returns no instruction word. -/
theorem GenerateEncoding_unsupported_opcode (md : MdDecls) (func : Func) (st : EncoderState)
    (instr : Instr) (pc : Nat)
    (hop : instr.m_opcode = .CMP ∨ instr.m_opcode = .CMN ∨ instr.m_opcode = .TST ∨
      instr.m_opcode = .REM ∨ instr.m_opcode = .LDIMM ∨ instr.m_opcode = .LEA ∨
      ∃ code : Nat, instr.m_opcode = .Other code) :
    GenerateEncoding md func st instr pc = .error .assertion ∧
    ∀ (w : Nat) (st1 : EncoderState), GenerateEncoding md func st instr pc ≠ .ok (w, st1) := by
  have hd : dispatch md func st instr = .error .assertion := by
    rcases hop with h | h | h | h | h | h | ⟨code, h⟩ <;>
      simp [dispatch, h, keepState, Assert, bind, Except.bind]
  have hg := GenerateEncoding_of_dispatch_error md func st instr pc .assertion hd
  refine ⟨hg, ?_⟩
  intro w st1 h
  rw [hg] at h
  cases h

/-- C22, at `CMP x1, x2` and at an instruction whose opcode has no case in the
switch. -/
theorem GenerateEncoding_unsupported_opcode_witness :
    GenerateEncoding exampleMd exampleFunc exampleState exampleCmp 64 = .error .assertion ∧
    GenerateEncoding exampleMd exampleFunc exampleState exampleLabel 64 = .error .assertion :=
  ⟨(GenerateEncoding_unsupported_opcode exampleMd exampleFunc exampleState exampleCmp 64
      (Or.inl rfl)).1,
   (GenerateEncoding_unsupported_opcode exampleMd exampleFunc exampleState exampleLabel 64
      (Or.inr (Or.inr (Or.inr (Or.inr (Or.inr (Or.inr ⟨0, rfl⟩))))))).1⟩

/-- C23. `TBZ` and `TBNZ` are encoded by `EmitTestAndBranch` with the encoders
`EmitTbz` and `EmitTbnz`.  On a branch instruction with a register first source
and an immediate second source `b`, `EmitTestAndBranch` succeeds if and only if
`0 ≤ b < 64`; it then invokes its encoder on `(RegEncode[src1], b, linker)`,
having recorded the `RelocTypeBranch14` relocation at `m_pc`; for every other `b`
it fails with a fatal assertion, and so does `GenerateEncoding`. -/
theorem EmitTestAndBranch_bit_number (md : MdDecls) (func : Func) (st : EncoderState)
    (instr : Instr) (emitter : EncFn) (pc : Nat) (r : RegOpnd) (c : IntConstOpnd)
    (target : LabelRef)
    (hsrc1 : instr.m_src1 = some (.reg r)) (hsrc2 : instr.m_src2 = some (.imm c))
    (hkind : instr.kind = .branch target) :
    (instr.m_opcode = .TBZ →
      dispatch md func st instr = EmitTestAndBranch md st instr .EmitTbz) ∧
    (instr.m_opcode = .TBNZ →
      dispatch md func st instr = EmitTestAndBranch md st instr .EmitTbnz) ∧
    ((∃ res, EmitTestAndBranch md st instr emitter = .ok res) ↔
      (0 ≤ c.m_value ∧ c.m_value < 64)) ∧
    (0 ≤ c.m_value ∧ c.m_value < 64 →
      EmitTestAndBranch md st instr emitter =
        .ok (md.emit ⟨emitter, [.reg (md.RegEncode r.m_reg), .imm c.m_value, .linker]⟩,
          { st with m_relocList :=
              EncodeReloc.New st.m_relocList .RelocTypeBranch14 st.m_pc target })) ∧
    (¬ (0 ≤ c.m_value ∧ c.m_value < 64) →
      EmitTestAndBranch md st instr emitter = .error .assertion ∧
      (instr.m_opcode = .TBZ ∨ instr.m_opcode = .TBNZ →
        GenerateEncoding md func st instr pc = .error .assertion)) := by
  have hE : EmitTestAndBranch md st instr emitter =
      if 0 ≤ c.m_value ∧ c.m_value < 64 then
        .ok (md.emit ⟨emitter, [.reg (md.RegEncode r.m_reg), .imm c.m_value, .linker]⟩,
          { st with m_relocList :=
              EncodeReloc.New st.m_relocList .RelocTypeBranch14 st.m_pc target })
      else .error .assertion := by
    simp only [EmitTestAndBranch, Instr.GetSrc1, Instr.GetSrc2, hsrc1, hsrc2, hkind, deref,
      Instr.GetTarget, Opnd.IsRegOpnd, Opnd.IsImmediateOpnd, Opnd.GetImmediateValue,
      Opnd.AsRegOpnd, GetRegEncode, Assert, bind, Except.bind, pure, Except.pure]
    by_cases hb : 0 ≤ c.m_value ∧ c.m_value < 64
    · have e : toUInt32 c.m_value = c.m_value := by
        simp only [toUInt32]; omega
      simp [hb, e]
    · have hb2 : ¬ (c.m_value ≥ 0 ∧ c.m_value < 64) := hb
      simp [hb, hb2]
  refine ⟨fun h => by simp [dispatch, h], fun h => by simp [dispatch, h], ?_, ?_, ?_⟩
  · rw [hE]
    by_cases hb : 0 ≤ c.m_value ∧ c.m_value < 64
    · simp [hb]
    · simp [hb]
  · intro hb
    rw [hE, if_pos hb]
  · intro hb
    have hT : ∀ f : EncFn, EmitTestAndBranch md st instr f = .error .assertion := by
      intro f
      simp only [EmitTestAndBranch, Instr.GetSrc1, Instr.GetSrc2, hsrc1, hsrc2, hkind, deref,
        Instr.GetTarget, Opnd.IsRegOpnd, Opnd.IsImmediateOpnd, Opnd.GetImmediateValue,
        Opnd.AsRegOpnd, GetRegEncode, Assert, bind, Except.bind, pure, Except.pure]
      have hb2 : ¬ (c.m_value ≥ 0 ∧ c.m_value < 64) := hb
      simp [hb2]
    refine ⟨hT emitter, ?_⟩
    rintro (h | h)
    · exact GenerateEncoding_of_dispatch_error md func st instr pc .assertion
        (by simp [dispatch, h, hT])
    · exact GenerateEncoding_of_dispatch_error md func st instr pc .assertion
        (by simp [dispatch, h, hT])

/-- C23, at `TBZ x3, #5, L7` (encoder invoked on register 3 and bit 5) and at
`TBZ x3, #64, L7` (fatal assertion). -/
theorem EmitTestAndBranch_bit_number_witness :
    EmitTestAndBranch exampleMd exampleState exampleTbz .EmitTbz =
      .ok (exampleMd.emit ⟨.EmitTbz, [.reg 3, .imm 5, .linker]⟩,
        ⟨64, [⟨.RelocTypeBranch14, 64, 7⟩, ⟨.RelocTypeBranch19, 16, 2⟩]⟩) ∧
    EmitTestAndBranch exampleMd exampleState exampleTbzOutOfRange .EmitTbz =
      .error .assertion ∧
    GenerateEncoding exampleMd exampleFunc exampleState exampleTbzOutOfRange 64 =
      .error .assertion :=
  ⟨(EmitTestAndBranch_bit_number exampleMd exampleFunc exampleState exampleTbz .EmitTbz 64
      ⟨3, .TyInt64⟩ ⟨5, .TyInt32⟩ 7 rfl rfl rfl).2.2.2.1 (by decide),
   ((EmitTestAndBranch_bit_number exampleMd exampleFunc exampleState exampleTbzOutOfRange
      .EmitTbz 64 ⟨3, .TyInt64⟩ ⟨64, .TyInt32⟩ 7 rfl rfl rfl).2.2.2.2 (by decide)).1,
   ((EmitTestAndBranch_bit_number exampleMd exampleFunc exampleState exampleTbzOutOfRange
      .EmitTbz 64 ⟨3, .TyInt64⟩ ⟨64, .TyInt32⟩ 7 rfl rfl rfl).2.2.2.2 (by decide)).2
      (Or.inl rfl)⟩

/-- C24. `FCVTM`, `FCVTN`, `FCVTP` and `FCVTZ` are encoded by `EmitConvertToInt`,
each with its four encoders.  With a non-float register destination and a float
register source (which is 4 or 8 bytes wide), the encoder is chosen by the
destination's type alone: the first for `TyInt32`, the second for `TyUint32`,
the third for `TyInt64`, the fourth for `TyUint64`; it receives
`(RegEncode[dst], RegEncode[src1], size)` with `SIZE_1D` for an 8-byte source
and `SIZE_1S` for a 4-byte one, provided the source register's encoding is a
float register number (`GetFloatRegEncode` asserts it).  A destination of any
other type is a fatal assertion. -/
theorem EmitConvertToInt_selection (md : MdDecls) (func : Func) (st : EncoderState)
    (instr : Instr) (toInt32Fn toUint32Fn toInt64Fn toUint64Fn : EncFn) (d s : RegOpnd)
    (hdst : instr.m_dst = some (.reg d)) (hsrc1 : instr.m_src1 = some (.reg s))
    (hd : IRType_IsFloat d.m_type = false) (hs : IRType_IsFloat s.m_type = true) :
    (instr.m_opcode = .FCVTM → dispatch md func st instr = keepState st
      (EmitConvertToInt md instr .EmitNeonFcvtmsGen .EmitNeonFcvtmuGen
        .EmitNeonFcvtmsGen64 .EmitNeonFcvtmuGen64)) ∧
    (instr.m_opcode = .FCVTN → dispatch md func st instr = keepState st
      (EmitConvertToInt md instr .EmitNeonFcvtnsGen .EmitNeonFcvtnuGen
        .EmitNeonFcvtnsGen64 .EmitNeonFcvtnuGen64)) ∧
    (instr.m_opcode = .FCVTP → dispatch md func st instr = keepState st
      (EmitConvertToInt md instr .EmitNeonFcvtpsGen .EmitNeonFcvtpuGen
        .EmitNeonFcvtpsGen64 .EmitNeonFcvtpuGen64)) ∧
    (instr.m_opcode = .FCVTZ → dispatch md func st instr = keepState st
      (EmitConvertToInt md instr .EmitNeonFcvtzsGen .EmitNeonFcvtzuGen
        .EmitNeonFcvtzsGen64 .EmitNeonFcvtzuGen64)) ∧
    (TySize s.m_type = 8 ∨ TySize s.m_type = 4) ∧
    EmitConvertToInt md instr toInt32Fn toUint32Fn toInt64Fn toUint64Fn =
      if d.m_type = .TyInt32 ∨ d.m_type = .TyUint32 ∨ d.m_type = .TyInt64 ∨
          d.m_type = .TyUint64 then
        if md.RegEncode s.m_reg ≤ md.LAST_FLOAT_REG_ENCODE then
          .ok (md.emit
            ⟨if d.m_type = .TyInt32 then toInt32Fn
              else if d.m_type = .TyUint32 then toUint32Fn
              else if d.m_type = .TyInt64 then toInt64Fn
              else toUint64Fn,
             [.reg (md.RegEncode d.m_reg), .reg (md.RegEncode s.m_reg),
              .neonSize (if TySize s.m_type = 8 then .SIZE_1D else .SIZE_1S)]⟩)
        else .error .assertion
      else .error .assertion := by
  refine ⟨fun h => by simp [dispatch, h], fun h => by simp [dispatch, h],
    fun h => by simp [dispatch, h], fun h => by simp [dispatch, h], ?_, ?_⟩
  · obtain ⟨sr, sty⟩ := s
    cases sty <;> simp_all [IRType_IsFloat, TySize]
  · obtain ⟨sr, sty⟩ := s
    obtain ⟨dr, dty⟩ := d
    simp only [EmitConvertToInt, Instr.GetDst, Instr.GetSrc1, hdst, hsrc1, deref,
      Opnd.IsRegOpnd, Opnd.IsFloat, Opnd.GetType, Opnd.GetSize, Opnd.AsRegOpnd, GetRegEncode,
      GetFloatRegEncode, neonSizeOf, Assert, bind, Except.bind, pure, Except.pure]
    by_cases hr : md.RegEncode sr ≤ md.LAST_FLOAT_REG_ENCODE
    · cases sty <;> simp [IRType_IsFloat] at hs <;>
        cases dty <;> simp [IRType_IsFloat] at hd <;> simp [IRType_IsFloat, TySize, hr] <;>
        split_ifs <;> rfl
    · cases sty <;> simp [IRType_IsFloat] at hs <;>
        cases dty <;> simp [IRType_IsFloat] at hd <;> simp [IRType_IsFloat, TySize, hr] <;>
        split_ifs <;> rfl

/-- C24, at `FCVTZ w0, d1` (signed 32-bit form, double-precision size), at
`FCVTM x0, s1` (unsigned 64-bit form, single-precision size) and at an `FCVTZ`
with a 16-bit destination (fatal assertion). -/
theorem EmitConvertToInt_selection_witness :
    EmitConvertToInt exampleMd exampleFcvtz .EmitNeonFcvtzsGen .EmitNeonFcvtzuGen
        .EmitNeonFcvtzsGen64 .EmitNeonFcvtzuGen64 =
      .ok (exampleMd.emit ⟨.EmitNeonFcvtzsGen, [.reg 0, .reg 1, .neonSize .SIZE_1D]⟩) ∧
    EmitConvertToInt exampleMd exampleFcvtm .EmitNeonFcvtmsGen .EmitNeonFcvtmuGen
        .EmitNeonFcvtmsGen64 .EmitNeonFcvtmuGen64 =
      .ok (exampleMd.emit ⟨.EmitNeonFcvtmuGen64, [.reg 0, .reg 1, .neonSize .SIZE_1S]⟩) ∧
    EmitConvertToInt exampleMd exampleFcvtzShort .EmitNeonFcvtzsGen .EmitNeonFcvtzuGen
        .EmitNeonFcvtzsGen64 .EmitNeonFcvtzuGen64 = .error .assertion :=
  ⟨(EmitConvertToInt_selection exampleMd exampleFunc exampleState exampleFcvtz
      .EmitNeonFcvtzsGen .EmitNeonFcvtzuGen .EmitNeonFcvtzsGen64 .EmitNeonFcvtzuGen64
      ⟨0, .TyInt32⟩ ⟨1, .TyFloat64⟩ rfl rfl rfl rfl).2.2.2.2.2,
   (EmitConvertToInt_selection exampleMd exampleFunc exampleState exampleFcvtm
      .EmitNeonFcvtmsGen .EmitNeonFcvtmuGen .EmitNeonFcvtmsGen64 .EmitNeonFcvtmuGen64
      ⟨0, .TyUint64⟩ ⟨1, .TyFloat32⟩ rfl rfl rfl rfl).2.2.2.2.2,
   (EmitConvertToInt_selection exampleMd exampleFunc exampleState exampleFcvtzShort
      .EmitNeonFcvtzsGen .EmitNeonFcvtzuGen .EmitNeonFcvtzsGen64 .EmitNeonFcvtzuGen64
      ⟨0, .TyInt16⟩ ⟨1, .TyFloat64⟩ rfl rfl rfl rfl).2.2.2.2.2⟩

/-- The 16-bit window at `shift` that holds the top of the unsigned value `u`:
shifting the window's content back gives `u` exactly when the bits of `u` below
the window are zero, that is when `u` is a 16-bit value times `2 ^ (16 * k)`;
in general it gives `u` without those bits. -/
theorem movConstant_window (u : Int) (shift : Nat)
    (hs : shift = 0 ∨ shift = 16 ∨ shift = 32 ∨ shift = 48) (h0 : 0 ≤ u)
    (hfit : u / 2 ^ shift < 2 ^ 16) (hmin : shift = 0 ∨ (2 : Int) ^ shift ≤ u) :
    ((u / 2 ^ shift * 2 ^ shift) % 2 ^ 64 = u ↔ u % 2 ^ shift = 0) ∧
    (u % 2 ^ shift = 0 ↔
      ∃ v k : Nat, v < 2 ^ 16 ∧ k ≤ 3 ∧ u = (v : Int) * 2 ^ (16 * k)) ∧
    (u / 2 ^ shift * 2 ^ shift) % 2 ^ 64 = u - u % 2 ^ shift := by
  have key : ∀ (v k : Nat), v < 2 ^ 16 → k ≤ 3 → u = (v : Int) * 2 ^ (16 * k) →
      u % 2 ^ shift = 0 := by
    intro v k hv hk hu
    have hk4 : k = 0 ∨ k = 1 ∨ k = 2 ∨ k = 3 := by omega
    rcases hk4 with h | h | h | h <;> subst h <;>
      rcases hs with h | h | h | h <;> subst h <;> norm_num at hu hfit hmin hv ⊢ <;> omega
  refine ⟨?_, ⟨?_, ?_⟩, ?_⟩
  · rcases hs with h | h | h | h <;> subst h <;> norm_num at hfit hmin ⊢ <;> omega
  · intro hz
    refine ⟨(u / 2 ^ shift).toNat, shift / 16, ?_, ?_, ?_⟩
    · rcases hs with h | h | h | h <;> subst h <;> norm_num at hfit hmin hz ⊢ <;> omega
    · rcases hs with h | h | h | h <;> subst h <;> norm_num
    · rcases hs with h | h | h | h <;> subst h <;> norm_num at hfit hmin hz ⊢ <;> omega
  · rintro ⟨v, k, hv, hk, hu⟩
    exact key v k hv hk hu
  · rcases hs with h | h | h | h <;> subst h <;> norm_num at hfit hmin ⊢ <;> omega

/-- C30. For a register destination and an immediate source holding the `int64`
constant `c`, read as the unsigned 64-bit value `u`, `EmitMovConstant` passes to
its move-wide encoder a pair `(imm, shift)` (the 64-bit encoder for an 8-byte
destination, the 32-bit one for a 4-byte destination when `shift < 32`) with
`imm = u >> shift`, and `imm << shift` equals `u` as unsigned 64-bit values if
and only if the low `shift` bits of `u` are zero, that is if and only if
`u = v * 2 ^ (16 * k)` for some `v < 2 ^ 16`.  For every other constant the call
still succeeds and the encoder receives the constant without its bits below
`shift`: `imm << shift = u - u % 2 ^ shift`. -/
theorem EmitMovConstant_dropped_bits (md : MdDecls) (instr : Instr)
    (emitter emitter64 : EncFn) (d : RegOpnd) (c : IntConstOpnd)
    (hdst : instr.m_dst = some (.reg d)) (hsrc1 : instr.m_src1 = some (.imm c))
    (hlo : -2 ^ 63 ≤ c.m_value) (hhi : c.m_value < 2 ^ 63) :
    ∃ (imm : Int) (shift : Nat), shift ∈ [0, 16, 32, 48] ∧
      EmitMovConstant md instr emitter emitter64 =
        (if TySize d.m_type = 8 then
          .ok (md.emit ⟨emitter64, [.reg (md.RegEncode d.m_reg), .imm imm, .imm (shift : Int)]⟩)
        else if TySize d.m_type = 4 then
          if shift < 32 then
            .ok (md.emit ⟨emitter, [.reg (md.RegEncode d.m_reg), .imm imm, .imm (shift : Int)]⟩)
          else .error .assertion
        else .error .assertion) ∧
      imm = c.m_value % 2 ^ 64 / 2 ^ shift ∧
      ((imm * 2 ^ shift) % 2 ^ 64 = c.m_value % 2 ^ 64 ↔
        c.m_value % 2 ^ 64 % 2 ^ shift = 0) ∧
      (c.m_value % 2 ^ 64 % 2 ^ shift = 0 ↔
        ∃ v k : Nat, v < 2 ^ 16 ∧ k ≤ 3 ∧ c.m_value % 2 ^ 64 = (v : Int) * 2 ^ (16 * k)) ∧
      (imm * 2 ^ shift) % 2 ^ 64 = c.m_value % 2 ^ 64 - c.m_value % 2 ^ 64 % 2 ^ shift := by
  have hE := EmitMovConstant_eq md instr emitter emitter64 d c hdst hsrc1
  have hL := movConstantLoop_eq c.m_value hlo hhi
  have hu0 : (0 : Int) ≤ c.m_value % 2 ^ 64 := by omega
  by_cases h16 : c.m_value % 2 ^ 64 < 2 ^ 16
  · obtain ⟨p1, p2, p3⟩ := movConstant_window (c.m_value % 2 ^ 64) 0 (Or.inl rfl) hu0
      (by norm_num; omega) (Or.inl rfl)
    refine ⟨c.m_value % 2 ^ 64 / 2 ^ 0, 0, by simp, ?_, rfl, p1, p2, p3⟩
    rw [if_pos h16] at hL
    rw [hE, hL]
    have e : toUInt32 (c.m_value % 2 ^ 64) = c.m_value % 2 ^ 64 / 2 ^ 0 := by
      simp only [toUInt32]; omega
    rw [e]
    simp
  · by_cases h32 : c.m_value % 2 ^ 64 < 2 ^ 32
    · obtain ⟨p1, p2, p3⟩ := movConstant_window (c.m_value % 2 ^ 64) 16
        (Or.inr (Or.inl rfl)) hu0 (by omega) (Or.inr (by omega))
      refine ⟨c.m_value % 2 ^ 64 / 2 ^ 16, 16, by simp, ?_, rfl, p1, p2, p3⟩
      rw [if_neg h16, if_pos h32] at hL
      rw [hE, hL]
      have e : toUInt32 (c.m_value % 2 ^ 64 / 2 ^ 16) = c.m_value % 2 ^ 64 / 2 ^ 16 := by
        simp only [toUInt32]; omega
      rw [e]
      simp
    · by_cases h48 : c.m_value % 2 ^ 64 < 2 ^ 48
      · obtain ⟨p1, p2, p3⟩ := movConstant_window (c.m_value % 2 ^ 64) 32
          (Or.inr (Or.inr (Or.inl rfl))) hu0 (by omega) (Or.inr (by omega))
        refine ⟨c.m_value % 2 ^ 64 / 2 ^ 32, 32, by simp, ?_, rfl, p1, p2, p3⟩
        rw [if_neg h16, if_neg h32, if_pos h48] at hL
        rw [hE, hL]
        have e : toUInt32 (c.m_value % 2 ^ 64 / 2 ^ 32) = c.m_value % 2 ^ 64 / 2 ^ 32 := by
          simp only [toUInt32]; omega
        rw [e]
        simp
      · obtain ⟨p1, p2, p3⟩ := movConstant_window (c.m_value % 2 ^ 64) 48
          (Or.inr (Or.inr (Or.inr rfl))) hu0 (by omega) (Or.inr (by omega))
        refine ⟨c.m_value % 2 ^ 64 / 2 ^ 48, 48, by simp, ?_, rfl, p1, p2, p3⟩
        rw [if_neg h16, if_neg h32, if_neg h48] at hL
        rw [hE, hL]
        have e : toUInt32 (c.m_value % 2 ^ 64 / 2 ^ 48) = c.m_value % 2 ^ 64 / 2 ^ 48 := by
          simp only [toUInt32]; omega
        rw [e]
        simp

/-- C30, at `MOVZ x0, #0x12345678`: the encoder receives `(0x1234, 16)`, which
stands for `0x12340000`; the low bits `0x5678` are dropped and no error is
raised. -/
theorem EmitMovConstant_dropped_bits_witness :
    (∃ (imm : Int) (shift : Nat), shift ∈ [0, 16, 32, 48] ∧
      EmitMovConstant exampleMd exampleMovzDropped .EmitMovz .EmitMovz64 =
        (if TySize IRType.TyInt64 = 8 then
          .ok (exampleMd.emit ⟨.EmitMovz64, [.reg (exampleMd.RegEncode 0), .imm imm,
            .imm (shift : Int)]⟩)
        else if TySize IRType.TyInt64 = 4 then
          if shift < 32 then
            .ok (exampleMd.emit ⟨.EmitMovz, [.reg (exampleMd.RegEncode 0), .imm imm,
              .imm (shift : Int)]⟩)
          else .error .assertion
        else .error .assertion) ∧
      imm = 0x12345678 % 2 ^ 64 / 2 ^ shift ∧
      ((imm * 2 ^ shift) % 2 ^ 64 = 0x12345678 % 2 ^ 64 ↔
        (0x12345678 : Int) % 2 ^ 64 % 2 ^ shift = 0) ∧
      ((0x12345678 : Int) % 2 ^ 64 % 2 ^ shift = 0 ↔
        ∃ v k : Nat, v < 2 ^ 16 ∧ k ≤ 3 ∧ (0x12345678 : Int) % 2 ^ 64 = (v : Int) * 2 ^ (16 * k)) ∧
      (imm * 2 ^ shift) % 2 ^ 64 = 0x12345678 % 2 ^ 64 - 0x12345678 % 2 ^ 64 % 2 ^ shift) ∧
    EmitMovConstant exampleMd exampleMovzDropped .EmitMovz .EmitMovz64 =
      .ok (exampleMd.emit ⟨.EmitMovz64, [.reg 0, .imm 0x1234, .imm 16]⟩) ∧
    ((0x1234 : Int) * 2 ^ 16) % 2 ^ 64 = 0x12340000 := by
  refine ⟨EmitMovConstant_dropped_bits exampleMd exampleMovzDropped .EmitMovz .EmitMovz64
    ⟨0, .TyInt64⟩ ⟨0x12345678, .TyInt64⟩ rfl rfl (by decide) (by decide), ?_, by decide⟩
  rw [EmitMovConstant_eq exampleMd exampleMovzDropped .EmitMovz .EmitMovz64
    ⟨0, .TyInt64⟩ ⟨0x12345678, .TyInt64⟩ rfl rfl,
    movConstantLoop_eq _ (by decide) (by decide)]
  rfl

/-- A successful `EmitConditionalBranch` prepends one record at `m_pc` and emits
through `EmitBranch`. -/
theorem EmitConditionalBranch_ok (md : MdDecls) (st st1 : EncoderState) (instr : Instr)
    (condition : Cond) (e : Emitted)
    (h : EmitConditionalBranch md st instr condition = .ok (e, st1)) :
    st1.m_pc = st.m_pc ∧ ∃ (k : RelocType) (t : LabelRef) (c : EmitCall),
      c.fn ∈ [EncFn.EmitBranch, .EmitBl, .EmitCbz, .EmitCbz64, .EmitCbnz, .EmitCbnz64,
        .EmitTbz, .EmitTbnz] ∧ e = md.emit c ∧
      st1.m_relocList = ⟨k, st.m_pc, t⟩ :: st.m_relocList := by
  simp only [EmitConditionalBranch, Instr.GetTarget, EncodeReloc.New, bind, Except.bind, pure,
    Except.pure] at h
  split at h
  · cases h
  · rename_i t ht
    simp only [Except.ok.injEq, Prod.mk.injEq] at h
    obtain ⟨he, hst⟩ := h
    subst hst
    exact ⟨rfl, _, _, ⟨.EmitBranch, [.linker, .cond condition]⟩, by simp, he.symm, rfl⟩

/-- A successful `EmitUnconditionalBranch` prepends one record at `m_pc` and emits
through its encoder. -/
theorem EmitUnconditionalBranch_ok (md : MdDecls) (st st1 : EncoderState) (instr : Instr)
    (emitter : EncFn) (e : Emitted)
    (hf : emitter ∈ [EncFn.EmitBranch, .EmitBl, .EmitCbz, .EmitCbz64, .EmitCbnz,
      .EmitCbnz64, .EmitTbz, .EmitTbnz])
    (h : EmitUnconditionalBranch md st instr emitter = .ok (e, st1)) :
    st1.m_pc = st.m_pc ∧ ∃ (k : RelocType) (t : LabelRef) (c : EmitCall),
      c.fn ∈ [EncFn.EmitBranch, .EmitBl, .EmitCbz, .EmitCbz64, .EmitCbnz, .EmitCbnz64,
        .EmitTbz, .EmitTbnz] ∧ e = md.emit c ∧
      st1.m_relocList = ⟨k, st.m_pc, t⟩ :: st.m_relocList := by
  simp only [EmitUnconditionalBranch, Instr.GetTarget, EncodeReloc.New, bind, Except.bind, pure,
    Except.pure] at h
  split at h
  · cases h
  · rename_i t ht
    simp only [Except.ok.injEq, Prod.mk.injEq] at h
    obtain ⟨he, hst⟩ := h
    subst hst
    exact ⟨rfl, _, _, ⟨emitter, [.linker]⟩, hf, he.symm, rfl⟩

/-- A successful `EmitCompareAndBranch` prepends one record at `m_pc` and emits
through one of its two encoders. -/
theorem EmitCompareAndBranch_ok (md : MdDecls) (st st1 : EncoderState) (instr : Instr)
    (emitter emitter64 : EncFn) (e : Emitted)
    (hf : emitter ∈ [EncFn.EmitBranch, .EmitBl, .EmitCbz, .EmitCbz64, .EmitCbnz,
      .EmitCbnz64, .EmitTbz, .EmitTbnz])
    (hg : emitter64 ∈ [EncFn.EmitBranch, .EmitBl, .EmitCbz, .EmitCbz64, .EmitCbnz,
      .EmitCbnz64, .EmitTbz, .EmitTbnz])
    (h : EmitCompareAndBranch md st instr emitter emitter64 = .ok (e, st1)) :
    st1.m_pc = st.m_pc ∧ ∃ (k : RelocType) (t : LabelRef) (c : EmitCall),
      c.fn ∈ [EncFn.EmitBranch, .EmitBl, .EmitCbz, .EmitCbz64, .EmitCbnz, .EmitCbnz64,
        .EmitTbz, .EmitTbnz] ∧ e = md.emit c ∧
      st1.m_relocList = ⟨k, st.m_pc, t⟩ :: st.m_relocList := by
  simp only [EmitCompareAndBranch, EncodeReloc.New, bind, Except.bind, pure,
    Except.pure] at h
  split at h
  · cases h
  split at h
  · cases h
  split at h
  · cases h
  split at h
  · cases h
  split at h
  · split at h
    · cases h
    · simp only [Except.ok.injEq, Prod.mk.injEq] at h
      obtain ⟨he, hst⟩ := h
      subst hst
      exact ⟨rfl, _, _, _, hg, he.symm, rfl⟩
  · split at h
    · cases h
    · simp only [Except.ok.injEq, Prod.mk.injEq] at h
      obtain ⟨he, hst⟩ := h
      subst hst
      exact ⟨rfl, _, _, _, hf, he.symm, rfl⟩

/-- A successful `EmitTestAndBranch` prepends one record at `m_pc` and emits
through its encoder. -/
theorem EmitTestAndBranch_ok (md : MdDecls) (st st1 : EncoderState) (instr : Instr)
    (emitter : EncFn) (e : Emitted)
    (hf : emitter ∈ [EncFn.EmitBranch, .EmitBl, .EmitCbz, .EmitCbz64, .EmitCbnz,
      .EmitCbnz64, .EmitTbz, .EmitTbnz])
    (h : EmitTestAndBranch md st instr emitter = .ok (e, st1)) :
    st1.m_pc = st.m_pc ∧ ∃ (k : RelocType) (t : LabelRef) (c : EmitCall),
      c.fn ∈ [EncFn.EmitBranch, .EmitBl, .EmitCbz, .EmitCbz64, .EmitCbnz, .EmitCbnz64,
        .EmitTbz, .EmitTbnz] ∧ e = md.emit c ∧
      st1.m_relocList = ⟨k, st.m_pc, t⟩ :: st.m_relocList := by
  simp only [EmitTestAndBranch, EncodeReloc.New, bind, Except.bind, pure,
    Except.pure] at h
  split at h
  · cases h
  split at h
  · cases h
  split at h
  · cases h
  split at h
  · cases h
  split at h
  · cases h
  split at h
  · cases h
  split at h
  · cases h
  split at h
  · cases h
  simp only [Except.ok.injEq, Prod.mk.injEq] at h
  obtain ⟨he, hst⟩ := h
  subst hst
  exact ⟨rfl, _, _, _, hf, he.symm, rfl⟩

/-- A successful branch case of the switch prepends one record at `m_pc` and
emits through one of the branch encoders. -/
theorem dispatch_branch_ok (md : MdDecls) (func : Func) (st st1 : EncoderState)
    (instr : Instr) (e : Emitted)
    (hop : instr.m_opcode ∈ [OpCode.B, .BL, .BEQ, .BNE, .BLT, .BLE, .BGT, .BGE, .BCS, .BCC,
      .BHI, .BLS, .BMI, .BPL, .BVS, .BVC, .CBZ, .CBNZ, .TBZ, .TBNZ])
    (h : dispatch md func st instr = .ok (e, st1)) :
    st1.m_pc = st.m_pc ∧ ∃ (k : RelocType) (t : LabelRef) (c : EmitCall),
      c.fn ∈ [EncFn.EmitBranch, .EmitBl, .EmitCbz, .EmitCbz64, .EmitCbnz, .EmitCbnz64,
        .EmitTbz, .EmitTbnz] ∧ e = md.emit c ∧
      st1.m_relocList = ⟨k, st.m_pc, t⟩ :: st.m_relocList := by
  simp only [List.mem_cons, List.mem_singleton, List.not_mem_nil, or_false] at hop
  rcases hop with h0 | h0 | h0 | h0 | h0 | h0 | h0 | h0 | h0 | h0 | h0 | h0 | h0 | h0 | h0 |
    h0 | h0 | h0 | h0 | h0 <;> simp only [dispatch, h0] at h
  · exact EmitConditionalBranch_ok md st st1 instr _ e h
  · exact EmitUnconditionalBranch_ok md st st1 instr _ e (by simp) h
  · exact EmitConditionalBranch_ok md st st1 instr _ e h
  · exact EmitConditionalBranch_ok md st st1 instr _ e h
  · exact EmitConditionalBranch_ok md st st1 instr _ e h
  · exact EmitConditionalBranch_ok md st st1 instr _ e h
  · exact EmitConditionalBranch_ok md st st1 instr _ e h
  · exact EmitConditionalBranch_ok md st st1 instr _ e h
  · exact EmitConditionalBranch_ok md st st1 instr _ e h
  · exact EmitConditionalBranch_ok md st st1 instr _ e h
  · exact EmitConditionalBranch_ok md st st1 instr _ e h
  · exact EmitConditionalBranch_ok md st st1 instr _ e h
  · exact EmitConditionalBranch_ok md st st1 instr _ e h
  · exact EmitConditionalBranch_ok md st st1 instr _ e h
  · exact EmitConditionalBranch_ok md st st1 instr _ e h
  · exact EmitConditionalBranch_ok md st st1 instr _ e h
  · exact EmitCompareAndBranch_ok md st st1 instr _ _ e (by simp) (by simp) h
  · exact EmitCompareAndBranch_ok md st st1 instr _ _ e (by simp) (by simp) h
  · exact EmitTestAndBranch_ok md st st1 instr _ e (by simp) h
  · exact EmitTestAndBranch_ok md st st1 instr _ e (by simp) h

/-- What a successful `GenerateEncoding` does to the encoder object: `m_pc` is
kept, and the relocation list is kept or gets one record at `m_pc`, in which
case the word returned is the one a branch encoder emitted. -/
theorem GenerateEncoding_reloc (md : MdDecls) (func : Func) (st st1 : EncoderState)
    (instr : Instr) (pc w : Nat) (h : GenerateEncoding md func st instr pc = .ok (w, st1)) :
    st1.m_pc = st.m_pc ∧ (st1.m_relocList = st.m_relocList ∨
      ∃ (k : RelocType) (t : LabelRef) (c : EmitCall),
        c.fn ∈ [EncFn.EmitBranch, .EmitBl, .EmitCbz, .EmitCbz64, .EmitCbnz, .EmitCbnz64,
          .EmitTbz, .EmitTbnz] ∧ w = (md.emit c).opcode ∧
        st1.m_relocList = ⟨k, st.m_pc, t⟩ :: st.m_relocList) := by
  cases hd : dispatch md func st instr with
  | error f =>
    rw [GenerateEncoding_of_dispatch_error md func st instr pc f hd] at h
    cases h
  | ok r =>
    obtain ⟨e, st2⟩ := r
    rw [GenerateEncoding_of_dispatch_ok md func st st2 instr pc e hd] at h
    split at h
    · cases h
    · simp only [Except.ok.injEq, Prod.mk.injEq] at h
      obtain ⟨hw, hst⟩ := h
      subst hst
      by_cases hop : instr.m_opcode ∈ [OpCode.B, .BL, .BEQ, .BNE, .BLT, .BLE, .BGT, .BGE,
          .BCS, .BCC, .BHI, .BLS, .BMI, .BPL, .BVS, .BVC, .CBZ, .CBNZ, .TBZ, .TBNZ]
      · obtain ⟨h1, k, t, c, h2, h3, h4⟩ := dispatch_branch_ok md func st st2 instr e hop hd
        exact ⟨h1, Or.inr ⟨k, t, c, h2, by rw [← hw, h3], h4⟩⟩
      · obtain ⟨r, hr⟩ := dispatch_keepState md func st instr hop
        rw [hr] at hd
        cases r with
        | error f => cases hd
        | ok e1 =>
          simp only [keepState, bind, Except.bind, pure, Except.pure, Except.ok.injEq,
            Prod.mk.injEq] at hd
          rw [← hd.2]
          exact ⟨rfl, Or.inl rfl⟩

/-- The lowered part of `Encode`, once canonicalization and `GenerateEncoding`
have returned: nothing is stored for the word 0, otherwise the word is stored at
`m_pc` and `MachInt` is returned. -/
theorem EncodeLowered_eq (md : MdDecls) (func : Func) (st : EncodeState) (instr instr1 : Instr)
    (b : Bool) (w : Nat) (enc1 : EncoderState)
    (hcanon : CanonicalizeInstr md func instr = .ok (b, instr1))
    (hgen : GenerateEncoding md func st.encoder instr1 st.encoder.m_pc = .ok (w, enc1)) :
    EncodeLowered md func st instr =
      if w = 0 then .ok (0, instr1, { st with encoder := enc1 })
      else .ok (MachInt, instr1,
        { st with encoder := enc1, buffer := storeDWORD st.buffer enc1.m_pc w }) := by
  simp only [EncodeLowered, hcanon, hgen, bind, Except.bind, pure, Except.pure]

/-- A return of the lowered part of `Encode` comes from a return of
canonicalization and of `GenerateEncoding`. -/
theorem EncodeLowered_ok (md : MdDecls) (func : Func) (st st1 : EncodeState)
    (instr instr1 : Instr) (n : Nat)
    (h : EncodeLowered md func st instr = .ok (n, instr1, st1)) :
    ∃ (b : Bool) (w : Nat) (enc1 : EncoderState),
      CanonicalizeInstr md func instr = .ok (b, instr1) ∧
      GenerateEncoding md func st.encoder instr1 st.encoder.m_pc = .ok (w, enc1) ∧
      ((w = 0 ∧ n = 0 ∧ st1 = { st with encoder := enc1 }) ∨
       (w ≠ 0 ∧ n = MachInt ∧ st1 =
          { st with encoder := enc1, buffer := storeDWORD st.buffer enc1.m_pc w })) := by
  cases hc : CanonicalizeInstr md func instr with
  | error f =>
    simp only [EncodeLowered, hc, bind, Except.bind] at h
    cases h
  | ok r =>
    obtain ⟨b, i1⟩ := r
    cases hg : GenerateEncoding md func st.encoder i1 st.encoder.m_pc with
    | error f =>
      simp only [EncodeLowered, hc, hg, bind, Except.bind] at h
      cases h
    | ok r2 =>
      obtain ⟨w, enc1⟩ := r2
      rw [EncodeLowered_eq md func st instr i1 b w enc1 hc hg] at h
      by_cases hw : w = 0
      · rw [if_pos hw] at h
        simp only [Except.ok.injEq, Prod.mk.injEq] at h
        obtain ⟨h1, h2, h3⟩ := h
        subst h2
        exact ⟨b, w, enc1, rfl, hg, Or.inl ⟨hw, h1.symm, h3.symm⟩⟩
      · rw [if_neg hw] at h
        simp only [Except.ok.injEq, Prod.mk.injEq] at h
        obtain ⟨h1, h2, h3⟩ := h
        subst h2
        exact ⟨b, w, enc1, rfl, hg, Or.inr ⟨hw, h1.symm, h3.symm⟩⟩

/-- On a lowered instruction `Encode` stores the pc in `m_pc` and runs its
lowered part. -/
theorem Encode_of_lowered (md : MdDecls) (func : Func) (env : EncodeEnv) (st : EncodeState)
    (instr : Instr) (pc beginCodeAddress : Nat) (hlow : instr.isLowered = true) :
    Encode md func env st instr pc beginCodeAddress =
      EncodeLowered md func { st with encoder := { st.encoder with m_pc := pc } } instr := by
  simp [Encode, Instr.IsLowered, hlow]

/-- What the lowered part of `Encode` returns and does to the relocation list:
it returns 0 or `MachInt`, keeps the label objects, and keeps the list or
prepends one record at `m_pc`, in which case a return value of 0 means that a
branch encoder emitted the word 0. -/
theorem EncodeLowered_reloc (md : MdDecls) (func : Func) (st st1 : EncodeState)
    (instr instr1 : Instr) (n : Nat)
    (h : EncodeLowered md func st instr = .ok (n, instr1, st1)) :
    (n = 0 ∨ n = MachInt) ∧ st1.encoder.m_pc = st.encoder.m_pc ∧
    (n = 0 → st1.buffer = st.buffer) ∧
    (st1.encoder.m_relocList = st.encoder.m_relocList ∨
      ∃ (k : RelocType) (t : LabelRef) (c : EmitCall),
        c.fn ∈ [EncFn.EmitBranch, .EmitBl, .EmitCbz, .EmitCbz64, .EmitCbnz, .EmitCbnz64,
          .EmitTbz, .EmitTbnz] ∧ (n = 0 → (md.emit c).opcode = 0) ∧
        st1.encoder.m_relocList = ⟨k, st.encoder.m_pc, t⟩ :: st.encoder.m_relocList) := by
  obtain ⟨b, w, enc1, _, hg, hcase⟩ := EncodeLowered_ok md func st st1 instr instr1 n h
  obtain ⟨hpc, hrel⟩ := GenerateEncoding_reloc md func st.encoder enc1 instr1 _ w hg
  have hn : (n = 0 ∨ n = MachInt) ∧ st1.encoder = enc1 ∧ (n = 0 → w = 0) ∧
      (n = 0 → st1.buffer = st.buffer) := by
    rcases hcase with ⟨h1, h2, h3⟩ | ⟨h1, h2, h3⟩
    · subst h3
      exact ⟨Or.inl h2, rfl, fun _ => h1, fun _ => rfl⟩
    · subst h3
      refine ⟨Or.inr h2, rfl, fun h0 => ?_, fun h0 => ?_⟩ <;>
        (rw [h2] at h0; simp [MachInt] at h0)
  obtain ⟨h1, h2, h3, h4⟩ := hn
  refine ⟨h1, by rw [h2, hpc], h4, ?_⟩
  rw [h2]
  rcases hrel with hr | ⟨k, t, c, hc1, hc2, hc3⟩
  · exact Or.inl hr
  · exact Or.inr ⟨k, t, c, hc1, fun h0 => by rw [← hc2]; exact h3 h0, hc3⟩

/-- The label block of `Encode` keeps the encoder object and the code
memory. -/
theorem EncodeLabel_ok (env : EncodeEnv) (st st1 : EncodeState) (instr : Instr)
    (h : EncodeLabel env st instr = .ok st1) :
    st1.encoder = st.encoder ∧ st1.buffer = st.buffer := by
  simp only [EncodeLabel, bind, Except.bind, pure, Except.pure] at h
  split at h
  · split at h
    · split at h
      · cases h
      · split at h
        · cases h
        · simp only [Except.ok.injEq] at h
          subst h
          exact ⟨rfl, rfl⟩
    · split at h
      · cases h
      · simp only [Except.ok.injEq] at h
        subst h
        exact ⟨rfl, rfl⟩
  · simp only [Except.ok.injEq] at h
    subst h
    exact ⟨rfl, rfl⟩

/-- What `Encode` returns and does to the relocation list: it returns 0 or
`MachInt`, and keeps the list or prepends one record at `pc`, in which case a
return value of 0 means that a branch encoder emitted the word 0. -/
theorem Encode_reloc (md : MdDecls) (func : Func) (env : EncodeEnv) (st st1 : EncodeState)
    (instr instr1 : Instr) (pc beginCodeAddress n : Nat)
    (h : Encode md func env st instr pc beginCodeAddress = .ok (n, instr1, st1)) :
    (n = 0 ∨ n = MachInt) ∧
    (st1.encoder.m_relocList = st.encoder.m_relocList ∨
      ∃ (k : RelocType) (t : LabelRef) (c : EmitCall),
        c.fn ∈ [EncFn.EmitBranch, .EmitBl, .EmitCbz, .EmitCbz64, .EmitCbnz, .EmitCbnz64,
          .EmitTbz, .EmitTbnz] ∧ (n = 0 → (md.emit c).opcode = 0) ∧
        st1.encoder.m_relocList = ⟨k, pc, t⟩ :: st.encoder.m_relocList) := by
  by_cases hlow : instr.isLowered = true
  · rw [Encode_of_lowered md func env st instr pc beginCodeAddress hlow] at h
    obtain ⟨h1, _, _, h3⟩ := EncodeLowered_reloc md func _ st1 instr instr1 n h
    exact ⟨h1, h3⟩
  · have hl : instr.isLowered = false := by simpa using hlow
    simp only [Encode, Instr.IsLowered, hl, beq_self_eq_true, if_true, bind, Except.bind, pure,
      Except.pure] at h
    cases hlab : EncodeLabel env { st with encoder := { st.encoder with m_pc := pc } } instr with
    | error f =>
      simp only [hlab] at h
      cases h
    | ok st0 =>
      simp only [hlab] at h
      obtain ⟨hst0r, _⟩ := EncodeLabel_ok env _ st0 instr hlab
      split at h
      · split at h
        · cases h
        · rename_i r hr
          obtain ⟨n2, i2, st2⟩ := r
          simp only [Except.ok.injEq, Prod.mk.injEq] at h
          obtain ⟨hn, _, hst⟩ := h
          subst hn
          subst hst
          obtain ⟨h1, _, _, h3⟩ := EncodeLowered_reloc md func st0 st2 _ i2 n2 hr
          rw [hst0r] at h3
          exact ⟨h1, h3⟩
      · simp only [Except.ok.injEq, Prod.mk.injEq] at h
        obtain ⟨hn, _, hst⟩ := h
        subst hst
        exact ⟨Or.inl hn.symm, Or.inl (by rw [hst0r])⟩

/-- One step of the driver keeps the relocation records in range and pairwise
distinct in their offsets, when branch encoders never emit the word 0. -/
theorem Encode_step_distinct (md : MdDecls) (func : Func) (env : EncodeEnv)
    (st st1 : EncodeState) (instr instr1 : Instr) (pc0 pc beginCodeAddress n : Nat)
    (hnz : ∀ c : EmitCall, c.fn ∈ [EncFn.EmitBranch, .EmitBl, .EmitCbz, .EmitCbz64, .EmitCbnz,
      .EmitCbnz64, .EmitTbz, .EmitTbnz] → (md.emit c).opcode ≠ 0)
    (hle : pc0 ≤ pc)
    (hin : ∀ r ∈ st.encoder.m_relocList, pc0 ≤ r.m_consumerOffset ∧ r.m_consumerOffset < pc)
    (hpw : st.encoder.m_relocList.Pairwise (fun a b => a.m_consumerOffset ≠ b.m_consumerOffset))
    (h : Encode md func env st instr pc beginCodeAddress = .ok (n, instr1, st1)) :
    (∀ r ∈ st1.encoder.m_relocList,
      pc0 ≤ r.m_consumerOffset ∧ r.m_consumerOffset < pc + n) ∧
    st1.encoder.m_relocList.Pairwise (fun a b => a.m_consumerOffset ≠ b.m_consumerOffset) := by
  obtain ⟨hn, hrel⟩ := Encode_reloc md func env st st1 instr instr1 pc beginCodeAddress n h
  rcases hrel with hr | ⟨k, t, c, hc1, hc2, hc3⟩
  · rw [hr]
    refine ⟨fun r hr1 => ?_, hpw⟩
    have := hin r hr1
    omega
  · have hn4 : n = MachInt := by
      rcases hn with h0 | h4
      · exact absurd (hc2 h0) (hnz c hc1)
      · exact h4
    rw [hc3]
    refine ⟨fun r hr1 => ?_, ?_⟩
    · rcases List.mem_cons.1 hr1 with h1 | h1
      · subst h1
        simp only [hn4, MachInt]
        omega
      · have := hin r h1
        omega
    · refine List.Pairwise.cons (fun r hr1 => ?_) hpw
      have := hin r hr1
      simp only
      omega

/-- The driver keeps the relocation records in range and pairwise distinct in
their offsets, when branch encoders never emit the word 0. -/
theorem EncodeSequence_invariant (md : MdDecls) (func : Func) (env : EncodeEnv)
    (hnz : ∀ c : EmitCall, c.fn ∈ [EncFn.EmitBranch, .EmitBl, .EmitCbz, .EmitCbz64, .EmitCbnz,
      .EmitCbnz64, .EmitTbz, .EmitTbnz] → (md.emit c).opcode ≠ 0)
    (pc0 : Nat) (instrs : List Instr) :
    ∀ (st st1 : EncodeState) (pc pc1 : Nat), pc0 ≤ pc →
      (∀ r ∈ st.encoder.m_relocList, pc0 ≤ r.m_consumerOffset ∧ r.m_consumerOffset < pc) →
      st.encoder.m_relocList.Pairwise (fun a b => a.m_consumerOffset ≠ b.m_consumerOffset) →
      EncodeSequence md func env st pc instrs = .ok (st1, pc1) →
      (∀ r ∈ st1.encoder.m_relocList,
        pc0 ≤ r.m_consumerOffset ∧ r.m_consumerOffset < pc1) ∧
      st1.encoder.m_relocList.Pairwise
        (fun a b => a.m_consumerOffset ≠ b.m_consumerOffset) := by
  induction instrs with
  | nil =>
    intro st st1 pc pc1 _ hin hpw h
    simp only [EncodeSequence, Except.ok.injEq, Prod.mk.injEq] at h
    obtain ⟨h1, h2⟩ := h
    subst h1
    subst h2
    exact ⟨hin, hpw⟩
  | cons instr rest ih =>
    intro st st1 pc pc1 hle hin hpw h
    simp only [EncodeSequence, bind, Except.bind] at h
    split at h
    · cases h
    · rename_i r hr
      obtain ⟨n, i2, st2⟩ := r
      obtain ⟨hin2, hpw2⟩ := Encode_step_distinct md func env st st2 instr i2 pc0 pc _ n hnz
        hle hin hpw hr
      exact ih st2 st1 (pc + n) pc1 (by omega) hin2 hpw2 h

/-- C21. Let the instructions of one function be encoded in order by `Encode`,
starting from the empty relocation list at the pc `pc0`, each call at the pc of
the previous call plus the value that call returned.  If the branch encoders
never emit the word 0, then whenever the calls all return, the relocation
records in the resulting list have pairwise distinct patch offsets (and each
offset lies between `pc0` and the final pc). -/
theorem EncodeSequence_distinct_offsets (md : MdDecls) (func : Func) (env : EncodeEnv)
    (st0 st : EncodeState) (pc0 pc : Nat) (instrs : List Instr)
    (hnz : ∀ c : EmitCall, c.fn ∈ [EncFn.EmitBranch, .EmitBl, .EmitCbz, .EmitCbz64, .EmitCbnz,
      .EmitCbnz64, .EmitTbz, .EmitTbnz] → (md.emit c).opcode ≠ 0)
    (hinit : st0.encoder.m_relocList = [])
    (h : EncodeSequence md func env st0 pc0 instrs = .ok (st, pc)) :
    st.encoder.m_relocList.Pairwise (fun a b => a.m_consumerOffset ≠ b.m_consumerOffset) ∧
    ∀ r ∈ st.encoder.m_relocList, pc0 ≤ r.m_consumerOffset ∧ r.m_consumerOffset < pc := by
  obtain ⟨h1, h2⟩ := EncodeSequence_invariant md func env hnz pc0 instrs st0 st pc0 pc
    (Nat.le_refl _) (by rw [hinit]; intro r hr; cases hr) (by rw [hinit]; exact List.Pairwise.nil) h
  exact ⟨h2, h1⟩

/-- C21, at `BL L7; ADD x0, x1, #5; L7:; BNE L7` encoded from `0x1000`: the calls
return, the final pc is `0x100C`, and the two records are at `0x1008` and
`0x1000`. -/
theorem EncodeSequence_distinct_offsets_witness :
    (∃ st, EncodeSequence exampleMd exampleFunc exampleEnv exampleEncodeState 0x1000
        exampleProgram = .ok (st, 0x100C) ∧
      st.encoder.m_relocList =
        [⟨.RelocTypeBranch19, 0x1008, 7⟩, ⟨.RelocTypeBranch26, 0x1000, 7⟩] ∧
      st.encoder.m_relocList.Pairwise
        (fun a b => a.m_consumerOffset ≠ b.m_consumerOffset)) := by
  refine ⟨_, rfl, rfl, ?_⟩
  exact (EncodeSequence_distinct_offsets exampleMd exampleFunc exampleEnv exampleEncodeState _
    0x1000 0x100C exampleProgram
    (by intro c _; simp only [exampleMd, exampleEmit]; split <;> simp) rfl rfl).1

/-- C25. On a lowered instruction whose canonical form `GenerateEncoding` encodes
to a non-zero word `w`, `Encode` returns 4 and stores `w` at `pc`: the bytes at
`pc`, ..., `pc + 3` become the bytes of `w`, lowest first (so they hold `w` itself
when `w` is a 32-bit word), every other byte of the code memory is unchanged, and
the encoder object is the one `GenerateEncoding` left.  On every instruction,
lowered or not, a value returned by `Encode` is 0 or 4. -/
theorem Encode_lowered_store (md : MdDecls) (func : Func) (env : EncodeEnv) (st : EncodeState)
    (instr : Instr) (pc beginCodeAddress : Nat) (hlow : instr.isLowered = true) :
    (∀ (b : Bool) (instr1 : Instr) (w : Nat) (enc1 : EncoderState),
      CanonicalizeInstr md func instr = .ok (b, instr1) →
      GenerateEncoding md func { st.encoder with m_pc := pc } instr1 pc = .ok (w, enc1) →
      w ≠ 0 →
      ∃ st1 : EncodeState,
        Encode md func env st instr pc beginCodeAddress = .ok (4, instr1, st1) ∧
        (∀ k, k < 4 → st1.buffer (pc + k) = w / 256 ^ k % 256) ∧
        (w < 2 ^ 32 → st1.buffer pc + 256 * st1.buffer (pc + 1) +
          65536 * st1.buffer (pc + 2) + 16777216 * st1.buffer (pc + 3) = w) ∧
        (∀ a, a < pc ∨ pc + 4 ≤ a → st1.buffer a = st.buffer a) ∧
        st1.encoder = enc1 ∧ st1.instrs = st.instrs) ∧
    (∀ (other : Instr) (n : Nat) (instr1 : Instr) (st1 : EncodeState),
      Encode md func env st other pc beginCodeAddress = .ok (n, instr1, st1) →
      n = 0 ∨ n = 4) := by
  refine ⟨?_, ?_⟩
  · intro b instr1 w enc1 hcanon hgen hw
    have hpc : enc1.m_pc = pc :=
      (GenerateEncoding_reloc md func _ enc1 instr1 pc w hgen).1
    refine ⟨{ st with encoder := enc1, buffer := storeDWORD st.buffer pc w }, ?_, ?_, ?_, ?_,
      rfl, rfl⟩
    · rw [Encode_of_lowered md func env st instr pc beginCodeAddress hlow,
        EncodeLowered_eq md func _ instr instr1 b w enc1 hcanon hgen, if_neg hw, hpc]
      rfl
    · intro k hk
      have h1 : pc ≤ pc + k ∧ pc + k < pc + 4 := by omega
      simp only [storeDWORD, h1, and_self, if_true, Nat.add_sub_cancel_left]
    · intro hw32
      have h0 : pc ≤ pc ∧ pc < pc + 4 := by omega
      have h1 : pc ≤ pc + 1 ∧ pc + 1 < pc + 4 := by omega
      have h2 : pc ≤ pc + 2 ∧ pc + 2 < pc + 4 := by omega
      have h3 : pc ≤ pc + 3 ∧ pc + 3 < pc + 4 := by omega
      simp only [storeDWORD, h0, h1, h2, h3, and_self, if_true, Nat.add_sub_cancel_left,
        Nat.sub_self]
      norm_num
      omega
    · intro a ha
      have h1 : ¬ (pc ≤ a ∧ a < pc + 4) := by omega
      simp only [storeDWORD, h1, if_false]
  · intro other n instr1 st1 h
    exact (Encode_reloc md func env st st1 other instr1 pc beginCodeAddress n h).1

/-- C25, at `ADD x0, x1, #5` encoded at `0x1000`: `Encode` returns 4 and the word
`0x91001420` is in the four bytes from `0x1000` on. -/
theorem Encode_lowered_store_witness :
    ∃ st1 : EncodeState,
      Encode exampleMd exampleFunc exampleEnv exampleEncodeState exampleAdd 0x1000 0x1000 =
        .ok (4, exampleAdd, st1) ∧
      (∀ k, k < 4 → st1.buffer (0x1000 + k) = 0x91001420 / 256 ^ k % 256) ∧
      ((0x91001420 : Nat) < 2 ^ 32 → st1.buffer 0x1000 + 256 * st1.buffer (0x1000 + 1) +
        65536 * st1.buffer (0x1000 + 2) + 16777216 * st1.buffer (0x1000 + 3) = 0x91001420) ∧
      (∀ a, a < 0x1000 ∨ 0x1000 + 4 ≤ a → st1.buffer a = exampleEncodeState.buffer a) ∧
      st1.encoder = ⟨0x1000, []⟩ ∧ st1.instrs = exampleEncodeState.instrs :=
  (Encode_lowered_store exampleMd exampleFunc exampleEnv exampleEncodeState exampleAdd
    0x1000 0x1000 rfl).1 true exampleAdd 0x91001420 ⟨0x1000, []⟩ rfl rfl (by decide)

/-- C26, refuted at the entry instruction of a function in a `DBG_DUMP` build run
with the `DebugBreak` flag set for the function: the instruction is not lowered,
yet `Encode` returns 4 and stores the word of a `DEBUGBREAK` at `pc`. -/
theorem Encode_not_lowered_debug_break :
    exampleEntry.IsLowered = false ∧
    ∃ st1 : EncodeState,
      Encode exampleMd exampleFunc exampleDebugEnv exampleEncodeState exampleEntry
        0x1000 0x1000 = .ok (4, exampleEntry, st1) ∧
      exampleEncodeState.buffer 0x1000 = 0 ∧ st1.buffer 0x1000 = 0x1F :=
  ⟨rfl, _, rfl, rfl, rfl⟩

/-- C26, amended.  Let the instruction be not lowered, and let the debug break of
the `DBG_DUMP` block not apply (the build has no `DBG_DUMP`, or the instruction
is not the entry instruction, or the `DebugBreak` flag does not name the
function).  Then whenever `Encode` returns, it returns 0 and leaves the
instruction, the code memory and the relocation list unchanged.  It does return
on an instruction that is not a label, and on a label that is not an inlinee
entry, whose recorded PC becomes `pc` (and whose offset in the buffer is handed
to the unwind info); on an inlinee entry label it returns, with the encoded
call info as the label's offset, exactly when `InlineeCallInfo::Encode`
succeeds, and fails with a fatal assertion otherwise. -/
theorem Encode_not_lowered (md : MdDecls) (func : Func) (env : EncodeEnv) (st : EncodeState)
    (instr : Instr) (pc beginCodeAddress : Nat) (hlow : instr.isLowered = false)
    (hdbg : (env.DBG_DUMP && (instr.IsEntryInstr && env.DebugBreak)) = false) :
    (∀ (n : Nat) (instr1 : Instr) (st1 : EncodeState),
      Encode md func env st instr pc beginCodeAddress = .ok (n, instr1, st1) →
      n = 0 ∧ instr1 = instr ∧ st1.buffer = st.buffer ∧
      st1.encoder.m_relocList = st.encoder.m_relocList ∧ st1.encoder.m_pc = pc) ∧
    (instr.IsLabelInstr = false →
      Encode md func env st instr pc beginCodeAddress =
        .ok (0, instr, { st with encoder := { st.encoder with m_pc := pc } })) ∧
    (∀ (self : LabelRef) (label : LabelInstr),
      instr.kind = .label self → st.instrs self = some label →
      instr.isInlineeEntryInstr = false →
      ∃ st1 : EncodeState,
        Encode md func env st instr pc beginCodeAddress = .ok (0, instr, st1) ∧
        st1.instrs self = some { label with m_pc := pc } ∧
        (∀ other, other ≠ self → st1.instrs other = st.instrs other) ∧
        st1.unwindLabelOffsets =
          (label.m_id, toUInt32 ((pc : Int) - env.m_encodeBuffer)) :: st.unwindLabelOffsets) ∧
    (∀ (self : LabelRef) (label : LabelInstr),
      instr.kind = .label self → st.instrs self = some label →
      instr.isInlineeEntryInstr = true →
      Encode md func env st instr pc beginCodeAddress =
        if (env.InlineeCallInfo_Encode label.m_offset
            (toUInt64 ((pc : Int) - env.m_encodeBuffer))).1 = true then
          .ok (0, instr, { st with
            encoder := { st.encoder with m_pc := pc },
            instrs := (st.instrs.set self { label with m_offset :=
              (toUInt32 (env.InlineeCallInfo_Encode label.m_offset
                (toUInt64 ((pc : Int) - env.m_encodeBuffer))).2).toNat }) })
        else .error .assertion) := by
  have hE : Encode md func env st instr pc beginCodeAddress =
      (EncodeLabel env { st with encoder := { st.encoder with m_pc := pc } } instr).map
        (fun st0 => (0, instr, st0)) := by
    simp only [Encode, Instr.IsLowered, hlow, hdbg, beq_self_eq_true, if_true, bind,
      Except.bind, pure, Except.pure, Except.map]
    cases EncodeLabel env { st with encoder := { st.encoder with m_pc := pc } } instr <;> simp
  refine ⟨?_, ?_, ?_, ?_⟩
  · intro n instr1 st1 h
    rw [hE] at h
    cases hlab : EncodeLabel env { st with encoder := { st.encoder with m_pc := pc } } instr with
    | error f =>
      rw [hlab] at h
      cases h
    | ok st0 =>
      rw [hlab] at h
      simp only [Except.map, Except.ok.injEq, Prod.mk.injEq] at h
      obtain ⟨h1, h2, h3⟩ := h
      subst h3
      obtain ⟨h4, h5⟩ := EncodeLabel_ok env _ st0 instr hlab
      exact ⟨h1.symm, h2.symm, h5, by rw [h4], by rw [h4]⟩
  · intro hlab
    rw [hE]
    simp [EncodeLabel, hlab, Except.map, pure, Except.pure]
  · intro self label hkind htab hinl
    refine ⟨{ st with
      encoder := { st.encoder with m_pc := pc },
      instrs := (st.instrs.set self (label.SetPC pc)),
      unwindLabelOffsets :=
        ((label.m_id, toUInt32 ((pc : Int) - env.m_encodeBuffer)) :: st.unwindLabelOffsets) },
      ?_, ?_, ?_, rfl⟩
    · rw [hE]
      simp [EncodeLabel, Instr.IsLabelInstr, Instr.AsLabelInstr, AsLabelInstr, hkind, htab,
        hinl, Except.map, bind, Except.bind, pure, Except.pure]
    · simp [InstrTable.set, LabelInstr.SetPC]
    · intro other ho
      simp [InstrTable.set, ho]
  · intro self label hkind htab hinl
    rw [hE]
    by_cases hres : (env.InlineeCallInfo_Encode label.m_offset
        (toUInt64 ((pc : Int) - env.m_encodeBuffer))).1 = true
    · simp [EncodeLabel, Instr.IsLabelInstr, Instr.AsLabelInstr, AsLabelInstr, hkind, htab,
        hinl, hres, Assert, LabelInstr.GetOffset, LabelInstr.ResetOffset, Except.map, bind,
        Except.bind, pure, Except.pure]
    · simp [EncodeLabel, Instr.IsLabelInstr, Instr.AsLabelInstr, AsLabelInstr, hkind, htab,
        hinl, hres, Assert, LabelInstr.GetOffset, LabelInstr.ResetOffset, Except.map, bind,
        Except.bind, pure, Except.pure]

/-- C26, amended, at the label `L7` encoded at `0x1008`: `Encode` returns 0 and
the label's PC becomes `0x1008`; and at the entry instruction in a build without
`DBG_DUMP`: `Encode` returns 0. -/
theorem Encode_not_lowered_witness :
    (∃ st1 : EncodeState,
      Encode exampleMd exampleFunc exampleEnv exampleEncodeState exampleLabel 0x1008 0x1000 =
        .ok (0, exampleLabel, st1) ∧
      st1.instrs 7 = some { m_pc := 0x1008, m_offset := 0, m_id := 3 } ∧
      (∀ other, other ≠ 7 → st1.instrs other = exampleEncodeState.instrs other) ∧
      st1.unwindLabelOffsets = [(3, 8)]) ∧
    Encode exampleMd exampleFunc exampleEnv exampleEncodeState exampleEntry 0x1000 0x1000 =
      .ok (0, exampleEntry, { exampleEncodeState with encoder := ⟨0x1000, []⟩ }) :=
  ⟨(Encode_not_lowered exampleMd exampleFunc exampleEnv exampleEncodeState exampleLabel
      0x1008 0x1000 rfl rfl).2.2.1 7 { m_id := 3 } rfl rfl rfl,
   (Encode_not_lowered exampleMd exampleFunc exampleEnv exampleEncodeState exampleEntry
      0x1000 0x1000 rfl rfl).2.1 rfl⟩

/-- Result of `TryConstFold` on a `MOV` with a destination, for an operand whose
symbol is a constant. -/
theorem TryConstFold_MOV (decls : FoldDecls) (instr : Instr) (regOpnd : RegOpndPtr)
    (newSrcAddr : Nat) (d k : Opnd) (hconst : regOpnd.m_symIsConst = true)
    (hk : regOpnd.m_symConstOpnd = some k) (hdst : instr.m_dst = some d)
    (hop : instr.m_opcode = .MOV) :
    TryConstFold decls instr regOpnd newSrcAddr =
      if instr.GetSrc1Ptr = some regOpnd.addr ∧ d.IsRegOpnd = true ∧
          k.GetSize ≤ regOpnd.GetSize then
        .ok (true, decls.LegalizeInstr
          { instr with m_src1 := some k, m_src1Addr := newSrcAddr } false)
      else .ok (false, instr) := by
  simp only [TryConstFold, hconst, hk, hdst, hop, Instr.GetDst, Instr.ReplaceSrc, deref, Assert,
    bind, Except.bind, pure, Except.pure]
  by_cases h1 : instr.GetSrc1Ptr = some regOpnd.addr
  · by_cases h2 : d.IsRegOpnd = true
    · by_cases h3 : k.GetSize ≤ regOpnd.GetSize
      · have h3n : ¬ k.GetSize > regOpnd.GetSize := by omega
        simp [h1, h2, h3, h3n]
      · have h3n : k.GetSize > regOpnd.GetSize := by omega
        simp [h1, h2, h3, h3n]
    · simp [h1, h2]
  · simp [h1]

/-- Result of `TryConstFold` on an opcode other than `MOV`. -/
theorem TryConstFold_other (decls : FoldDecls) (instr : Instr) (regOpnd : RegOpndPtr)
    (newSrcAddr : Nat) (hconst : regOpnd.m_symIsConst = true)
    (hop : instr.m_opcode ≠ .MOV) :
    TryConstFold decls instr regOpnd newSrcAddr = .ok (false, instr) := by
  simp only [TryConstFold, hconst, Assert, if_true, bind, Except.bind, pure, Except.pure]

/-- Result of `TryFold` on an instruction with a destination. -/
theorem TryFold_eq (decls : FoldDecls) (instr : Instr) (regOpnd : RegOpndPtr)
    (newSrcAddr : Nat) (d : Opnd) (hdst : instr.m_dst = some d) :
    TryFold decls instr regOpnd newSrcAddr =
      if decls.IsAssign instr = true ∧ d.IsRegOpnd = true ∧
          instr.GetSrc1Ptr = some regOpnd.addr then
        .ok (true, decls.LegalizeInstr
          { instr with m_src1 := some (.sym (SymOpnd.New regOpnd.m_sym regOpnd.GetType)),
                       m_src1Addr := newSrcAddr } false)
      else .ok (false, instr) := by
  simp only [TryFold, hdst, Instr.GetDst, Instr.ReplaceSrc, deref, Assert, bind, Except.bind,
    pure, Except.pure]
  by_cases h0 : decls.IsAssign instr = true
  · by_cases h2 : d.IsRegOpnd = true
    · by_cases h1 : instr.GetSrc1Ptr = some regOpnd.addr
      · simp [h0, h1, h2]
      · have h1n : ¬ some regOpnd.addr = instr.GetSrc1Ptr := fun h => h1 h.symm
        simp [h0, h1, h1n, h2]
    · simp [h0, h2]
  · simp [h0]

/-- C27. For a register operand `reg` whose symbol is a constant (the function
asserts it) and an instruction with a destination, `TryConstFold(instr, reg)`
returns true if and only if the opcode is `MOV`, the first source is the operand
object `reg`, the destination is a register operand and the size of the
symbol's constant operand does not exceed `reg`'s size.  It then leaves the
instruction that the legalizer makes of `instr` with the constant operand as
first source; in every other case it returns false and leaves `instr` as it
was. -/
theorem TryConstFold_result (decls : FoldDecls) (instr : Instr) (regOpnd : RegOpndPtr)
    (newSrcAddr : Nat) (d k : Opnd) (hconst : regOpnd.m_symIsConst = true)
    (hk : regOpnd.m_symConstOpnd = some k) (hdst : instr.m_dst = some d) :
    ((∃ instr1, TryConstFold decls instr regOpnd newSrcAddr = .ok (true, instr1)) ↔
      (instr.m_opcode = .MOV ∧ instr.GetSrc1Ptr = some regOpnd.addr ∧ d.IsRegOpnd = true ∧
        k.GetSize ≤ regOpnd.GetSize)) ∧
    (instr.m_opcode = .MOV ∧ instr.GetSrc1Ptr = some regOpnd.addr ∧ d.IsRegOpnd = true ∧
        k.GetSize ≤ regOpnd.GetSize →
      TryConstFold decls instr regOpnd newSrcAddr =
        .ok (true, decls.LegalizeInstr
          { instr with m_src1 := some k, m_src1Addr := newSrcAddr } false)) ∧
    (¬ (instr.m_opcode = .MOV ∧ instr.GetSrc1Ptr = some regOpnd.addr ∧ d.IsRegOpnd = true ∧
        k.GetSize ≤ regOpnd.GetSize) →
      TryConstFold decls instr regOpnd newSrcAddr = .ok (false, instr)) := by
  have hpos : instr.m_opcode = .MOV ∧ instr.GetSrc1Ptr = some regOpnd.addr ∧
      d.IsRegOpnd = true ∧ k.GetSize ≤ regOpnd.GetSize →
      TryConstFold decls instr regOpnd newSrcAddr =
        .ok (true, decls.LegalizeInstr
          { instr with m_src1 := some k, m_src1Addr := newSrcAddr } false) := by
    rintro ⟨hop, hrest⟩
    rw [TryConstFold_MOV decls instr regOpnd newSrcAddr d k hconst hk hdst hop, if_pos hrest]
  have hneg : ¬ (instr.m_opcode = .MOV ∧ instr.GetSrc1Ptr = some regOpnd.addr ∧
      d.IsRegOpnd = true ∧ k.GetSize ≤ regOpnd.GetSize) →
      TryConstFold decls instr regOpnd newSrcAddr = .ok (false, instr) := by
    intro hn
    by_cases hop : instr.m_opcode = .MOV
    · rw [TryConstFold_MOV decls instr regOpnd newSrcAddr d k hconst hk hdst hop,
        if_neg (fun hrest => hn ⟨hop, hrest⟩)]
    · exact TryConstFold_other decls instr regOpnd newSrcAddr hconst hop
  refine ⟨⟨?_, fun hc => ⟨_, hpos hc⟩⟩, hpos, hneg⟩
  rintro ⟨instr1, h1⟩
  by_contra hn
  rw [hneg hn] at h1
  simp at h1

/-- C27, at `MOV x0, x1` with `x1` holding the constant 42: folding the first
source succeeds and leaves `MOV x0, #42`; folding an operand object that is not
the first source returns false and leaves the instruction as it was. -/
theorem TryConstFold_result_witness :
    TryConstFold exampleFoldDecls exampleMov exampleConstReg 0x7000 =
      .ok (true, { exampleMov with m_src1 := some (.imm ⟨42, .TyInt32⟩),
                                   m_src1Addr := 0x7000 }) ∧
    TryConstFold exampleFoldDecls exampleMov exampleOtherReg 0x7000 = .ok (false, exampleMov) :=
  ⟨(TryConstFold_result exampleFoldDecls exampleMov exampleConstReg 0x7000
      (.reg ⟨0, .TyInt64⟩) (.imm ⟨42, .TyInt32⟩) rfl rfl rfl).2.1
      ⟨rfl, rfl, rfl, by decide⟩,
   (TryConstFold_result exampleFoldDecls exampleMov exampleOtherReg 0x7000
      (.reg ⟨0, .TyInt64⟩) (.imm ⟨42, .TyInt32⟩) rfl rfl rfl).2.2
      (by simp [exampleMov, exampleOtherReg, exampleConstReg, Instr.GetSrc1Ptr])⟩

/-- C28. For an instruction with a destination, `TryFold(instr, reg)` returns true
if and only if `instr` is an assignment (`LowererMD::IsAssign`), its destination
is a register operand and its first source is the operand object `reg`.  It then
leaves the instruction that the legalizer makes of `instr` with, as first
source, the symbol operand for `reg`'s symbol with `reg`'s type, whose size is
`reg`'s size; in every other case it returns false and leaves `instr` as it
was. -/
theorem TryFold_result (decls : FoldDecls) (instr : Instr) (regOpnd : RegOpndPtr)
    (newSrcAddr : Nat) (d : Opnd) (hdst : instr.m_dst = some d) :
    ((∃ instr1, TryFold decls instr regOpnd newSrcAddr = .ok (true, instr1)) ↔
      (decls.IsAssign instr = true ∧ d.IsRegOpnd = true ∧
        instr.GetSrc1Ptr = some regOpnd.addr)) ∧
    (decls.IsAssign instr = true ∧ d.IsRegOpnd = true ∧
        instr.GetSrc1Ptr = some regOpnd.addr →
      TryFold decls instr regOpnd newSrcAddr =
        .ok (true, decls.LegalizeInstr
          { instr with m_src1 := some (.sym ⟨regOpnd.m_sym, 0, regOpnd.opnd.m_type⟩),
                       m_src1Addr := newSrcAddr } false)) ∧
    (Opnd.sym ⟨regOpnd.m_sym, 0, regOpnd.opnd.m_type⟩).GetSize =
      (Opnd.reg regOpnd.opnd).GetSize ∧
    (¬ (decls.IsAssign instr = true ∧ d.IsRegOpnd = true ∧
        instr.GetSrc1Ptr = some regOpnd.addr) →
      TryFold decls instr regOpnd newSrcAddr = .ok (false, instr)) := by
  have hE := TryFold_eq decls instr regOpnd newSrcAddr d hdst
  refine ⟨⟨?_, fun hc => ⟨_, by rw [hE, if_pos hc]⟩⟩, fun hc => by rw [hE, if_pos hc]; rfl,
    rfl, fun hn => by rw [hE, if_neg hn]⟩
  rintro ⟨instr1, h1⟩
  by_contra hn
  rw [hE, if_neg hn] at h1
  simp at h1

/-- C28, at `MOV x0, x1`: folding the first source succeeds and leaves a `MOV`
from the stack slot of `x1`'s symbol, 8 bytes wide like `x1`; folding an operand
object that is not the first source returns false and leaves the instruction as
it was. -/
theorem TryFold_result_witness :
    TryFold exampleFoldDecls exampleMov exampleConstReg 0x7000 =
      .ok (true, { exampleMov with m_src1 := some (.sym ⟨{ m_offset := 16 }, 0, .TyInt64⟩),
                                   m_src1Addr := 0x7000 }) ∧
    TryFold exampleFoldDecls exampleMov exampleOtherReg 0x7000 = .ok (false, exampleMov) :=
  ⟨(TryFold_result exampleFoldDecls exampleMov exampleConstReg 0x7000
      (.reg ⟨0, .TyInt64⟩) rfl).2.1 ⟨rfl, rfl, rfl⟩,
   (TryFold_result exampleFoldDecls exampleMov exampleOtherReg 0x7000
      (.reg ⟨0, .TyInt64⟩) rfl).2.2.2
      (by simp [exampleMov, exampleOtherReg, exampleConstReg, Instr.GetSrc1Ptr])⟩

/-- C31. For every `x` that is a multiple of 4 and whose arithmetic shift `x >> 1`
fits in a signed 26-bit integer, `BranchOffset_26(x)` returns the low 32 bits of
`x >> 2`, and that result read as a signed 32-bit integer and multiplied by 4 is
`x`; for every `x` that violates either condition the call is a fatal
assertion.  (This holds for every integer `x`, in particular for every
`int64`.) -/
theorem BranchOffset_26_result (x : Int) :
    (x % 4 = 0 ∧ -2 ^ 25 ≤ x / 2 ∧ x / 2 < 2 ^ 25 →
      BranchOffset_26 x = .ok (x / 4 % 2 ^ 32) ∧ toInt32 (x / 4 % 2 ^ 32) * 4 = x) ∧
    (¬ (x % 4 = 0 ∧ -2 ^ 25 ≤ x / 2 ∧ x / 2 < 2 ^ 25) →
      BranchOffset_26 x = .error .assertion) := by
  have hE : BranchOffset_26 x =
      if -2 ^ 25 ≤ x / 2 ∧ x / 2 < 2 ^ 25 then
        if x % 4 = 0 then .ok (x / 4 % 2 ^ 32) else .error .assertion
      else .error .assertion := by
    simp only [BranchOffset_26, IS_CONST_INT26, Assert, toUInt32, bind, Except.bind, pure,
      Except.pure, decide_eq_true_eq]
    have e1 : x / 2 ^ 1 = x / 2 := by omega
    have e2 : x % 2 ^ 2 = x % 4 := by omega
    have e3 : x / 2 ^ 2 = x / 4 := by omega
    rw [e1, e2, e3]
    by_cases hr : (-2 ^ 25 ≤ x / 2 ∧ x / 2 < 2 ^ 25)
    · by_cases h4 : x % 4 = 0
      · rw [if_pos hr, if_pos hr, if_pos h4, if_pos h4]
      · rw [if_pos hr, if_pos hr, if_neg h4, if_neg h4]
    · rw [if_neg hr, if_neg hr]
  refine ⟨?_, ?_⟩
  · rintro ⟨h4, hlo, hhi⟩
    refine ⟨?_, ?_⟩
    · rw [hE, if_pos ⟨hlo, hhi⟩, if_pos h4]
    · simp only [toInt32]
      omega
  · intro hn
    rw [hE]
    by_cases hr : (-2 ^ 25 ≤ x / 2 ∧ x / 2 < 2 ^ 25)
    · rw [if_pos hr, if_neg (fun h => hn ⟨h, hr⟩)]
    · rw [if_neg hr]

/-- C31, at the forward offset `0x1000` (word offset `0x400`), at the backward
offset `-8` (word offset `0xFFFFFFFE`, which is -2 as a signed 32-bit integer),
at the misaligned offset 6 and at the offset `2 ^ 26`, which is out of range. -/
theorem BranchOffset_26_result_witness :
    (BranchOffset_26 0x1000 = .ok 0x400 ∧ toInt32 0x400 * 4 = 0x1000) ∧
    (BranchOffset_26 (-8) = .ok 0xFFFFFFFE ∧ toInt32 0xFFFFFFFE * 4 = -8) ∧
    BranchOffset_26 6 = .error .assertion ∧
    BranchOffset_26 (2 ^ 26) = .error .assertion :=
  ⟨(BranchOffset_26_result 0x1000).1 (by decide),
   (BranchOffset_26_result (-8)).1 (by decide),
   (BranchOffset_26_result 6).2 (by decide),
   (BranchOffset_26_result (2 ^ 26)).2 (by decide)⟩

/-- An instruction that `CanonicalizeLea` returns has the opcode `ADD`. -/
theorem CanonicalizeLea_opcode (md : MdDecls) (func : Func) (instr instr1 : Instr)
    (h : CanonicalizeLea md func instr = .ok instr1) : instr1.m_opcode = .ADD := by
  simp only [CanonicalizeLea, Instr.UnlinkSrc1, Instr.SetSrc1, Instr.SetSrc2, bind, Except.bind,
    pure, Except.pure] at h
  repeat' split at h
  all_goals cases h
  all_goals rfl

/-- The instruction that `CanonicalizeInstr` leaves for a lowered instruction
is not an `LEA`: an `LEA` has become an `ADD`, every other instruction is as it
was. -/
theorem CanonicalizeInstr_opcode (md : MdDecls) (func : Func) (instr instr1 : Instr) (b : Bool)
    (hlow : instr.isLowered = true)
    (h : CanonicalizeInstr md func instr = .ok (b, instr1)) :
    instr1.m_opcode ≠ .LEA ∧ (instr.m_opcode = .LEA → instr1.m_opcode = .ADD) ∧
    (instr.m_opcode ≠ .LEA → instr1 = instr) := by
  have hcases : instr.m_opcode = .LEA ∨ instr.m_opcode ≠ .LEA := Classical.em _
  rcases hcases with hop | hop
  · rw [CanonicalizeInstr_of_LEA md func instr hlow hop] at h
    cases hc : CanonicalizeLea md func instr with
    | error f =>
      rw [hc] at h
      cases h
    | ok i =>
      rw [hc] at h
      simp only [Except.ok.injEq, Prod.mk.injEq] at h
      have hadd := CanonicalizeLea_opcode md func instr i hc
      rw [← h.2]
      exact ⟨(by rw [hadd]; intro hx; cases hx), fun _ => hadd, fun hn => absurd hop hn⟩
  · have h2 : CanonicalizeInstr md func instr = .ok (true, instr) := by
      simp only [CanonicalizeInstr, Instr.IsLowered, hlow, Bool.not_true, Bool.false_eq_true,
        if_false, pure, Except.pure]
    rw [h2] at h
    simp only [Except.ok.injEq, Prod.mk.injEq] at h
    rw [← h.2]
    exact ⟨hop, fun hx => absurd hx hop, fun _ => rfl⟩

/-- C32. On a lowered instruction `Encode` calls `GenerateEncoding` only when
canonicalization has returned, and then on the canonicalized instruction, whose
opcode is not `LEA` (an `LEA` has become an `ADD`, any other instruction is as it
was): what `Encode` returns is determined by that one call.  If
canonicalization fails, `Encode` fails with the same error and the dispatch is
not entered.  On an instruction that is not lowered the only use of the lowered
part is the one of the `DBG_DUMP` block, on a `DEBUGBREAK`.  So the `LEA` case of
the switch is not reached from `Encode`. -/
theorem Encode_never_dispatches_LEA (md : MdDecls) (func : Func) (env : EncodeEnv)
    (st : EncodeState) (instr : Instr) (pc beginCodeAddress : Nat)
    (hlow : instr.isLowered = true) :
    (∀ f : Fatal, CanonicalizeInstr md func instr = .error f →
      Encode md func env st instr pc beginCodeAddress = .error f) ∧
    (∀ (b : Bool) (instr1 : Instr), CanonicalizeInstr md func instr = .ok (b, instr1) →
      instr1.m_opcode ≠ .LEA ∧ (instr.m_opcode = .LEA → instr1.m_opcode = .ADD) ∧
      (instr.m_opcode ≠ .LEA → instr1 = instr) ∧
      Encode md func env st instr pc beginCodeAddress =
        match GenerateEncoding md func { st.encoder with m_pc := pc } instr1 pc with
        | .error f => .error f
        | .ok (w, enc1) =>
          if w = 0 then .ok (0, instr1, { st with encoder := enc1 })
          else .ok (MachInt, instr1,
            { st with encoder := enc1, buffer := storeDWORD st.buffer enc1.m_pc w })) ∧
    (∀ other : Instr, other.isLowered = false →
      Encode md func env st other pc beginCodeAddress =
        match EncodeLabel env { st with encoder := { st.encoder with m_pc := pc } } other with
        | .error f => .error f
        | .ok st0 =>
          if (env.DBG_DUMP && (other.IsEntryInstr && env.DebugBreak)) = true then
            match EncodeLowered md func st0 { m_opcode := .DEBUGBREAK } with
            | .error f => .error f
            | .ok (n, _, st1) => .ok (n, other, st1)
          else .ok (0, other, st0)) := by
  refine ⟨fun f hc => ?_, fun b instr1 hc => ?_, fun other hl => ?_⟩
  · rw [Encode_of_lowered md func env st instr pc beginCodeAddress hlow]
    simp only [EncodeLowered, hc, bind, Except.bind]
  · obtain ⟨h1, h2, h3⟩ := CanonicalizeInstr_opcode md func instr instr1 b hlow hc
    refine ⟨h1, h2, h3, ?_⟩
    rw [Encode_of_lowered md func env st instr pc beginCodeAddress hlow]
    cases hg : GenerateEncoding md func { st.encoder with m_pc := pc } instr1 pc with
    | error f =>
      simp only [EncodeLowered, hc, hg, bind, Except.bind]
    | ok r =>
      obtain ⟨w, enc1⟩ := r
      exact EncodeLowered_eq md func _ instr instr1 b w enc1 hc hg
  · simp only [Encode, Instr.IsLowered, hl, beq_self_eq_true, if_true, bind, Except.bind, pure,
      Except.pure]
    cases EncodeLabel env { st with encoder := { st.encoder with m_pc := pc } } other with
    | error f => rfl
    | ok st0 =>
      simp only []
      split
      · cases EncodeLowered md func st0 { m_opcode := .DEBUGBREAK } <;> rfl
      · rfl

/-- C32, at `LEA x0, <local>` encoded at `0x1000`: canonicalization leaves
`ADD x0, sp, #48`, and `Encode` returns 4 with the word of that `ADD`, where
`GenerateEncoding` on the `LEA` itself is a fatal assertion. -/
theorem Encode_never_dispatches_LEA_witness :
    CanonicalizeInstr exampleMd exampleFunc exampleLeaSym =
      .ok (true, { exampleLeaSym with
        m_opcode := .ADD,
        m_src1 := some (.reg ⟨31, .TyInt64⟩),
        m_src2 := some (.imm ⟨48, .TyInt64⟩) }) ∧
    (∃ st1, Encode exampleMd exampleFunc exampleEnv exampleEncodeState exampleLeaSym
        0x1000 0x1000 =
      .ok (4, { exampleLeaSym with
        m_opcode := .ADD,
        m_src1 := some (.reg ⟨31, .TyInt64⟩),
        m_src2 := some (.imm ⟨48, .TyInt64⟩) }, st1)) ∧
    GenerateEncoding exampleMd exampleFunc exampleState exampleLeaSym 64 = .error .assertion :=
  ⟨rfl,
   ⟨_, ((Encode_never_dispatches_LEA exampleMd exampleFunc exampleEnv exampleEncodeState
      exampleLeaSym 0x1000 0x1000 rfl).2.1 true _ rfl).2.2.2.trans rfl⟩,
   rfl⟩

/-- Behaviour of `BaseAndOffsetFromSym` on a symbol that is not a parameter slot,
in terms of the offset `o` it has computed when it reaches the cross-checks of
the debug build. -/
theorem BaseAndOffsetFromSym_checked (md : MdDecls) (symOpnd : SymOpnd) (func : Func) (o : Int)
    (hparam : symOpnd.m_sym.m_isParamSym = false)
    (ho : o = toInt32 (symOpnd.m_sym.m_offset + symOpnd.m_offset
          + (if func.m_localsPointer = md.RegSP then
              func.m_argSlotsForFunctionsCalled * md.MachRegInt else 0)
          + (if func.m_hasInlinee = true ∧ (symOpnd.m_sym.m_isArgSlotSym = false ∨
                symOpnd.m_sym.m_isOrphanedArg = true) then
              func.m_inlineeArgumentStackSize else 0))) :
    BaseAndOffsetFromSym md symOpnd func =
      if 0 ≤ o ∧
          (func.m_localsPointer = md.RegSP →
            toUInt32 (func.m_argSlotsForFunctionsCalled * md.MachRegInt) ≤ toUInt32 o) ∧
          (func.m_hasInlinee = true → func.m_localsPointer = md.RegSP ∧
            (if symOpnd.m_sym.m_isArgSlotSym = true ∧ symOpnd.m_sym.m_isOrphanedArg = false
             then symOpnd.m_sym.m_isInlinedArgSlot = true
             else symOpnd.m_sym.m_allocated = true))
      then .ok (func.m_localsPointer, o) else .error .assertion := by
  subst ho
  simp only [BaseAndOffsetFromSym, StackSym.IsParamSlotSym, StackSym.IsArgSlotSym,
    StackSym.IsAllocated, Func.GetLocalsPointer, Func.HasInlinee,
    Func.GetInlineeArgumentStackSize, hparam, Assert, bind, Except.bind, pure, Except.pure]
  by_cases hsp : func.m_localsPointer = md.RegSP <;>
  by_cases hin : func.m_hasInlinee = true <;>
  by_cases harg : symOpnd.m_sym.m_isArgSlotSym = true <;>
  by_cases horph : symOpnd.m_sym.m_isOrphanedArg = true <;>
  simp [hsp, hin, harg, horph, toInt32_add_toInt32] <;>
  split_ifs <;> simp_all

/-- C33, refuted at a parameter slot: in a frame addressed from `sp` with a
16-byte outgoing-argument area, `BaseAndOffsetFromSym` returns the base `sp` and
the offset 8, which is smaller than the area; no assertion fails. -/
theorem BaseAndOffsetFromSym_param_below_args :
    BaseAndOffsetFromSym exampleMd exampleLowParam exampleSmallFunc = .ok (31, 8) ∧
    exampleMd.RegSP = 31 ∧
    (exampleSmallFunc.m_argSlotsForFunctionsCalled : Int) * exampleMd.MachRegInt = 16 ∧
    (8 : Int) < 16 :=
  ⟨rfl, rfl, rfl, by decide⟩

/-- C33, amended.  For a symbol that is not a parameter slot, in the debug build:
whenever `BaseAndOffsetFromSym` returns, the base is the locals pointer, the
offset is non-negative and, if the base is `RegSP`, the offset is not smaller
than `m_argSlotsForFunctionsCalled * MachRegInt` (compared as unsigned 32-bit
values, as the assertion does); a computed offset that violates either bound is
a fatal assertion; and the function does return when the bounds hold and the
function has no inlinee. -/
theorem BaseAndOffsetFromSym_local_bounds (md : MdDecls) (symOpnd : SymOpnd) (func : Func)
    (o : Int) (hparam : symOpnd.m_sym.m_isParamSym = false)
    (ho : o = toInt32 (symOpnd.m_sym.m_offset + symOpnd.m_offset
          + (if func.m_localsPointer = md.RegSP then
              func.m_argSlotsForFunctionsCalled * md.MachRegInt else 0)
          + (if func.m_hasInlinee = true ∧ (symOpnd.m_sym.m_isArgSlotSym = false ∨
                symOpnd.m_sym.m_isOrphanedArg = true) then
              func.m_inlineeArgumentStackSize else 0))) :
    (∀ (baseReg : RegNum) (offset : Int),
      BaseAndOffsetFromSym md symOpnd func = .ok (baseReg, offset) →
      baseReg = func.m_localsPointer ∧ offset = o ∧ 0 ≤ offset ∧
      (baseReg = md.RegSP →
        toUInt32 (func.m_argSlotsForFunctionsCalled * md.MachRegInt) ≤ offset) ∧
      (baseReg = md.RegSP → 0 ≤ func.m_argSlotsForFunctionsCalled * md.MachRegInt →
        func.m_argSlotsForFunctionsCalled * md.MachRegInt < 2 ^ 32 →
        func.m_argSlotsForFunctionsCalled * md.MachRegInt ≤ offset)) ∧
    (o < 0 ∨ (func.m_localsPointer = md.RegSP ∧
        toUInt32 o < toUInt32 (func.m_argSlotsForFunctionsCalled * md.MachRegInt)) →
      BaseAndOffsetFromSym md symOpnd func = .error .assertion) ∧
    (func.m_hasInlinee = false → 0 ≤ o →
      (func.m_localsPointer = md.RegSP →
        toUInt32 (func.m_argSlotsForFunctionsCalled * md.MachRegInt) ≤ toUInt32 o) →
      BaseAndOffsetFromSym md symOpnd func = .ok (func.m_localsPointer, o)) := by
  have hE := BaseAndOffsetFromSym_checked md symOpnd func o hparam ho
  have hrange : -2 ^ 31 ≤ o ∧ o < 2 ^ 31 := by
    rw [ho]
    simp only [toInt32]
    omega
  refine ⟨?_, ?_, ?_⟩
  · intro baseReg offset h
    rw [hE] at h
    by_cases hc : 0 ≤ o ∧
        (func.m_localsPointer = md.RegSP →
          toUInt32 (func.m_argSlotsForFunctionsCalled * md.MachRegInt) ≤ toUInt32 o) ∧
        (func.m_hasInlinee = true → func.m_localsPointer = md.RegSP ∧
          (if symOpnd.m_sym.m_isArgSlotSym = true ∧ symOpnd.m_sym.m_isOrphanedArg = false
           then symOpnd.m_sym.m_isInlinedArgSlot = true
           else symOpnd.m_sym.m_allocated = true))
    · rw [if_pos hc] at h
      have hb : func.m_localsPointer = baseReg := by
        injection h with h1
        exact congrArg Prod.fst h1
      have hoff : o = offset := by
        injection h with h1
        exact congrArg Prod.snd h1
      subst hb
      subst hoff
      have hu : toUInt32 o = o := by
        simp only [toUInt32]
        omega
      refine ⟨rfl, rfl, hc.1, fun hsp => ?_, fun hsp h0 h1 => ?_⟩
      · have h2 := hc.2.1 hsp
        rw [hu] at h2
        exact h2
      · have h2 := hc.2.1 hsp
        rw [hu] at h2
        have h3 : toUInt32 (func.m_argSlotsForFunctionsCalled * md.MachRegInt) =
            func.m_argSlotsForFunctionsCalled * md.MachRegInt := by
          simp only [toUInt32]
          omega
        rw [h3] at h2
        exact h2
    · rw [if_neg hc] at h
      cases h
  · intro hv
    rw [hE, if_neg]
    rintro ⟨h0, h1, _⟩
    rcases hv with hneg | ⟨hsp, hlt⟩
    · omega
    · have := h1 hsp
      omega
  · intro hin h0 h1
    rw [hE, if_pos]
    exact ⟨h0, h1, fun h => by rw [hin] at h; cases h⟩

/-- C33, amended, at the example local (base `sp`, offset 48, above the 16-byte
argument area) and at a local whose computed offset 8 lies inside the argument
area: a fatal assertion. -/
theorem BaseAndOffsetFromSym_local_bounds_witness :
    BaseAndOffsetFromSym exampleMd exampleLocal exampleFunc = .ok (31, 48) ∧
    BaseAndOffsetFromSym exampleMd exampleLowLocal exampleSmallFunc = .error .assertion :=
  ⟨(BaseAndOffsetFromSym_local_bounds exampleMd exampleLocal exampleFunc 48 rfl rfl).2.2
      rfl (by decide) (fun _ => by decide),
   (BaseAndOffsetFromSym_local_bounds exampleMd exampleLowLocal exampleSmallFunc 8 rfl rfl).2.1
      (Or.inr ⟨rfl, by decide⟩)⟩

/-- Behaviour of `EmitBitfield` on a register destination and first source of
equal size and an immediate second source. -/
theorem EmitBitfield_eq (md : MdDecls) (instr : Instr) (emitter emitter64 : EncFn)
    (d s : RegOpnd) (c : IntConstOpnd)
    (hdst : instr.m_dst = some (.reg d)) (hsrc1 : instr.m_src1 = some (.reg s))
    (hsrc2 : instr.m_src2 = some (.imm c)) (hsize : TySize s.m_type = TySize d.m_type) :
    EmitBitfield md instr emitter emitter64 =
      if TySize d.m_type = 8 then
        .ok (md.emit ⟨emitter64, [.reg (md.RegEncode d.m_reg), .reg (md.RegEncode s.m_reg),
          .imm (c.m_value % 64), .imm (c.m_value / 2 ^ 16 % 64)]⟩)
      else if TySize d.m_type = 4 then
        if c.m_value % 64 < 32 ∧ c.m_value / 2 ^ 16 % 64 < 32 then
          .ok (md.emit ⟨emitter, [.reg (md.RegEncode d.m_reg), .reg (md.RegEncode s.m_reg),
            .imm (c.m_value % 64), .imm (c.m_value / 2 ^ 16 % 64)]⟩)
        else .error .assertion
      else .error .assertion := by
  have hs0 : (0 : Int) ≤ c.m_value % 64 := by omega
  have hs1 : c.m_value % 64 < 64 := by omega
  have hl0 : (0 : Int) ≤ c.m_value / 65536 % 64 := by omega
  have hl1 : c.m_value / 65536 % 64 < 64 := by omega
  simp only [EmitBitfield, Instr.GetDst, Instr.GetSrc1, Instr.GetSrc2, hdst, hsrc1, hsrc2, deref,
    Opnd.IsRegOpnd, Opnd.IsImmediateOpnd, Opnd.GetSize, Opnd.GetType, Opnd.AsRegOpnd,
    Opnd.GetImmediateValue, GetRegEncode, hsize, Assert, bind, Except.bind, pure, Except.pure]
  by_cases h8 : TySize d.m_type = 8
  · simp [h8, hs0, hs1, hl0, hl1]
  · by_cases h4 : TySize d.m_type = 4
    · by_cases hs : c.m_value % 64 < 32
      · by_cases hl : c.m_value / 65536 % 64 < 32
        · simp [h4, hs0, hl0, hs, hl]
        · simp [h4, hs0, hl0, hs, hl]
      · simp [h4, hs0, hl0, hs]
    · simp [h8, h4]

/-- C34. `BFI`, `BFXIL`, `SBFX` and `UBFX` are encoded by `EmitBitfield`, each with
its two encoders.  With a register destination and first source of equal size
`s` and an immediate second source `m`, `EmitBitfield` passes
`start = m & 0x3f` and `length = (m >> 16) & 0x3f` to the encoder.  For `s = 8`
it reaches the 64-bit encoder for every `m`; for `s = 4` it fails with a fatal
assertion if and only if `start ≥ 32` or `length ≥ 32`, and reaches the 32-bit
encoder otherwise.  Nothing else is checked: the outcome depends on `start` and
on `length` one by one, not on their sum. -/
theorem EmitBitfield_ranges (md : MdDecls) (func : Func) (st : EncoderState) (instr : Instr)
    (emitter emitter64 : EncFn) (d s : RegOpnd) (c : IntConstOpnd)
    (hdst : instr.m_dst = some (.reg d)) (hsrc1 : instr.m_src1 = some (.reg s))
    (hsrc2 : instr.m_src2 = some (.imm c)) (hsize : TySize s.m_type = TySize d.m_type) :
    (instr.m_opcode = .BFI → dispatch md func st instr =
      keepState st (EmitBitfield md instr .EmitBfi .EmitBfi64)) ∧
    (instr.m_opcode = .BFXIL → dispatch md func st instr =
      keepState st (EmitBitfield md instr .EmitBfxil .EmitBfxil64)) ∧
    (instr.m_opcode = .SBFX → dispatch md func st instr =
      keepState st (EmitBitfield md instr .EmitSbfx .EmitSbfx64)) ∧
    (instr.m_opcode = .UBFX → dispatch md func st instr =
      keepState st (EmitBitfield md instr .EmitUbfx .EmitUbfx64)) ∧
    (TySize d.m_type = 8 →
      EmitBitfield md instr emitter emitter64 =
        .ok (md.emit ⟨emitter64, [.reg (md.RegEncode d.m_reg), .reg (md.RegEncode s.m_reg),
          .imm (c.m_value % 64), .imm (c.m_value / 2 ^ 16 % 64)]⟩)) ∧
    (TySize d.m_type = 4 →
      (EmitBitfield md instr emitter emitter64 = .error .assertion ↔
        (32 ≤ c.m_value % 64 ∨ 32 ≤ c.m_value / 2 ^ 16 % 64)) ∧
      (¬ (32 ≤ c.m_value % 64 ∨ 32 ≤ c.m_value / 2 ^ 16 % 64) →
        EmitBitfield md instr emitter emitter64 =
          .ok (md.emit ⟨emitter, [.reg (md.RegEncode d.m_reg), .reg (md.RegEncode s.m_reg),
            .imm (c.m_value % 64), .imm (c.m_value / 2 ^ 16 % 64)]⟩))) := by
  have hE := EmitBitfield_eq md instr emitter emitter64 d s c hdst hsrc1 hsrc2 hsize
  refine ⟨fun h => by simp [dispatch, h], fun h => by simp [dispatch, h],
    fun h => by simp [dispatch, h], fun h => by simp [dispatch, h], ?_, ?_⟩
  · intro h8
    rw [hE, if_pos h8]
  · intro h4
    have h8 : ¬ TySize d.m_type = 8 := by omega
    rw [hE, if_neg h8, if_pos h4]
    by_cases hr : c.m_value % 64 < 32 ∧ c.m_value / 2 ^ 16 % 64 < 32
    · rw [if_pos hr]
      exact ⟨Iff.intro (fun h => by cases h) (fun h => by omega), fun _ => rfl⟩
    · rw [if_neg hr]
      exact ⟨Iff.intro (fun _ => by omega) (fun _ => rfl), fun h => by omega⟩

/-- C34, at `UBFX x0, x1, #63, #63` (encoded, although start + length exceeds 64),
at `UBFX w0, w1, #31, #31` (encoded) and at `UBFX w0, w1, #32, #1` (fatal
assertion). -/
theorem EmitBitfield_ranges_witness :
    EmitBitfield exampleMd exampleUbfxWide .EmitUbfx .EmitUbfx64 =
      .ok (exampleMd.emit ⟨.EmitUbfx64, [.reg 0, .reg 1, .imm 63, .imm 63]⟩) ∧
    EmitBitfield exampleMd exampleUbfx32 .EmitUbfx .EmitUbfx64 =
      .ok (exampleMd.emit ⟨.EmitUbfx, [.reg 0, .reg 1, .imm 31, .imm 31]⟩) ∧
    EmitBitfield exampleMd exampleUbfx32OutOfRange .EmitUbfx .EmitUbfx64 = .error .assertion :=
  ⟨(EmitBitfield_ranges exampleMd exampleFunc exampleState exampleUbfxWide .EmitUbfx .EmitUbfx64
      ⟨0, .TyInt64⟩ ⟨1, .TyInt64⟩ ⟨63 + 63 * 2 ^ 16, .TyInt64⟩ rfl rfl rfl rfl).2.2.2.2.1 rfl,
   ((EmitBitfield_ranges exampleMd exampleFunc exampleState exampleUbfx32 .EmitUbfx .EmitUbfx64
      ⟨0, .TyInt32⟩ ⟨1, .TyInt32⟩ ⟨31 + 31 * 2 ^ 16, .TyInt32⟩ rfl rfl rfl rfl).2.2.2.2.2
      rfl).2 (by decide),
   ((EmitBitfield_ranges exampleMd exampleFunc exampleState exampleUbfx32OutOfRange .EmitUbfx
      .EmitUbfx64 ⟨0, .TyInt32⟩ ⟨1, .TyInt32⟩ ⟨32 + 1 * 2 ^ 16, .TyInt32⟩ rfl rfl rfl
      rfl).2.2.2.2.2 rfl).1.2 (by decide)⟩

/-- Behaviour of `EmitOp3RegisterShifted` on three register operands of equal
size. -/
theorem EmitOp3RegisterShifted_eq (md : MdDecls) (instr : Instr)
    (shiftType : SHIFT_EXTEND_TYPE) (shiftAmount : Int) (reg32 reg64 : EncFn)
    (d s1 s2 : RegOpnd)
    (hdst : instr.m_dst = some (.reg d)) (hsrc1 : instr.m_src1 = some (.reg s1))
    (hsrc2 : instr.m_src2 = some (.reg s2))
    (h1 : TySize s1.m_type = TySize d.m_type) (h2 : TySize s2.m_type = TySize d.m_type) :
    EmitOp3RegisterShifted md instr shiftType shiftAmount reg32 reg64 =
      if TySize d.m_type = 8 then
        .ok (md.emit ⟨reg64, [.reg (md.RegEncode d.m_reg), .reg (md.RegEncode s1.m_reg),
          .regParam (md.RegEncode s2.m_reg) shiftType (shiftAmount % 64)]⟩)
      else if TySize d.m_type = 4 then
        .ok (md.emit ⟨reg32, [.reg (md.RegEncode d.m_reg), .reg (md.RegEncode s1.m_reg),
          .regParam (md.RegEncode s2.m_reg) shiftType (shiftAmount % 32)]⟩)
      else .error .assertion := by
  simp only [EmitOp3RegisterShifted, Instr.GetDst, Instr.GetSrc1, Instr.GetSrc2, hdst, hsrc1,
    hsrc2, deref, Opnd.IsRegOpnd, Opnd.GetSize, Opnd.GetType, Opnd.AsRegOpnd, GetRegEncode, h1,
    h2, Assert, bind, Except.bind, pure, Except.pure]
  by_cases h8 : TySize d.m_type = 8
  · simp [h8]
  · by_cases h4 : TySize d.m_type = 4
    · simp [h4]
    · simp [h8, h4]

/-- C35. With three register operands of equal size, `EOR_ASR31` invokes the EOR
register encoder on `(RegEncode[dst], RegEncode[src1], RegEncode[src2] ASR n)`
with `n = 63` on 8-byte operands (64-bit encoder) and `n = 31` on 4-byte
operands (32-bit encoder), the fixed amount 63 masked by the width minus one;
`SUB_LSL4` invokes the SUB register encoder with the second source extended by
`UXTX` and the amount 4 at both widths.  Operands of any other size are a
fatal assertion. -/
theorem dispatch_shifted_amounts (md : MdDecls) (func : Func) (st : EncoderState)
    (instr : Instr) (d s1 s2 : RegOpnd)
    (hdst : instr.m_dst = some (.reg d)) (hsrc1 : instr.m_src1 = some (.reg s1))
    (hsrc2 : instr.m_src2 = some (.reg s2))
    (h1 : TySize s1.m_type = TySize d.m_type) (h2 : TySize s2.m_type = TySize d.m_type) :
    (instr.m_opcode = .EOR_ASR31 →
      dispatch md func st instr =
        if TySize d.m_type = 8 then
          .ok (md.emit ⟨.EmitEorRegister64, [.reg (md.RegEncode d.m_reg),
            .reg (md.RegEncode s1.m_reg),
            .regParam (md.RegEncode s2.m_reg) .SHIFT_ASR 63]⟩, st)
        else if TySize d.m_type = 4 then
          .ok (md.emit ⟨.EmitEorRegister, [.reg (md.RegEncode d.m_reg),
            .reg (md.RegEncode s1.m_reg),
            .regParam (md.RegEncode s2.m_reg) .SHIFT_ASR 31]⟩, st)
        else .error .assertion) ∧
    (instr.m_opcode = .SUB_LSL4 →
      dispatch md func st instr =
        if TySize d.m_type = 8 then
          .ok (md.emit ⟨.EmitSubRegister64, [.reg (md.RegEncode d.m_reg),
            .reg (md.RegEncode s1.m_reg),
            .regParam (md.RegEncode s2.m_reg) .EXTEND_UXTX 4]⟩, st)
        else if TySize d.m_type = 4 then
          .ok (md.emit ⟨.EmitSubRegister, [.reg (md.RegEncode d.m_reg),
            .reg (md.RegEncode s1.m_reg),
            .regParam (md.RegEncode s2.m_reg) .EXTEND_UXTX 4]⟩, st)
        else .error .assertion) := by
  refine ⟨fun hop => ?_, fun hop => ?_⟩
  · simp only [dispatch, hop]
    rw [EmitOp3RegisterShifted_eq md instr _ _ _ _ d s1 s2 hdst hsrc1 hsrc2 h1 h2]
    by_cases h8 : TySize d.m_type = 8
    · simp only [if_pos h8]
      rfl
    · by_cases h4 : TySize d.m_type = 4
      · simp only [if_neg h8, if_pos h4]
        rfl
      · simp only [if_neg h8, if_neg h4]
        rfl
  · simp only [dispatch, hop]
    rw [EmitOp3RegisterShifted_eq md instr _ _ _ _ d s1 s2 hdst hsrc1 hsrc2 h1 h2]
    by_cases h8 : TySize d.m_type = 8
    · simp only [if_pos h8]
      rfl
    · by_cases h4 : TySize d.m_type = 4
      · simp only [if_neg h8, if_pos h4]
        rfl
      · simp only [if_neg h8, if_neg h4]
        rfl

/-- C35, at `EOR_ASR31 w0, w1, w2` (amount 31), `EOR_ASR31 x0, x1, x2` (amount 63)
and `SUB_LSL4 x0, x1, x2` (`UXTX`, amount 4). -/
theorem dispatch_shifted_amounts_witness :
    dispatch exampleMd exampleFunc exampleState exampleEorAsr32 =
      .ok (exampleMd.emit ⟨.EmitEorRegister, [.reg 0, .reg 1, .regParam 2 .SHIFT_ASR 31]⟩,
        exampleState) ∧
    dispatch exampleMd exampleFunc exampleState exampleEorAsr64 =
      .ok (exampleMd.emit ⟨.EmitEorRegister64, [.reg 0, .reg 1, .regParam 2 .SHIFT_ASR 63]⟩,
        exampleState) ∧
    dispatch exampleMd exampleFunc exampleState exampleSubLsl4 =
      .ok (exampleMd.emit ⟨.EmitSubRegister64, [.reg 0, .reg 1, .regParam 2 .EXTEND_UXTX 4]⟩,
        exampleState) :=
  ⟨(dispatch_shifted_amounts exampleMd exampleFunc exampleState exampleEorAsr32
      ⟨0, .TyInt32⟩ ⟨1, .TyInt32⟩ ⟨2, .TyInt32⟩ rfl rfl rfl rfl rfl).1 rfl,
   (dispatch_shifted_amounts exampleMd exampleFunc exampleState exampleEorAsr64
      ⟨0, .TyInt64⟩ ⟨1, .TyInt64⟩ ⟨2, .TyInt64⟩ rfl rfl rfl rfl rfl).1 rfl,
   (dispatch_shifted_amounts exampleMd exampleFunc exampleState exampleSubLsl4
      ⟨0, .TyInt64⟩ ⟨1, .TyInt64⟩ ⟨2, .TyInt64⟩ rfl rfl rfl rfl rfl).2 rfl⟩

/-- C36. For a register destination and an indirect or symbolic memory operand as
first source: when the operand is 8 bytes wide, `LDRS` and `LDR` both select the
plain 64-bit load (`EmitLdrRegister64` with an index register, `EmitLdrOffset64`
otherwise) on the same arguments, so `GenerateEncoding` returns the same word
and the same encoder object for both; for the sizes 4, 2 and 1 `LDRS` selects the
sign-extending word-to-64-bit, half-word and byte loads where `LDR` selects the
plain word, half-word and byte loads. -/
theorem GenerateEncoding_LDRS_LDR (md : MdDecls) (func : Func) (st : EncoderState)
    (instr : Instr) (pc : Nat) (r : RegOpnd) (mem : Opnd)
    (hdst : instr.m_dst = some (.reg r)) (hsrc1 : instr.m_src1 = some mem)
    (hmem : (mem.IsIndirOpnd || mem.IsSymOpnd) = true) :
    (mem.GetSize = 8 →
      GenerateEncoding md func st { instr with m_opcode := .LDRS } pc =
        GenerateEncoding md func st { instr with m_opcode := .LDR } pc) ∧
    (∀ regFn offFn plainRegFn plainOffFn : EncFn,
      ((mem.GetSize = 8 ∧ regFn = .EmitLdrRegister64 ∧ offFn = .EmitLdrOffset64 ∧
          plainRegFn = .EmitLdrRegister64 ∧ plainOffFn = .EmitLdrOffset64) ∨
       (mem.GetSize = 4 ∧ regFn = .EmitLdrswRegister64 ∧ offFn = .EmitLdrswOffset64 ∧
          plainRegFn = .EmitLdrRegister ∧ plainOffFn = .EmitLdrOffset) ∨
       (mem.GetSize = 2 ∧ regFn = .EmitLdrshRegister ∧ offFn = .EmitLdrshOffset ∧
          plainRegFn = .EmitLdrhRegister ∧ plainOffFn = .EmitLdrhOffset) ∨
       (mem.GetSize = 1 ∧ regFn = .EmitLdrsbRegister ∧ offFn = .EmitLdrsbOffset ∧
          plainRegFn = .EmitLdrbRegister ∧ plainOffFn = .EmitLdrbOffset)) →
      dispatch md func st { instr with m_opcode := .LDRS } = keepState st
        (match DecodeMemoryOpnd md func mem with
        | .error f => .error f
        | .ok d =>
          if d.result = true then
            match d.indexRegResult, d.indexScale with
            | some indexReg, some indexScale =>
              .ok (md.emit ⟨regFn, [.reg (md.RegEncode r.m_reg), .reg d.baseRegResult,
                .regParam indexReg .SHIFT_LSL indexScale]⟩)
            | _, _ => .error .nullDeref
          else
            .ok (md.emit ⟨offFn, [.reg (md.RegEncode r.m_reg), .reg d.baseRegResult,
              .imm d.offset]⟩)) ∧
      dispatch md func st { instr with m_opcode := .LDR } = keepState st
        (match DecodeMemoryOpnd md func mem with
        | .error f => .error f
        | .ok d =>
          if d.result = true then
            match d.indexRegResult, d.indexScale with
            | some indexReg, some indexScale =>
              .ok (md.emit ⟨plainRegFn, [.reg (md.RegEncode r.m_reg), .reg d.baseRegResult,
                .regParam indexReg .SHIFT_LSL indexScale]⟩)
            | _, _ => .error .nullDeref
          else
            .ok (md.emit ⟨plainOffFn, [.reg (md.RegEncode r.m_reg), .reg d.baseRegResult,
              .imm d.offset]⟩))) := by
  have hS : dispatch md func st { instr with m_opcode := .LDRS } = keepState st
      (EmitLoadStore md func (some mem) (some (.reg r))
        .EmitLdrsbRegister .EmitLdrshRegister .EmitLdrswRegister64 .EmitLdrRegister64
        .EmitLdrsbOffset .EmitLdrshOffset .EmitLdrswOffset64 .EmitLdrOffset64) := by
    simp only [dispatch, Instr.GetSrc1, Instr.GetDst, hdst, hsrc1]
  have hL : dispatch md func st { instr with m_opcode := .LDR } = keepState st
      (EmitLoadStore md func (some mem) (some (.reg r))
        .EmitLdrbRegister .EmitLdrhRegister .EmitLdrRegister .EmitLdrRegister64
        .EmitLdrbOffset .EmitLdrhOffset .EmitLdrOffset .EmitLdrOffset64) := by
    simp only [dispatch, Instr.GetSrc1, Instr.GetDst, hdst, hsrc1]
  refine ⟨fun h8 => ?_, fun regFn offFn plainRegFn plainOffFn hsel => ?_⟩
  · have hd : dispatch md func st { instr with m_opcode := .LDRS } =
        dispatch md func st { instr with m_opcode := .LDR } := by
      rw [hS, hL,
        EmitLoadStore_eq md func mem r _ _ _ _ _ _ _ _ .EmitLdrRegister64 .EmitLdrOffset64 hmem
          (Or.inr (Or.inr (Or.inr ⟨h8, rfl, rfl⟩))),
        EmitLoadStore_eq md func mem r _ _ _ _ _ _ _ _ .EmitLdrRegister64 .EmitLdrOffset64 hmem
          (Or.inr (Or.inr (Or.inr ⟨h8, rfl, rfl⟩)))]
    simp only [GenerateEncoding, hd]
  · have s1 : (mem.GetSize = 1 ∧ regFn = .EmitLdrsbRegister ∧ offFn = .EmitLdrsbOffset) ∨
        (mem.GetSize = 2 ∧ regFn = .EmitLdrshRegister ∧ offFn = .EmitLdrshOffset) ∨
        (mem.GetSize = 4 ∧ regFn = .EmitLdrswRegister64 ∧ offFn = .EmitLdrswOffset64) ∨
        (mem.GetSize = 8 ∧ regFn = .EmitLdrRegister64 ∧ offFn = .EmitLdrOffset64) := by
      rcases hsel with ⟨a, b, c, _, _⟩ | ⟨a, b, c, _, _⟩ | ⟨a, b, c, _, _⟩ | ⟨a, b, c, _, _⟩
      · exact Or.inr (Or.inr (Or.inr ⟨a, b, c⟩))
      · exact Or.inr (Or.inr (Or.inl ⟨a, b, c⟩))
      · exact Or.inr (Or.inl ⟨a, b, c⟩)
      · exact Or.inl ⟨a, b, c⟩
    have s2 : (mem.GetSize = 1 ∧ plainRegFn = .EmitLdrbRegister ∧
          plainOffFn = .EmitLdrbOffset) ∨
        (mem.GetSize = 2 ∧ plainRegFn = .EmitLdrhRegister ∧ plainOffFn = .EmitLdrhOffset) ∨
        (mem.GetSize = 4 ∧ plainRegFn = .EmitLdrRegister ∧ plainOffFn = .EmitLdrOffset) ∨
        (mem.GetSize = 8 ∧ plainRegFn = .EmitLdrRegister64 ∧
          plainOffFn = .EmitLdrOffset64) := by
      rcases hsel with ⟨a, _, _, b, c⟩ | ⟨a, _, _, b, c⟩ | ⟨a, _, _, b, c⟩ | ⟨a, _, _, b, c⟩
      · exact Or.inr (Or.inr (Or.inr ⟨a, b, c⟩))
      · exact Or.inr (Or.inr (Or.inl ⟨a, b, c⟩))
      · exact Or.inr (Or.inl ⟨a, b, c⟩)
      · exact Or.inl ⟨a, b, c⟩
    rw [hS, hL, EmitLoadStore_eq md func mem r _ _ _ _ _ _ _ _ regFn offFn hmem s1,
      EmitLoadStore_eq md func mem r _ _ _ _ _ _ _ _ plainRegFn plainOffFn hmem s2]
    exact ⟨rfl, rfl⟩

/-- C36, at `[x1, x2, LSL #3]` loaded into `x0`, 8 bytes wide: `LDRS` and `LDR`
give the same result, the word of `EmitLdrRegister64`. -/
theorem GenerateEncoding_LDRS_LDR_witness :
    GenerateEncoding exampleMd exampleFunc exampleState exampleLdrsWord64 64 =
      GenerateEncoding exampleMd exampleFunc exampleState exampleLdr 64 ∧
    dispatch exampleMd exampleFunc exampleState exampleLdrsWord64 =
      .ok (exampleMd.emit ⟨.EmitLdrRegister64, [.reg 0, .reg 1, .regParam 2 .SHIFT_LSL 3]⟩,
        exampleState) :=
  ⟨(GenerateEncoding_LDRS_LDR exampleMd exampleFunc exampleState exampleLdr 64 ⟨0, .TyInt64⟩
      (.indir exampleIndexed) rfl rfl rfl).1 rfl, rfl⟩

end EncoderMD
